import Mathlib

/-!
sns3-satellite: superframe allocator, request manager and ARQ receiver

A shallow embedding of `src/model/satellite-superframe-allocator.cc` and
`src/model/satellite-request-manager.cc`, and a model of the receive side of
`src/model/satellite-generic-stream-encapsulator-arq.h`, of which only the
declarations are among the sources.

Conventions of the embedding

* `uint32_t` values are natural numbers; every `+=`, `-=` and cast of the source
  is reduced modulo `2 ^ 32` explicitly (`add32`, `sub32`, `toUint32`).
* `double` values are rational numbers (exact arithmetic, no NaN, no rounding).
* `NS_FATAL_ERROR`, a failing `NS_ASSERT` and a throwing `std::vector::at` end the
  call: functions that can reach one return an `Outcome`, an `Option` or an
  `Except`.
* `Ptr<SatFrameAllocator>` is an address (a natural number); the objects pointed
  to live in the `frames` store of the allocator state.
-/

namespace ns3

/-! ## Machine integers -/

/-- Addition of two `uint32_t` values (wraps around). -/
def add32 (a b : Nat) : Nat := (a + b) % 4294967296

/-- Subtraction of two `uint32_t` values (wraps around). -/
def sub32 (a b : Nat) : Nat := (a + (4294967296 - b % 4294967296)) % 4294967296

/-- Conversion of a 64-bit signed integer to `uint32_t`: reduction modulo `2 ^ 32`. -/
def toUint32 (z : Int) : Nat := (z % 4294967296).toNat

/-! ## Superframe allocator: data model -/

/-- An object address: the value of a `Ptr<SatFrameAllocator>`. -/
abbrev Ptr := Nat

/-- The enumeration `SatFrameAllocator::CcLevel_t`. -/
inductive CcLevel_t where
  | CC_LEVEL_CRA
  | CC_LEVEL_CRA_MIN_RBDC
  | CC_LEVEL_CRA_RBDC
  | CC_LEVEL_CRA_RBDC_VBDC
  deriving DecidableEq, Repr

/-- The allocation request `SatFrameAllocator::SatFrameAllocReq`: the superframe
allocator reads only `m_cno`; the remaining members are carried in `m_reqPerRc`. -/
structure SatFrameAllocReq (D : Type) where
  m_cno : Rat
  m_reqPerRc : D

/-- The member functions of `SatFrameAllocator` that the superframe allocator
calls, over a frame allocator state `σ`. `GetBestWaveform` returns `some w` when
the C++ function returns `true` and stores `w` in its reference argument. -/
structure SatFrameAllocator (σ D : Type) where
  Reset : σ → σ
  GetBestWaveform : σ → Rat → Option Nat
  GetCcLoad : σ → CcLevel_t → Rat
  Allocate : σ → CcLevel_t → SatFrameAllocReq D → Nat → Bool × σ
  PreAllocateSymbols : σ → Rat → Bool → σ

/-- The state of a `SatSuperframeAllocator`, with the frame allocator objects its
pointers refer to (`frames`). -/
structure SatSuperframeAllocator (σ : Type) where
  m_frameAllocators : List Ptr
  frames : Ptr → σ
  m_targetLoad : Rat
  m_fcaEnabled : Bool
  m_rcBasedAllocationEnabled : Bool
  m_minCarrierPayloadInBytes : Nat
  m_minimumRateBasedBytesLeft : Nat
  m_mostRobustSlotPayloadInBytes : Nat

/-- The result of a call that may end in `NS_FATAL_ERROR`: the state when the call
returned, or the state when the fatal error was raised. -/
inductive Outcome (α : Type) where
  | returned (state : α)
  | fatal (state : α)

/-- Whether the call raised a fatal error. -/
def Outcome.isFatal {α : Type} : Outcome α → Bool
  | .returned _ => false
  | .fatal _ => true

/-- The state the call ended in. -/
def Outcome.state {α : Type} : Outcome α → α
  | .returned s => s
  | .fatal s => s

namespace SatSuperframeAllocator

variable {σ : Type}

/-- The `uint32_t` members hold 32-bit values. -/
def WellFormed (s : SatSuperframeAllocator σ) : Prop :=
  s.m_minCarrierPayloadInBytes < 4294967296 ∧
  s.m_minimumRateBasedBytesLeft < 4294967296 ∧
  s.m_mostRobustSlotPayloadInBytes < 4294967296

/-- The local `rateBasedByteToCheck` of `ReserveMinimumRate` and
`ReleaseMinimumRate`. -/
def rateBasedByteToCheck (s : SatSuperframeAllocator σ) (minimumRateBytes : Nat)
    (controlSlotsEnabled : Bool) : Nat :=
  if controlSlotsEnabled then add32 minimumRateBytes s.m_mostRobustSlotPayloadInBytes
  else minimumRateBytes

/-- The function `SatSuperframeAllocator::ReserveMinimumRate`. -/
def ReserveMinimumRate (s : SatSuperframeAllocator σ) (minimumRateBytes : Nat)
    (controlSlotsEnabled : Bool) : Outcome (SatSuperframeAllocator σ) :=
  let check := rateBasedByteToCheck s minimumRateBytes controlSlotsEnabled
  if check > s.m_minCarrierPayloadInBytes then .fatal s
  else if check > s.m_minimumRateBasedBytesLeft then .fatal s
  else .returned { s with
    m_minimumRateBasedBytesLeft := sub32 s.m_minimumRateBasedBytesLeft minimumRateBytes }

/-- The function `SatSuperframeAllocator::ReleaseMinimumRate`. -/
def ReleaseMinimumRate (s : SatSuperframeAllocator σ) (minimumRateBytes : Nat)
    (controlSlotsEnabled : Bool) : Outcome (SatSuperframeAllocator σ) :=
  let check := rateBasedByteToCheck s minimumRateBytes controlSlotsEnabled
  if check > s.m_minCarrierPayloadInBytes then .fatal s
  else .returned { s with
    m_minimumRateBasedBytesLeft := add32 s.m_minimumRateBasedBytesLeft minimumRateBytes }

/-- An allocator without frames: smallest carrier payload `minCarrier`, remaining
budget `left`, most robust slot payload `robust`. -/
def budgetOnly (minCarrier left robust : Nat) : SatSuperframeAllocator Unit where
  m_frameAllocators := []
  frames := fun _ => ()
  m_targetLoad := 0
  m_fcaEnabled := false
  m_rcBasedAllocationEnabled := false
  m_minCarrierPayloadInBytes := minCarrier
  m_minimumRateBasedBytesLeft := left
  m_mostRobustSlotPayloadInBytes := robust

end SatSuperframeAllocator

/-! ## Superframe allocator: allocation to frames -/

/-- The container `SupportedFramesMap_t` (its declaration is in the header, which is
not among the sources): a `std::map` from frame allocator pointer to waveform id,
kept as the list of its entries in iteration order, i.e. by increasing key. -/
abbrev SupportedFramesMap_t := List (Ptr × Nat)

/-- The call `std::map::insert (std::make_pair (key, value))`: the entry is placed
at its position in key order; a key already present keeps its old value. -/
def SupportedFramesMap_t.insert : SupportedFramesMap_t → Ptr × Nat → SupportedFramesMap_t
  | [], kv => [kv]
  | e :: rest, kv =>
    if kv.1 < e.1 then kv :: e :: rest
    else if kv.1 = e.1 then e :: rest
    else e :: SupportedFramesMap_t.insert rest kv

/-- A recorded call of `SatFrameAllocator::Allocate`: the frame it was made on, its
arguments and the value it returned. -/
structure AllocateCall (D : Type) where
  frame : Ptr
  ccLevel : CcLevel_t
  allocReq : SatFrameAllocReq D
  waveformId : Nat
  result : Bool

/-- A recorded call of `AllocateBasedOnCc`: the level and candidate frames passed
and the value it returned. -/
structure CcCall where
  ccLevel : CcLevel_t
  frames : SupportedFramesMap_t
  result : Bool

/-- What a run of `AllocateBasedOnCc` leaves behind. -/
structure CcRun (σ D : Type) where
  allocated : Bool
  state : SatSuperframeAllocator σ
  allocateCalls : List (AllocateCall D)

/-- What a run of `AllocateToFrame` leaves behind: the returned value, the final
state and the calls made, in order. -/
structure FrameRun (σ D : Type) where
  allocated : Bool
  state : SatSuperframeAllocator σ
  ccCalls : List CcCall
  allocateCalls : List (AllocateCall D)

namespace SatSuperframeAllocator

variable {σ D : Type}

/-- The first loop of `AllocateToFrame`: the frames that report a best waveform for
the C/N0 of the request, with that waveform. -/
def findSupportedFrames (ops : SatFrameAllocator σ D) (s : SatSuperframeAllocator σ)
    (cno : Rat) : SupportedFramesMap_t :=
  s.m_frameAllocators.foldl
    (fun supportedFrames it =>
      match ops.GetBestWaveform (s.frames it) cno with
      | some waveformId => supportedFrames.insert (it, waveformId)
      | none => supportedFrames)
    []

/-- The loop of `AllocateBasedOnCc` after its first iteration: `acc` holds
`selectedFrame` and `loadInSymbols`. -/
def selectLoop (ops : SatFrameAllocator σ D) (s : SatSuperframeAllocator σ)
    (ccLevel : CcLevel_t) : List (Ptr × Nat) → (Ptr × Nat) × Rat → (Ptr × Nat) × Rat
  | [], acc => acc
  | it :: rest, acc =>
    if ops.GetCcLoad (s.frames it.1) ccLevel < acc.2 then
      selectLoop ops s ccLevel rest (it, ops.GetCcLoad (s.frames it.1) ccLevel)
    else
      selectLoop ops s ccLevel rest acc

/-- The function `SatSuperframeAllocator::AllocateBasedOnCc`; `none` is the fatal
error "Tried to allocate without frames!!!". -/
def AllocateBasedOnCc (ops : SatFrameAllocator σ D) (s : SatSuperframeAllocator σ)
    (ccLevel : CcLevel_t) (allocReq : SatFrameAllocReq D) (frames : SupportedFramesMap_t) :
    Option (CcRun σ D) :=
  match frames with
  | [] => none
  | first :: rest =>
    let selectedFrame :=
      (selectLoop ops s ccLevel rest (first, ops.GetCcLoad (s.frames first.1) ccLevel)).1
    let r := ops.Allocate (s.frames selectedFrame.1) ccLevel allocReq selectedFrame.2
    some
      { allocated := r.1
        state := { s with frames := Function.update s.frames selectedFrame.1 r.2 }
        allocateCalls := [⟨selectedFrame.1, ccLevel, allocReq, selectedFrame.2, r.1⟩] }

/-- The function `SatSuperframeAllocator::AllocateToFrame`; `none` is a fatal error
raised by one of its calls of `AllocateBasedOnCc`. -/
def AllocateToFrame (ops : SatFrameAllocator σ D) (s : SatSuperframeAllocator σ)
    (allocReq : SatFrameAllocReq D) : Option (FrameRun σ D) :=
  let supportedFrames := findSupportedFrames ops s allocReq.m_cno
  if supportedFrames.isEmpty = false then
    match AllocateBasedOnCc ops s .CC_LEVEL_CRA_RBDC_VBDC allocReq supportedFrames with
    | none => none
    | some r1 =>
      if r1.allocated = false then
        match AllocateBasedOnCc ops r1.state .CC_LEVEL_CRA_RBDC allocReq supportedFrames with
        | none => none
        | some r2 =>
          if r2.allocated = false then
            match AllocateBasedOnCc ops r2.state .CC_LEVEL_CRA_MIN_RBDC allocReq
                supportedFrames with
            | none => none
            | some r3 =>
              if r3.allocated = false then
                match AllocateBasedOnCc ops r3.state .CC_LEVEL_CRA allocReq supportedFrames with
                | none => none
                | some r4 =>
                  some
                    { allocated := r4.allocated
                      state := r4.state
                      ccCalls :=
                        [⟨.CC_LEVEL_CRA_RBDC_VBDC, supportedFrames, r1.allocated⟩,
                         ⟨.CC_LEVEL_CRA_RBDC, supportedFrames, r2.allocated⟩,
                         ⟨.CC_LEVEL_CRA_MIN_RBDC, supportedFrames, r3.allocated⟩,
                         ⟨.CC_LEVEL_CRA, supportedFrames, r4.allocated⟩]
                      allocateCalls := r1.allocateCalls ++ r2.allocateCalls
                        ++ r3.allocateCalls ++ r4.allocateCalls }
              else
                some
                  { allocated := r3.allocated
                    state := r3.state
                    ccCalls :=
                      [⟨.CC_LEVEL_CRA_RBDC_VBDC, supportedFrames, r1.allocated⟩,
                       ⟨.CC_LEVEL_CRA_RBDC, supportedFrames, r2.allocated⟩,
                       ⟨.CC_LEVEL_CRA_MIN_RBDC, supportedFrames, r3.allocated⟩]
                    allocateCalls := r1.allocateCalls ++ r2.allocateCalls ++ r3.allocateCalls }
          else
            some
              { allocated := r2.allocated
                state := r2.state
                ccCalls :=
                  [⟨.CC_LEVEL_CRA_RBDC_VBDC, supportedFrames, r1.allocated⟩,
                   ⟨.CC_LEVEL_CRA_RBDC, supportedFrames, r2.allocated⟩]
                allocateCalls := r1.allocateCalls ++ r2.allocateCalls }
      else
        some
          { allocated := r1.allocated
            state := r1.state
            ccCalls := [⟨.CC_LEVEL_CRA_RBDC_VBDC, supportedFrames, r1.allocated⟩]
            allocateCalls := r1.allocateCalls }
  else
    some { allocated := false, state := s, ccCalls := [], allocateCalls := [] }

end SatSuperframeAllocator

/-- Modelled from the spec: `SatFrameAllocator::Allocate` is not among the sources.
The frame allocator "accepts or rejects an allocation request at a given
congestion-control richness level": a rejected request (`false`) leaves the
allocation state of the frame as it was, an accepted request (`true`) commits one
grant for the request. `grants` reads the grants a frame has committed. -/
structure AllocateContract {σ D : Type} (ops : SatFrameAllocator σ D)
    (grants : σ → List (SatFrameAllocReq D)) : Prop where
  reject_unchanged : ∀ f ccLevel allocReq waveformId,
    (ops.Allocate f ccLevel allocReq waveformId).1 = false →
      (ops.Allocate f ccLevel allocReq waveformId).2 = f
  accept_commits : ∀ f ccLevel allocReq waveformId,
    (ops.Allocate f ccLevel allocReq waveformId).1 = true →
      grants (ops.Allocate f ccLevel allocReq waveformId).2 = grants f ++ [allocReq]

/-! ### A small frame allocator for the concrete runs -/

/-- A frame with a fixed waveform (or none), a symbol capacity and the requests it
has accepted; a request asks for `m_reqPerRc` symbols. -/
structure ExampleFrame where
  waveform : Option Nat
  capacity : Nat
  accepted : List (SatFrameAllocReq Nat)

/-- The symbols in use in an `ExampleFrame`. -/
def ExampleFrame.load (f : ExampleFrame) : Nat :=
  (f.accepted.map (fun r => r.m_reqPerRc)).sum

/-- The symbols an `ExampleFrame` needs for a request at a level: the full demand at
`CC_LEVEL_CRA_RBDC_VBDC`, then a half, a quarter and nothing. -/
def ExampleFrame.demand (ccLevel : CcLevel_t) (allocReq : SatFrameAllocReq Nat) : Nat :=
  match ccLevel with
  | .CC_LEVEL_CRA_RBDC_VBDC => allocReq.m_reqPerRc
  | .CC_LEVEL_CRA_RBDC => allocReq.m_reqPerRc / 2
  | .CC_LEVEL_CRA_MIN_RBDC => allocReq.m_reqPerRc / 4
  | .CC_LEVEL_CRA => 0

/-- A frame allocator over `ExampleFrame`: it accepts a request when the demand at
the level fits the free capacity, and then records the request. -/
def exampleFrameAllocator : SatFrameAllocator ExampleFrame Nat where
  Reset f := { f with accepted := [] }
  GetBestWaveform f _ := f.waveform
  GetCcLoad f _ := (f.load : Rat)
  Allocate f ccLevel allocReq _ :=
    if f.load + ExampleFrame.demand ccLevel allocReq ≤ f.capacity then
      (true, { f with accepted := f.accepted ++ [allocReq] })
    else (false, f)
  PreAllocateSymbols f _ _ := f

/-- A superframe allocator with two example frames, held in the order 2, 1: the
frame at address 1 has capacity 10 and waveform `w1`, the frame at address 2 has
capacity 20 and waveform `w2`. -/
def twoFrames (w1 w2 : Option Nat) : SatSuperframeAllocator ExampleFrame where
  m_frameAllocators := [2, 1]
  frames := fun p => if p = 1 then ⟨w1, 10, []⟩ else ⟨w2, 20, []⟩
  m_targetLoad := 1
  m_fcaEnabled := false
  m_rcBasedAllocationEnabled := false
  m_minCarrierPayloadInBytes := 200
  m_minimumRateBasedBytesLeft := 100
  m_mostRobustSlotPayloadInBytes := 20

/-! ## Request manager: data model -/

/-- A value of `ns3::Time`: a signed 64-bit count of ticks, a tick being a
nanosecond (the default resolution of ns-3). -/
structure Time where
  ticks : Int

/-- The function `Time::GetInteger`. -/
def Time.GetInteger (t : Time) : Int := t.ticks

/-- The function `Time::GetSeconds`. -/
def Time.GetSeconds (t : Time) : Rat := (t.ticks : Rat) / 1000000000

/-- The structure `SatQueue::QueueStats_t`. -/
structure QueueStats_t where
  m_incomingRateKbps : Rat
  m_outgoingRateKbps : Rat
  m_volumeInBytes : Nat
  m_volumeOutBytes : Nat
  m_queueSizeBytes : Nat

/-- The member functions of `SatLowerLayerServiceConf` that the request manager
calls; the class is not among the sources, so each is a parameter. -/
structure SatLowerLayerServiceConf where
  GetDaServiceCount : Nat
  GetDaRbdcAllowed : Nat → Bool
  GetDaVolumeAllowed : Nat → Bool
  GetDaConstantAssignmentProvided : Nat → Bool
  GetDaConstantServiceRateInKbps : Nat → Nat
  GetDaMaximumServiceRateInKbps : Nat → Nat
  GetQuantizedRbdcValue : Nat → Rat → Nat
  GetQuantizedVbdcValue : Nat → Nat → Nat

/-- Modelled from the spec: `SatUtils::BITS_PER_BYTE` is declared in
`satellite-utils.h`, which is not among the sources; the spec measures the backlog
in kbits as 8 times the queue size in bytes over 1000. It is an integer constant:
its product with a `uint32_t` is formed in 32-bit unsigned arithmetic. -/
def BITS_PER_BYTE : Nat := 8

/-- The ways a call of the request manager can end without returning. -/
inductive Failure where
  | fatalError
  | assertFailed
  | outOfRange
  deriving DecidableEq, Repr

/-- A registered `SendCtrlCallback`. What the sink does with a message is outside
the request manager; the embedding records every invocation. -/
structure SendCtrlCallback where
  deriving DecidableEq, Repr

/-- A value of `ns3::EventId`: the identifier of a scheduled event, `none` for a
default-constructed `EventId`. -/
structure EventId where
  uid : Option Nat
  deriving DecidableEq, Repr

/-- The state of a `SatRequestManager`. A queue callback is kept as the statistics
it returns for a `reset` argument, `m_lastCno` is `none` while it is NaN. -/
structure SatRequestManager where
  m_llsConf : SatLowerLayerServiceConf
  m_evaluationInterval : Time
  m_cnoReportInterval : Time
  m_rttEstimate : Time
  m_maxPendingCrEntries : Nat
  m_gainValueK : Rat
  m_pendingRbdcRequestsKbps : List (List Nat)
  m_pendingVbdcBytes : List Nat
  m_assignedDaResourcesBytes : List Nat
  m_sumVbdcVolumeIn : List Nat
  m_queueCallbacks : Nat → Option (Bool → QueueStats_t) := fun _ => none
  m_ctrlCallback : Option SendCtrlCallback := none
  m_gwAddress : Nat := 0
  m_lastCno : Option Rat := none
  m_cnoReportEvent : EventId := ⟨none⟩

namespace SatRequestManager

/-- The function `SatRequestManager::Initialize`, on the members it assigns (the two
events it schedules belong to the simulator); `none` is the integer division by a
zero evaluation interval. -/
def Initialize (m : SatRequestManager) (llsConf : SatLowerLayerServiceConf) :
    Option SatRequestManager :=
  if m.m_evaluationInterval.GetInteger = 0 then none
  else some
    { m with
      m_llsConf := llsConf
      m_gainValueK := 1 / (2 * m.m_evaluationInterval.GetSeconds)
      m_maxPendingCrEntries :=
        toUint32 (Int.tdiv m.m_rttEstimate.GetInteger m.m_evaluationInterval.GetInteger)
      m_pendingRbdcRequestsKbps := List.replicate llsConf.GetDaServiceCount []
      m_pendingVbdcBytes := List.replicate llsConf.GetDaServiceCount 0
      m_assignedDaResourcesBytes := List.replicate llsConf.GetDaServiceCount 0
      m_sumVbdcVolumeIn := List.replicate llsConf.GetDaServiceCount 0 }

/-- The function `SatRequestManager::GetPendingRbdcSumKbps`. -/
def GetPendingRbdcSumKbps (m : SatRequestManager) (rc : Nat) : Except Failure Nat :=
  match m.m_pendingRbdcRequestsKbps[rc]? with
  | none => .error .outOfRange
  | some cont => .ok (cont.foldl add32 0)

/-- The function `SatRequestManager::UpdatePendingRbdcCounters`. -/
def UpdatePendingRbdcCounters (m : SatRequestManager) (rc : Nat) (value : Nat) :
    Except Failure SatRequestManager :=
  match m.m_pendingRbdcRequestsKbps[rc]? with
  | none => .error .outOfRange
  | some cont =>
    let pushed := cont ++ [value]
    let popped := if pushed.length > m.m_maxPendingCrEntries then pushed.tail else pushed
    if popped.length ≤ m.m_maxPendingCrEntries then
      .ok { m with m_pendingRbdcRequestsKbps := m.m_pendingRbdcRequestsKbps.set rc popped }
    else .error .assertFailed

/-- The raw RBDC request of `DoRbdc` (lines 350-362): the value of `reqRbdcKbps`
before the CRA is taken into account, for a pending sum `pendingSumKbps`. In
`SatUtils::BITS_PER_BYTE * stats.m_queueSizeBytes / 1000.0` the product of the two
integers is formed first, as a `uint32_t` (it wraps around), and then divided by
the `double`. -/
def rawRbdcKbps (m : SatRequestManager) (stats : QueueStats_t) (pendingSumKbps : Nat) : Rat :=
  let coefficient := m.m_gainValueK / m.m_evaluationInterval.GetSeconds
  let thisRbdcKbits := stats.m_incomingRateKbps * m.m_evaluationInterval.GetSeconds
  let previousRbdcKbits := (pendingSumKbps : Rat) * m.m_evaluationInterval.GetSeconds
  let reqRbdcKbps := stats.m_incomingRateKbps
  let totalQueueSizeInKBits :=
    (((BITS_PER_BYTE * stats.m_queueSizeBytes) % 4294967296 : Nat) : Rat) / 1000
  let rbdcSumKbits := thisRbdcKbits + previousRbdcKbits
  if totalQueueSizeInKBits > rbdcSumKbits then
    reqRbdcKbps + coefficient * (totalQueueSizeInKBits - rbdcSumKbits)
  else reqRbdcKbps

/-- The second part of `DoRbdc` (lines 367-393): the value of `reqRbdcKbps` that is
handed to the quantizer, from the raw request. -/
def rbdcAfterCra (llsConf : SatLowerLayerServiceConf) (rc : Nat) (raw : Rat) :
    Except Failure Rat :=
  if llsConf.GetDaConstantAssignmentProvided rc then
    let reduced :=
      if raw ≤ (llsConf.GetDaConstantServiceRateInKbps rc : Rat) then 0
      else raw - (llsConf.GetDaConstantServiceRateInKbps rc : Rat)
    if llsConf.GetDaConstantServiceRateInKbps rc < llsConf.GetDaMaximumServiceRateInKbps rc then
      if (llsConf.GetDaConstantServiceRateInKbps rc : Rat) + reduced
          > (llsConf.GetDaMaximumServiceRateInKbps rc : Rat) then
        .ok ((llsConf.GetDaMaximumServiceRateInKbps rc : Rat)
          - (llsConf.GetDaConstantServiceRateInKbps rc : Rat))
      else .ok reduced
    else .error .assertFailed
  else if raw > (llsConf.GetDaMaximumServiceRateInKbps rc : Rat) then
    .ok (llsConf.GetDaMaximumServiceRateInKbps rc : Rat)
  else .ok raw

/-- The function `SatRequestManager::DoRbdc`: the returned `crRbdcKbps` and the new
state. -/
def DoRbdc (m : SatRequestManager) (rc : Nat) (stats : QueueStats_t) :
    Except Failure (Nat × SatRequestManager) :=
  match GetPendingRbdcSumKbps m rc with
  | .error e => .error e
  | .ok pendingSumKbps =>
    match rbdcAfterCra m.m_llsConf rc (rawRbdcKbps m stats pendingSumKbps) with
    | .error e => .error e
    | .ok reqRbdcKbps =>
      let crRbdcKbps := m.m_llsConf.GetQuantizedRbdcValue rc reqRbdcKbps % 4294967296
      match UpdatePendingRbdcCounters m rc crRbdcKbps with
      | .error e => .error e
      | .ok m1 => .ok (crRbdcKbps, m1)

/-- The states a request manager can be in after `Initialize (llsConf)` on the
constructed object `m0` and any sequence of returning `DoRbdc` and
`UpdatePendingRbdcCounters` calls. -/
inductive Reachable (m0 : SatRequestManager) (llsConf : SatLowerLayerServiceConf) :
    SatRequestManager → Prop where
  | init (m : SatRequestManager) : Initialize m0 llsConf = some m → Reachable m0 llsConf m
  | doRbdc (m m1 : SatRequestManager) (rc : Nat) (stats : QueueStats_t) (r : Nat) :
      Reachable m0 llsConf m → DoRbdc m rc stats = .ok (r, m1) → Reachable m0 llsConf m1
  | update (m m1 : SatRequestManager) (rc value : Nat) :
      Reachable m0 llsConf m → UpdatePendingRbdcCounters m rc value = .ok m1 →
      Reachable m0 llsConf m1

/-- Modelled from the spec: `SatLowerLayerServiceConf::GetQuantizedRbdcValue` is not
among the sources; the spec has the request quantized "to the nearest allowed
discrete step (external quantization table)". `nearestStep table x` is the entry of
`table` nearest to `x` (the earlier entry on a tie, 0 for an empty table). -/
def nearestStep (table : List Nat) (x : Rat) : Nat :=
  table.foldl
    (fun (best step : Nat) => if |(step : Rat) - x| < |(best : Rat) - x| then step else best)
    (table.headD 0)

/-- A service configuration with one request class: RBDC allowed, CRA provided at
`constantRate` kbps, maximum rate `maximumRate` kbps, requests quantized to the
nearest entry of `table`. -/
def oneRcConf (constantRate maximumRate : Nat) (table : List Nat) :
    SatLowerLayerServiceConf where
  GetDaServiceCount := 1
  GetDaRbdcAllowed := fun _ => true
  GetDaVolumeAllowed := fun _ => false
  GetDaConstantAssignmentProvided := fun _ => true
  GetDaConstantServiceRateInKbps := fun _ => constantRate
  GetDaMaximumServiceRateInKbps := fun _ => maximumRate
  GetQuantizedRbdcValue := fun _ x => nearestStep table x
  GetQuantizedVbdcValue := fun _ v => v

/-- The request manager as its constructor leaves it, with the given RTT estimate
and evaluation interval (in ticks) and service configuration. -/
def constructed (rtt evaluation : Int) (llsConf : SatLowerLayerServiceConf) :
    SatRequestManager where
  m_llsConf := llsConf
  m_evaluationInterval := ⟨evaluation⟩
  m_cnoReportInterval := ⟨100000000⟩
  m_rttEstimate := ⟨rtt⟩
  m_maxPendingCrEntries := 0
  m_gainValueK := 0
  m_pendingRbdcRequestsKbps := []
  m_pendingVbdcBytes := []
  m_assignedDaResourcesBytes := []
  m_sumVbdcVolumeIn := []

/-- The request manager after `Initialize`, for a non-zero evaluation interval. -/
def initialized (rtt evaluation : Int) (llsConf : SatLowerLayerServiceConf) :
    SatRequestManager :=
  (Initialize (constructed rtt evaluation llsConf) llsConf).getD
    (constructed rtt evaluation llsConf)

end SatRequestManager

namespace SatRequestManager

/-- A service configuration with one request class without CRA: RBDC allowed,
maximum rate `maximumRate` kbps, requests quantized to the nearest entry of
`table`. -/
def oneRcConfNoCra (maximumRate : Nat) (table : List Nat) : SatLowerLayerServiceConf where
  GetDaServiceCount := 1
  GetDaRbdcAllowed := fun _ => true
  GetDaVolumeAllowed := fun _ => false
  GetDaConstantAssignmentProvided := fun _ => false
  GetDaConstantServiceRateInKbps := fun _ => 0
  GetDaMaximumServiceRateInKbps := fun _ => maximumRate
  GetQuantizedRbdcValue := fun _ x => nearestStep table x
  GetQuantizedVbdcValue := fun _ v => v

end SatRequestManager

namespace SatRequestManager

/-- The request manager `initialized 560000000 100000000 llsConf` (RTT estimate
560 ms, evaluation interval 100 ms) after two calls
`UpdatePendingRbdcCounters (0, value)`. -/
def twoPending (llsConf : SatLowerLayerServiceConf) (value : Nat) : SatRequestManager :=
  { initialized 560000000 100000000 llsConf with
    m_pendingRbdcRequestsKbps :=
      (initialized 560000000 100000000 llsConf).m_pendingRbdcRequestsKbps.set 0 [value, value] }

end SatRequestManager

/-! ## Request manager: volume based requests -/

/-- Modelled from the spec: `SatEnums::SatCapacityAllocationCategory_t` is declared in
`satellite-enums.h`, which is not among the sources; the spec lists the categories
CRA, RBDC, VBDC and AVBDC. -/
inductive SatCapacityAllocationCategory_t where
  | DA_CRA
  | DA_RBDC
  | DA_VBDC
  | DA_AVBDC
  deriving DecidableEq, Repr

/-- The conversion `(uint32_t)(x)` of a `double`: truncation toward zero, then
reduction modulo `2 ^ 32` (the C++ conversion is only defined for a truncated value
within the 32-bit range). -/
def truncToUint32 (x : Rat) : Nat := toUint32 (Int.tdiv x.num x.den)

/-- The expression `(uint32_t)(ceil (vbdcBytes / 1000.0))`. -/
def ceilKBytes (vbdcBytes : Nat) : Nat := toUint32 ⌈(vbdcBytes : Rat) / 1000⌉

namespace SatRequestManager

/-- The assignment `v.at (rc) = value` on a `std::vector<uint32_t>`: it throws
`std::out_of_range` when `rc` is not an index of `v`. -/
def setAt (v : List Nat) (rc value : Nat) : Except Failure (List Nat) :=
  if rc < v.length then .ok (v.set rc value) else .error .outOfRange

/-- The function `SatRequestManager::Reset`. -/
def Reset (m : SatRequestManager) (rc : Nat) : Except Failure SatRequestManager :=
  match setAt m.m_assignedDaResourcesBytes rc 0 with
  | .error e => .error e
  | .ok assigned =>
    match setAt m.m_pendingVbdcBytes rc 0 with
    | .error e => .error e
    | .ok pending =>
      match setAt m.m_sumVbdcVolumeIn rc 0 with
      | .error e => .error e
      | .ok sumIn =>
        .ok { m with
          m_assignedDaResourcesBytes := assigned
          m_pendingVbdcBytes := pending
          m_sumVbdcVolumeIn := sumIn }

/-- The function `SatRequestManager::AssignedDaResources`. -/
def AssignedDaResources (m : SatRequestManager) (rcIndex bytes : Nat) :
    Except Failure SatRequestManager :=
  match m.m_assignedDaResourcesBytes[rcIndex]? with
  | none => .error .outOfRange
  | some assigned =>
    .ok { m with
      m_assignedDaResourcesBytes := m.m_assignedDaResourcesBytes.set rcIndex (add32 assigned bytes) }

/-- The calls `AssignedDaResources (rcIndex, bytes)` for each entry of `reports`, in
order. -/
def AssignedDaResourcesAll (m : SatRequestManager) (rcIndex : Nat) :
    List Nat → Except Failure SatRequestManager
  | [] => .ok m
  | bytes :: rest =>
    match AssignedDaResources m rcIndex bytes with
    | .error e => .error e
    | .ok m1 => AssignedDaResourcesAll m1 rcIndex rest

/-- The function `SatRequestManager::UpdatePendingVbdcCounters`. -/
def UpdatePendingVbdcCounters (m : SatRequestManager) (rc : Nat) :
    Except Failure SatRequestManager :=
  match m.m_pendingVbdcBytes[rc]?, m.m_assignedDaResourcesBytes[rc]? with
  | some pending, some assigned =>
    if pending > assigned then
      .ok { m with
        m_pendingVbdcBytes := m.m_pendingVbdcBytes.set rc (pending - assigned)
        m_assignedDaResourcesBytes := m.m_assignedDaResourcesBytes.set rc 0 }
    else
      .ok { m with
        m_pendingVbdcBytes := m.m_pendingVbdcBytes.set rc 0
        m_assignedDaResourcesBytes := m.m_assignedDaResourcesBytes.set rc 0 }
  | _, _ => .error .outOfRange

/-- The local `craBytes` of `GetAvbdcKBytes` and `GetVbdcKBytes`: the bytes the
configured CRA gives to `rc` in one evaluation interval, 0 without CRA. -/
def craBytes (m : SatRequestManager) (rc : Nat) : Nat :=
  if m.m_llsConf.GetDaConstantAssignmentProvided rc then
    truncToUint32
      ((1000 * (m.m_llsConf.GetDaConstantServiceRateInKbps rc : Rat)
          * m.m_evaluationInterval.GetSeconds) / (BITS_PER_BYTE : Rat))
  else 0

/-- The function `SatRequestManager::GetAvbdcKBytes`: the returned KBytes and the
new state. -/
def GetAvbdcKBytes (m : SatRequestManager) (rc : Nat) (stats : QueueStats_t) :
    Except Failure (Nat × SatRequestManager) :=
  match Reset m rc with
  | .error e => .error e
  | .ok m1 =>
    let vbdcBytes := stats.m_queueSizeBytes
    if craBytes m1 rc < vbdcBytes then
      let vbdcKBytes :=
        m1.m_llsConf.GetQuantizedVbdcValue rc (ceilKBytes (vbdcBytes - craBytes m1 rc))
          % 4294967296
      match m1.m_pendingVbdcBytes[rc]? with
      | none => .error .outOfRange
      | some pending =>
        .ok (vbdcKBytes,
          { m1 with
            m_pendingVbdcBytes :=
              m1.m_pendingVbdcBytes.set rc (add32 pending (1000 * vbdcKBytes)) })
    else .ok (0, m1)

/-- The function `SatRequestManager::GetVbdcKBytes`: the returned KBytes and the new
state. -/
def GetVbdcKBytes (m : SatRequestManager) (rc : Nat) (stats : QueueStats_t) :
    Except Failure (Nat × SatRequestManager) :=
  let vbdcBytes := stats.m_volumeInBytes
  if craBytes m rc < vbdcBytes then
    match m.m_sumVbdcVolumeIn[rc]? with
    | none => .error .outOfRange
    | some sumIn =>
      let sumIn1 := add32 sumIn (vbdcBytes - craBytes m rc)
      let m1 := { m with m_sumVbdcVolumeIn := m.m_sumVbdcVolumeIn.set rc sumIn1 }
      match m1.m_pendingVbdcBytes[rc]? with
      | none => .error .outOfRange
      | some pending =>
        if pending < sumIn1 then
          let vbdcKBytes :=
            m1.m_llsConf.GetQuantizedVbdcValue rc (ceilKBytes (sumIn1 - pending)) % 4294967296
          .ok (vbdcKBytes,
            { m1 with
              m_pendingVbdcBytes :=
                m1.m_pendingVbdcBytes.set rc (add32 pending (1000 * vbdcKBytes)) })
        else .ok (0, m1)
  else .ok (0, m)

/-- The function `SatRequestManager::DoVbdc`: the returned category, the KBytes
stored in `rcVbdcKBytes` and the new state. -/
def DoVbdc (m : SatRequestManager) (rc : Nat) (stats : QueueStats_t) :
    Except Failure (SatCapacityAllocationCategory_t × Nat × SatRequestManager) :=
  match UpdatePendingVbdcCounters m rc with
  | .error e => .error e
  | .ok m1 =>
    if stats.m_volumeInBytes > 0 then
      match m1.m_pendingVbdcBytes[rc]? with
      | none => .error .outOfRange
      | some pending =>
        if pending = 0 then
          match GetAvbdcKBytes m1 rc stats with
          | .error e => .error e
          | .ok (vbdcKBytes, m2) => .ok (.DA_AVBDC, vbdcKBytes, m2)
        else
          match GetVbdcKBytes m1 rc stats with
          | .error e => .error e
          | .ok (vbdcKBytes, m2) => .ok (.DA_VBDC, vbdcKBytes, m2)
    else .ok (.DA_AVBDC, 0, m1)

/-- A service configuration with one request class for volume requests: volume
allowed, RBDC not allowed, CRA provided or not at `constantRate` kbps, every
KByte value allowed (the quantizer returns its argument). -/
def oneRcVbdcConf (craProvided : Bool) (constantRate : Nat) : SatLowerLayerServiceConf where
  GetDaServiceCount := 1
  GetDaRbdcAllowed := fun _ => false
  GetDaVolumeAllowed := fun _ => true
  GetDaConstantAssignmentProvided := fun _ => craProvided
  GetDaConstantServiceRateInKbps := fun _ => constantRate
  GetDaMaximumServiceRateInKbps := fun _ => 1000
  GetQuantizedRbdcValue := fun _ _ => 0
  GetQuantizedVbdcValue := fun _ v => v

/-- The request manager `initialized 560000000 100000000 llsConf` with the VBDC
counters of class 0 set to the given values. -/
def vbdcState (llsConf : SatLowerLayerServiceConf) (pending assigned sumIn : Nat) :
    SatRequestManager :=
  { initialized 560000000 100000000 llsConf with
    m_pendingVbdcBytes := [pending]
    m_assignedDaResourcesBytes := [assigned]
    m_sumVbdcVolumeIn := [sumIn] }

end SatRequestManager

/-! ## Request manager: evaluation cycle -/

/-- Modelled from the spec: `SatCrMessage` is not among the sources; the spec has the
Capacity Request as an "ordered set of per-rc control elements {category, value}
plus a channel-quality estimate". -/
structure SatCrMessage where
  m_requestData : List (Nat × SatCapacityAllocationCategory_t × Nat)
  m_cnoEstimate : Option Rat

/-- Modelled from the spec: `SatCrMessage::AddControlElement`, which appends the
control element to the message. -/
def SatCrMessage.AddControlElement (msg : SatCrMessage) (rcIndex : Nat)
    (cac : SatCapacityAllocationCategory_t) (value : Nat) : SatCrMessage :=
  { msg with m_requestData := msg.m_requestData ++ [(rcIndex, cac, value)] }

/-- Modelled from the spec: `SatCrMessage::HasNonZeroContent`; the message is sent
"if any element is non-zero". -/
def SatCrMessage.HasNonZeroContent (msg : SatCrMessage) : Bool :=
  msg.m_requestData.any (fun element => decide (element.2.2 ≠ 0))

/-- Modelled from the spec: `SatCrMessage::SetCnoEstimate`. -/
def SatCrMessage.SetCnoEstimate (msg : SatCrMessage) (cno : Option Rat) : SatCrMessage :=
  { msg with m_cnoEstimate := cno }

/-- A control message handed to the control callback: a Capacity Request or a
C/N0 report (`SatCnoReportMessage`) with its estimate. -/
inductive SatControlMessage where
  | capacityRequest (crMsg : SatCrMessage)
  | cnoReport (cnoEstimate : Option Rat)

/-- The member functions of the request manager that it schedules. -/
inductive EventHandler where
  | DoPeriodicalEvaluation
  | SendCnoReport
  deriving DecidableEq, Repr

/-- An event held by the simulator. -/
structure ScheduledEvent where
  uid : Nat
  ts : Int
  cancelled : Bool
  handler : EventHandler
  deriving DecidableEq, Repr

/-- Modelled from the spec: the scheduler is an injected capability ("schedule-at,
cancel"), its timers are "cancellable scheduled events"; the state of `Simulator`
is the current time in ticks, the next event identifier and the events scheduled. -/
structure Simulator where
  m_currentTs : Int
  m_uid : Nat
  m_events : List ScheduledEvent

/-- Modelled from the spec: `Simulator::Schedule (delay, handler)` adds an event due
at the current time plus `delay` and returns its identifier. -/
def Simulator.Schedule (sim : Simulator) (delay : Time) (handler : EventHandler) :
    EventId × Simulator :=
  (⟨some sim.m_uid⟩,
    { sim with
      m_uid := sim.m_uid + 1
      m_events := sim.m_events ++ [⟨sim.m_uid, sim.m_currentTs + delay.ticks, false, handler⟩] })

/-- Modelled from the spec: `EventId::Cancel` marks the event as cancelled, so that
it "must not produce a later side effect"; a default `EventId` cancels nothing. -/
def Simulator.Cancel (sim : Simulator) (id : EventId) : Simulator :=
  match id.uid with
  | none => sim
  | some uid =>
    { sim with
      m_events := sim.m_events.map
        (fun event => if event.uid = uid then { event with cancelled := true } else event) }

/-- The event the scheduler runs next among `events`: the earliest one, the first
scheduled among equally early ones. -/
def earliest : List ScheduledEvent → Option ScheduledEvent
  | [] => none
  | event :: rest =>
    match earliest rest with
    | none => some event
    | some other => if other.ts < event.ts then some other else some event

/-- Modelled from the spec: the scheduler invokes the earliest event that was not
cancelled ("a canceled timer must not produce a later side effect"), advances the
time to it and drops it from the events it holds; `none` when nothing is left to
run. -/
def Simulator.InvokeNext (sim : Simulator) : Option (ScheduledEvent × Simulator) :=
  match earliest (sim.m_events.filter (fun event => !event.cancelled)) with
  | none => none
  | some event =>
    some (event,
      { sim with
        m_currentTs := event.ts
        m_events := sim.m_events.filter (fun other => decide (other.uid ≠ event.uid)) })

/-- The simulator states that can follow `sim`: any sequence of `Schedule`, `Cancel`
and `InvokeNext` steps. -/
inductive Simulator.Later (sim : Simulator) : Simulator → Prop where
  | refl : Simulator.Later sim sim
  | schedule (sim1 : Simulator) (delay : Time) (handler : EventHandler) :
      Simulator.Later sim sim1 → Simulator.Later sim (sim1.Schedule delay handler).2
  | cancel (sim1 : Simulator) (id : EventId) :
      Simulator.Later sim sim1 → Simulator.Later sim (sim1.Cancel id)
  | invoke (sim1 sim2 : Simulator) (event : ScheduledEvent) :
      Simulator.Later sim sim1 → sim1.InvokeNext = some (event, sim2) →
      Simulator.Later sim sim2

/-- The C/N0 report events of the request manager that are pending in `sim`: not
cancelled and not yet run. -/
def Simulator.pendingReports (sim : Simulator) : List ScheduledEvent :=
  sim.m_events.filter
    (fun event => !event.cancelled && decide (event.handler = EventHandler.SendCnoReport))

/-- The estimators of the request manager. -/
inductive Estimator where
  | DoRbdc
  | DoVbdc
  deriving DecidableEq, Repr

/-- A recorded estimator call of `DoEvaluation`: the request class, the estimator
run, the category and the value it returned. -/
structure EstimatorCall where
  rc : Nat
  estimator : Estimator
  cac : SatCapacityAllocationCategory_t
  value : Nat
  deriving DecidableEq, Repr

/-- A record written to a trace source of the request manager: `m_crTraceLog` (with
the request class, category, value and queue size of the line), `m_rbdcTrace`,
`m_vbdcTrace` or `m_crTrace`. -/
inductive TraceRecord where
  | crTraceLog (rc : Nat) (cac : SatCapacityAllocationCategory_t) (value queueSizeBytes : Nat)
  | rbdcTrace (rbdcRateKbps : Nat)
  | vbdcTrace (vbdcKBytes : Nat)
  | crTrace (crMsg : SatCrMessage)

/-- What the loop of `DoEvaluation` has built so far: the state, the Capacity
Request, and the calls and trace records made, in order. -/
structure EvaluationLoop where
  manager : SatRequestManager
  crMsg : SatCrMessage
  queueCalls : List (Nat × Bool)
  estimatorCalls : List EstimatorCall
  traces : List TraceRecord

/-- What a run of `SendCapacityRequest` or `SendCnoReport` leaves behind: the states
of the request manager and the simulator, the messages handed to the control
callback with their destination, and the trace records. -/
structure SendRun where
  manager : SatRequestManager
  simulator : Simulator
  sent : List (SatControlMessage × Nat)
  traces : List TraceRecord

/-- What a run of `DoEvaluation` leaves behind. -/
structure EvaluationRun where
  manager : SatRequestManager
  simulator : Simulator
  crMsg : SatCrMessage
  queueCalls : List (Nat × Bool)
  estimatorCalls : List EstimatorCall
  traces : List TraceRecord
  sent : List (SatControlMessage × Nat)

namespace SatRequestManager

/-- The function `SatRequestManager::ResetAssignedResources` on the indices still to
visit. -/
def resetAssignedLoop : List Nat → SatRequestManager → Except Failure SatRequestManager
  | [], m => .ok m
  | i :: rest, m =>
    match setAt m.m_assignedDaResourcesBytes i 0 with
    | .error e => .error e
    | .ok assigned => resetAssignedLoop rest { m with m_assignedDaResourcesBytes := assigned }

/-- The function `SatRequestManager::ResetAssignedResources`. -/
def ResetAssignedResources (m : SatRequestManager) : Except Failure SatRequestManager :=
  resetAssignedLoop (List.range m.m_llsConf.GetDaServiceCount) m

/-- The function `SatRequestManager::SendCapacityRequest`. -/
def SendCapacityRequest (m : SatRequestManager) (sim : Simulator) (crMsg : SatCrMessage) :
    Except Failure SendRun :=
  let sim1 := sim.Cancel m.m_cnoReportEvent
  match m.m_ctrlCallback with
  | some _ =>
    let scheduled := sim1.Schedule m.m_cnoReportInterval .SendCnoReport
    .ok
      { manager := { m with m_cnoReportEvent := scheduled.1 }
        simulator := scheduled.2
        sent := [(.capacityRequest (crMsg.SetCnoEstimate m.m_lastCno), m.m_gwAddress)]
        traces := [.crTrace crMsg] }
  | none => .error .fatalError

/-- The function `SatRequestManager::SendCnoReport`. -/
def SendCnoReport (m : SatRequestManager) (sim : Simulator) : Except Failure SendRun :=
  match m.m_ctrlCallback with
  | some _ =>
    let scheduled := sim.Schedule m.m_cnoReportInterval .SendCnoReport
    .ok
      { manager := { m with m_cnoReportEvent := scheduled.1 }
        simulator := scheduled.2
        sent := [(.cnoReport m.m_lastCno, m.m_gwAddress)]
        traces := [] }
  | none => .error .fatalError

/-- The function `SatRequestManager::CnoUpdated`: it stores the estimate. -/
def CnoUpdated (m : SatRequestManager) (cno : Rat) : SatRequestManager :=
  { m with m_lastCno := some cno }

/-- The local `reset` of `DoEvaluation`: the initializer
`(periodical = true ? true : false)` assigns `true` to `periodical` and yields the
assigned value. -/
def resetFlag (periodical : Bool) : Bool :=
  let _unused := periodical
  let periodical1 := if true then true else false
  periodical1

/-- The body of the loop of `DoEvaluation` for the request class `rc`. -/
def evaluateRc (reset : Bool) (st : EvaluationLoop) (rc : Nat) : Except Failure EvaluationLoop :=
  match st.manager.m_queueCallbacks rc with
  | none => .error .outOfRange
  | some queueCallback =>
    let stats := queueCallback reset
    let llsConf := st.manager.m_llsConf
    if llsConf.GetDaRbdcAllowed rc && !llsConf.GetDaVolumeAllowed rc then
      match DoRbdc st.manager rc stats with
      | .error e => .error e
      | .ok (rbdcRateKbps, m1) =>
        .ok
          { manager := m1
            crMsg := st.crMsg.AddControlElement rc .DA_RBDC rbdcRateKbps
            queueCalls := st.queueCalls ++ [(rc, reset)]
            estimatorCalls := st.estimatorCalls ++ [⟨rc, .DoRbdc, .DA_RBDC, rbdcRateKbps⟩]
            traces := st.traces ++
              (if rbdcRateKbps > 0 then
                [.crTraceLog rc .DA_RBDC rbdcRateKbps stats.m_queueSizeBytes,
                 .rbdcTrace rbdcRateKbps]
               else []) }
    else if llsConf.GetDaVolumeAllowed rc && !llsConf.GetDaRbdcAllowed rc then
      match DoVbdc st.manager rc stats with
      | .error e => .error e
      | .ok (cac, vbdcKBytes, m1) =>
        .ok
          { manager := m1
            crMsg := st.crMsg.AddControlElement rc cac vbdcKBytes
            queueCalls := st.queueCalls ++ [(rc, reset)]
            estimatorCalls := st.estimatorCalls ++ [⟨rc, .DoVbdc, cac, vbdcKBytes⟩]
            traces := st.traces ++
              (if vbdcKBytes > 0 then
                [.crTraceLog rc cac vbdcKBytes stats.m_queueSizeBytes, .vbdcTrace vbdcKBytes]
               else []) }
    else if llsConf.GetDaRbdcAllowed rc && llsConf.GetDaVolumeAllowed rc then
      .error .fatalError
    else
      .ok { st with queueCalls := st.queueCalls ++ [(rc, reset)] }

/-- The loop of `DoEvaluation` over the request classes still to visit. -/
def evaluationLoop (reset : Bool) : List Nat → EvaluationLoop → Except Failure EvaluationLoop
  | [], st => .ok st
  | rc :: rest, st =>
    match evaluateRc reset st rc with
    | .error e => .error e
    | .ok st1 => evaluationLoop reset rest st1

/-- The function `SatRequestManager::DoEvaluation`; the service count is a
`uint8_t`, the loop visits the request classes `0 .. count - 1` in order. -/
def DoEvaluation (m : SatRequestManager) (sim : Simulator) (periodical : Bool) :
    Except Failure EvaluationRun :=
  let reset := resetFlag periodical
  match evaluationLoop reset (List.range m.m_llsConf.GetDaServiceCount)
      { manager := m, crMsg := ⟨[], none⟩, queueCalls := [], estimatorCalls := [],
        traces := [] } with
  | .error e => .error e
  | .ok st =>
    if st.crMsg.HasNonZeroContent then
      match SendCapacityRequest st.manager sim st.crMsg with
      | .error e => .error e
      | .ok sendRun =>
        match ResetAssignedResources sendRun.manager with
        | .error e => .error e
        | .ok m1 =>
          .ok
            { manager := m1
              simulator := sendRun.simulator
              crMsg := st.crMsg
              queueCalls := st.queueCalls
              estimatorCalls := st.estimatorCalls
              traces := st.traces ++ sendRun.traces
              sent := sendRun.sent }
    else
      match ResetAssignedResources st.manager with
      | .error e => .error e
      | .ok m1 =>
        .ok
          { manager := m1
            simulator := sim
            crMsg := st.crMsg
            queueCalls := st.queueCalls
            estimatorCalls := st.estimatorCalls
            traces := st.traces
            sent := [] }

/-- A service configuration with three request classes: class 0 with RBDC only
(CRA of 50 kbps, maximum 100 kbps, steps 0, 32, 64, 96), class 1 with volume only
(every KByte value allowed) and class 2 with neither; with `bothOnTwo` class 2 has
both RBDC and volume allowed. -/
def threeRcConf (bothOnTwo : Bool) : SatLowerLayerServiceConf where
  GetDaServiceCount := 3
  GetDaRbdcAllowed := fun rc => rc = 0 || (rc = 2 && bothOnTwo)
  GetDaVolumeAllowed := fun rc => rc = 1 || (rc = 2 && bothOnTwo)
  GetDaConstantAssignmentProvided := fun rc => rc = 0
  GetDaConstantServiceRateInKbps := fun _ => 50
  GetDaMaximumServiceRateInKbps := fun _ => 100
  GetQuantizedRbdcValue := fun _ x => nearestStep [0, 32, 64, 96] x
  GetQuantizedVbdcValue := fun _ v => v

/-- The request manager `initialized 560000000 100000000 llsConf` with a queue
callback for every request class that reports the same statistics `stats`, and the
given control callback. -/
def evaluationState (llsConf : SatLowerLayerServiceConf) (stats : QueueStats_t)
    (ctrlCallback : Option SendCtrlCallback) : SatRequestManager :=
  { initialized 560000000 100000000 llsConf with
    m_queueCallbacks := fun _ => some (fun _ => stats)
    m_ctrlCallback := ctrlCallback
    m_gwAddress := 7
    m_lastCno := some 12 }

/-- The request manager `evaluationState llsConf stats ctrlCallback` after resources
were reported to it: its assigned-resource counters are `assigned`. -/
def reportedState (llsConf : SatLowerLayerServiceConf) (stats : QueueStats_t)
    (ctrlCallback : Option SendCtrlCallback) (assigned : List Nat) : SatRequestManager :=
  { evaluationState llsConf stats ctrlCallback with m_assignedDaResourcesBytes := assigned }

/-- A simulator at time 0 with nothing scheduled. -/
def idleSimulator : Simulator where
  m_currentTs := 0
  m_uid := 0
  m_events := []

end SatRequestManager

namespace SatRequestManager

/-- The members of the request manager that the estimators and the evaluation loop
leave alone: `m1` has the configuration, callbacks, addresses, timers and vector
sizes of `m`. -/
structure Unchanged (m m1 : SatRequestManager) : Prop where
  llsConf : m1.m_llsConf = m.m_llsConf
  evaluationInterval : m1.m_evaluationInterval = m.m_evaluationInterval
  cnoReportInterval : m1.m_cnoReportInterval = m.m_cnoReportInterval
  maxPendingCrEntries : m1.m_maxPendingCrEntries = m.m_maxPendingCrEntries
  queueCallbacks : m1.m_queueCallbacks = m.m_queueCallbacks
  ctrlCallback : m1.m_ctrlCallback = m.m_ctrlCallback
  gwAddress : m1.m_gwAddress = m.m_gwAddress
  lastCno : m1.m_lastCno = m.m_lastCno
  cnoReportEvent : m1.m_cnoReportEvent = m.m_cnoReportEvent
  pendingRbdcLength : m1.m_pendingRbdcRequestsKbps.length = m.m_pendingRbdcRequestsKbps.length
  pendingVbdcLength : m1.m_pendingVbdcBytes.length = m.m_pendingVbdcBytes.length
  assignedLength : m1.m_assignedDaResourcesBytes.length = m.m_assignedDaResourcesBytes.length
  sumLength : m1.m_sumVbdcVolumeIn.length = m.m_sumVbdcVolumeIn.length

/-- The state in which an evaluation cycle finds a request manager that was
initialized and wired: a queue callback for every request class below the service
count, one entry per request class in each vector, pending windows within their
bound, and a constant rate below the maximum rate wherever CRA is provided. -/
structure EvaluationReady (m : SatRequestManager) : Prop where
  queueCallbacks : ∀ rc, rc < m.m_llsConf.GetDaServiceCount → (m.m_queueCallbacks rc).isSome = true
  pendingRbdcLength : m.m_pendingRbdcRequestsKbps.length = m.m_llsConf.GetDaServiceCount
  pendingVbdcLength : m.m_pendingVbdcBytes.length = m.m_llsConf.GetDaServiceCount
  assignedLength : m.m_assignedDaResourcesBytes.length = m.m_llsConf.GetDaServiceCount
  sumLength : m.m_sumVbdcVolumeIn.length = m.m_llsConf.GetDaServiceCount
  windowsBounded : ∀ w ∈ m.m_pendingRbdcRequestsKbps, w.length ≤ m.m_maxPendingCrEntries
  constantBelowMaximum : ∀ rc, rc < m.m_llsConf.GetDaServiceCount →
    m.m_llsConf.GetDaConstantAssignmentProvided rc = true →
    m.m_llsConf.GetDaConstantServiceRateInKbps rc < m.m_llsConf.GetDaMaximumServiceRateInKbps rc

/-- The report timer of a request manager in a simulator: the identifiers the
simulator has issued are below its counter, `m_cnoReportEvent` was issued by it,
and a pending C/N0 report event is the one `m_cnoReportEvent` identifies (what
`Initialize`, `SendCnoReport` and `SendCapacityRequest` leave behind). -/
structure ReportTimer (m : SatRequestManager) (sim : Simulator) : Prop where
  issued : ∀ event ∈ sim.m_events, event.uid < sim.m_uid
  own : ∀ uid, m.m_cnoReportEvent.uid = some uid → uid < sim.m_uid
  tracked : ∀ event ∈ sim.pendingReports, m.m_cnoReportEvent.uid = some event.uid

/-- The request manager `evaluationState llsConf stats ctrlCallback` whose report
timer is the event 0. -/
def timerState (llsConf : SatLowerLayerServiceConf) (stats : QueueStats_t)
    (ctrlCallback : Option SendCtrlCallback) : SatRequestManager :=
  { evaluationState llsConf stats ctrlCallback with m_cnoReportEvent := ⟨some 0⟩ }

/-- A simulator at 40 ms in which the event 0, a C/N0 report due at 100 ms, is
pending. -/
def reportScheduled : Simulator where
  m_currentTs := 40000000
  m_uid := 1
  m_events := [⟨0, 100000000, false, .SendCnoReport⟩]

/-- The control element `DoEvaluation` adds after an estimator call. -/
def controlElement (call : EstimatorCall) : Nat × SatCapacityAllocationCategory_t × Nat :=
  (call.rc, call.cac, call.value)

/-- The estimator `DoEvaluation` runs for a request class, from its capability
flags: `DoRbdc` with RBDC only, `DoVbdc` with volume only, none otherwise. -/
def dispatch (llsConf : SatLowerLayerServiceConf) (rc : Nat) : Option Estimator :=
  if llsConf.GetDaRbdcAllowed rc && !llsConf.GetDaVolumeAllowed rc then some .DoRbdc
  else if llsConf.GetDaVolumeAllowed rc && !llsConf.GetDaRbdcAllowed rc then some .DoVbdc
  else none

end SatRequestManager

/-! ## Superframe allocator: time slots and pre-allocation -/

/-- The member function `SatFrameAllocator::GenerateTimeSlots`, which the superframe
allocator calls on each frame; the class is not among the sources, so the function
is a parameter. It receives the frame state, the TBTP container, the byte budget,
the UT allocation container, the RC-based allocation flag and the traced callbacks,
and returns the new frame state with the new contents of the two containers it
received by reference. `M` is the TBTP message pointer, `U` the container
`UtAllocInfoContainer_t`, `C` the three traced callbacks. -/
structure SatFrameSlotGenerator (σ M U C : Type) where
  GenerateTimeSlots : σ → List M → Nat → U → Bool → C → σ × List M × U

/-- A recorded call of `SatFrameAllocator::GenerateTimeSlots`: the frame it was made
on, the arguments (the containers with their contents on entry) and the contents
of the containers when it returned. -/
structure GenerateCall (M U C : Type) where
  frame : Ptr
  tbtpContainer : List M
  maxSizeInBytes : Nat
  utAllocContainer : U
  rcBasedAllocationEnabled : Bool
  traces : C
  tbtpContainerAfter : List M
  utAllocContainerAfter : U

/-- What a run of `SatSuperframeAllocator::GenerateTimeSlots` leaves behind: the
state, the contents of the two containers and the calls made, in order. -/
structure SlotRun (σ M U C : Type) where
  state : SatSuperframeAllocator σ
  tbtpContainer : List M
  utAllocContainer : U
  calls : List (GenerateCall M U C)

/-- A step of `SatSuperframeAllocator::PreAllocateSymbols`: a call of `Reset` on a
frame, a call of `AllocateToFrame` with the value it returned, or a call of
`PreAllocateSymbols` on a frame with its arguments. -/
inductive PreAllocEvent (D : Type) where
  | reset (frame : Ptr)
  | allocateToFrame (allocReq : SatFrameAllocReq D) (allocated : Bool)
  | preAllocateSymbols (frame : Ptr) (targetLoad : Rat) (fcaEnabled : Bool)

/-- What a run of `SatSuperframeAllocator::PreAllocateSymbols` leaves behind: the
state and the calls made, in order. -/
structure PreAllocRun (σ D : Type) where
  state : SatSuperframeAllocator σ
  events : List (PreAllocEvent D)

namespace SatSuperframeAllocator

variable {σ D M U C : Type}

/-- The body of the loop of `GenerateTimeSlots` for the frame allocator `it`. -/
def generateStep (gen : SatFrameSlotGenerator σ M U C) (maxSizeInBytes : Nat) (traces : C)
    (run : SlotRun σ M U C) (it : Ptr) : SlotRun σ M U C :=
  let r := gen.GenerateTimeSlots (run.state.frames it) run.tbtpContainer maxSizeInBytes
    run.utAllocContainer run.state.m_rcBasedAllocationEnabled traces
  { state := { run.state with frames := Function.update run.state.frames it r.1 }
    tbtpContainer := r.2.1
    utAllocContainer := r.2.2
    calls := run.calls ++
      [⟨it, run.tbtpContainer, maxSizeInBytes, run.utAllocContainer,
        run.state.m_rcBasedAllocationEnabled, traces, r.2.1, r.2.2⟩] }

/-- The loop of `GenerateTimeSlots` over the frame allocators still to visit. -/
def generateLoop (gen : SatFrameSlotGenerator σ M U C) (maxSizeInBytes : Nat) (traces : C) :
    List Ptr → SlotRun σ M U C → SlotRun σ M U C
  | [], run => run
  | it :: rest, run =>
    generateLoop gen maxSizeInBytes traces rest (generateStep gen maxSizeInBytes traces run it)

/-- The function `SatSuperframeAllocator::GenerateTimeSlots`; `fatal` is the error
"TBTP container must contain at least one message.". -/
def GenerateTimeSlots (gen : SatFrameSlotGenerator σ M U C) (s : SatSuperframeAllocator σ)
    (tbtpContainer : List M) (maxSizeInBytes : Nat) (utAllocContainer : U) (traces : C) :
    Outcome (SlotRun σ M U C) :=
  if tbtpContainer.isEmpty then
    .fatal { state := s, tbtpContainer := tbtpContainer, utAllocContainer := utAllocContainer,
             calls := [] }
  else
    .returned (generateLoop gen maxSizeInBytes traces s.m_frameAllocators
      { state := s, tbtpContainer := tbtpContainer, utAllocContainer := utAllocContainer,
        calls := [] })

/-- The body of the loop of `RemoveAllocations` for the frame allocator `it`. -/
def resetStep (ops : SatFrameAllocator σ D) (run : PreAllocRun σ D) (it : Ptr) :
    PreAllocRun σ D :=
  { state := { run.state with
      frames := Function.update run.state.frames it (ops.Reset (run.state.frames it)) }
    events := run.events ++ [.reset it] }

/-- The loop of `RemoveAllocations` over the frame allocators still to visit. -/
def resetLoop (ops : SatFrameAllocator σ D) : List Ptr → PreAllocRun σ D → PreAllocRun σ D
  | [], run => run
  | it :: rest, run => resetLoop ops rest (resetStep ops run it)

/-- The function `SatSuperframeAllocator::RemoveAllocations`, as a part of a run of
`PreAllocateSymbols`. -/
def RemoveAllocations (ops : SatFrameAllocator σ D) (run : PreAllocRun σ D) : PreAllocRun σ D :=
  resetLoop ops run.state.m_frameAllocators run

/-- The second loop of `PreAllocateSymbols`, over the requests still to allocate;
the value `AllocateToFrame` returns is not looked at; `none` is a fatal error
raised inside `AllocateToFrame`. -/
def allocateLoop (ops : SatFrameAllocator σ D) :
    List (SatFrameAllocReq D) → PreAllocRun σ D → Option (PreAllocRun σ D)
  | [], run => some run
  | itReq :: rest, run =>
    match AllocateToFrame ops run.state itReq with
    | none => none
    | some r =>
      allocateLoop ops rest
        { state := r.state, events := run.events ++ [.allocateToFrame itReq r.allocated] }

/-- The body of the third loop of `PreAllocateSymbols` for the frame allocator
`it`. -/
def preAllocateStep (ops : SatFrameAllocator σ D) (run : PreAllocRun σ D) (it : Ptr) :
    PreAllocRun σ D :=
  { state := { run.state with
      frames := Function.update run.state.frames it
        (ops.PreAllocateSymbols (run.state.frames it) run.state.m_targetLoad
          run.state.m_fcaEnabled) }
    events := run.events ++
      [.preAllocateSymbols it run.state.m_targetLoad run.state.m_fcaEnabled] }

/-- The third loop of `PreAllocateSymbols`, over the frame allocators still to
visit. -/
def preAllocateLoop (ops : SatFrameAllocator σ D) : List Ptr → PreAllocRun σ D → PreAllocRun σ D
  | [], run => run
  | it :: rest, run => preAllocateLoop ops rest (preAllocateStep ops run it)

/-- The function `SatSuperframeAllocator::PreAllocateSymbols`; `none` is a fatal
error raised inside `AllocateToFrame`. -/
def PreAllocateSymbols (ops : SatFrameAllocator σ D) (s : SatSuperframeAllocator σ)
    (allocReqs : List (SatFrameAllocReq D)) : Option (PreAllocRun σ D) :=
  match allocateLoop ops allocReqs (RemoveAllocations ops { state := s, events := [] }) with
  | none => none
  | some run => some (preAllocateLoop ops run.state.m_frameAllocators run)

end SatSuperframeAllocator

/-! ## ARQ encapsulator: receive side -/

/-- Modelled from the spec: the receive side of `SatGenericStreamEncapsulatorArq`;
only the declaration of the class is among the sources. The members are
`m_nextExpectedSeqNo` (a `uint32_t`), the reordering buffer (a map "from continuous
sequence number to a buffered fragment", kept as the list of its entries) and
`m_arqWindowSize`; `received` lists the fragments handed to the upper layer and
`acks` the wire sequence numbers acknowledged, in order. `P` is the fragment. -/
structure SatGenericStreamEncapsulatorArq (P : Type) where
  m_nextExpectedSeqNo : Nat
  m_reorderingBuffer : List (Nat × P)
  m_arqWindowSize : Nat
  received : List P
  acks : List Nat

namespace SatGenericStreamEncapsulatorArq

variable {P : Type}

/-- Modelled from the spec: `ConvertSeqNo` is not among the sources. It converts
the "8-bit wire sequence number to a monotonically increasing 32-bit number by
unwrapping relative to the next-expected pointer": the 32-bit number with the low
byte `seqNo` in the round of the next-expected pointer, or in the round before or
after it when that is more than half the sequence space away. -/
def ConvertSeqNo (arq : SatGenericStreamEncapsulatorArq P) (seqNo : Nat) : Nat :=
  let rawSeqNo := arq.m_nextExpectedSeqNo % 256
  let sameRound := arq.m_nextExpectedSeqNo - rawSeqNo + seqNo
  if seqNo ≥ rawSeqNo then
    if seqNo - rawSeqNo > 128 then sub32 sameRound 256 else sameRound % 4294967296
  else
    if rawSeqNo - seqNo > 128 then add32 sameRound 256 else sameRound % 4294967296

/-- Modelled from the spec: the loop of `ReassembleAndReceive`, which is not among
the sources, for at most `fuel` entries: "starting at the next-expected pointer,
deliver a maximal contiguous run of buffered entries to the upper layer, in order,
exactly once each; advance the next-expected pointer past the last delivered
entry; remove delivered entries from the buffer". -/
def reassembleLoop : Nat → SatGenericStreamEncapsulatorArq P → SatGenericStreamEncapsulatorArq P
  | 0, arq => arq
  | fuel + 1, arq =>
    match arq.m_reorderingBuffer.find? (fun entry => decide (entry.1 = arq.m_nextExpectedSeqNo)) with
    | none => arq
    | some entry =>
      reassembleLoop fuel
        { arq with
          m_nextExpectedSeqNo := add32 arq.m_nextExpectedSeqNo 1
          m_reorderingBuffer := arq.m_reorderingBuffer.filter
            (fun other => decide (other.1 ≠ arq.m_nextExpectedSeqNo))
          received := arq.received ++ [entry.2] }

/-- Modelled from the spec: `ReassembleAndReceive`; every pass of the loop removes
an entry, so one pass per buffered entry is enough. -/
def ReassembleAndReceive (arq : SatGenericStreamEncapsulatorArq P) :
    SatGenericStreamEncapsulatorArq P :=
  reassembleLoop arq.m_reorderingBuffer.length arq

/-- Modelled from the spec: `ReceivePdu`, which is not among the sources, for a
fragment `p` with the wire sequence number `seqNo`: "convert its 8-bit wire
sequence number ...; store it in the reordering buffer; ... unconditionally emit an
ACK for the received wire sequence number", then the reassembly pass. A number
already buffered keeps its entry (`std::map::insert`); the waiting timer of the
entry is not part of this model. -/
def ReceivePdu (arq : SatGenericStreamEncapsulatorArq P) (seqNo : Nat) (p : P) :
    SatGenericStreamEncapsulatorArq P :=
  let sn := ConvertSeqNo arq seqNo
  let stored :=
    if arq.m_reorderingBuffer.any (fun entry => decide (entry.1 = sn)) then arq.m_reorderingBuffer
    else arq.m_reorderingBuffer ++ [(sn, p)]
  ReassembleAndReceive { arq with m_reorderingBuffer := stored, acks := arq.acks ++ [seqNo] }

/-- Modelled from the spec: the wire sequence numbers of the fragments sent from the
`first`-th on, with no retransmission: the transmit side assigns "the next sequence
number (cyclic 8-bit) to fresh fragments". -/
def transmit (first : Nat) : List P → List (Nat × P)
  | [] => []
  | p :: rest => (first % 256, p) :: transmit (first + 1) rest

/-- The receiver after the PDUs of `pdus` arrived, in this order. -/
def receiveAll (arq : SatGenericStreamEncapsulatorArq P) : List (Nat × P) →
    SatGenericStreamEncapsulatorArq P
  | [] => arq
  | pdu :: rest => receiveAll (ReceivePdu arq pdu.1 pdu.2) rest

/-- A receiver that has received nothing: next expected number 0, empty buffer. -/
def fresh (arqWindowSize : Nat) : SatGenericStreamEncapsulatorArq P where
  m_nextExpectedSeqNo := 0
  m_reorderingBuffer := []
  m_arqWindowSize := arqWindowSize
  received := []
  acks := []

end SatGenericStreamEncapsulatorArq

/-! ## Theorems -/

namespace SatSuperframeAllocator

variable {σ : Type}

/-- C1: whenever `ReserveMinimumRate (bytes, controlSlotsEnabled)` returns without a
fatal error, the following `ReleaseMinimumRate` with the same arguments returns
without a fatal error and the remaining budget (indeed the whole state) is what it
was before the reservation. -/
theorem reserve_then_release_restores (s s1 : SatSuperframeAllocator σ)
    (bytes : Nat) (controlSlotsEnabled : Bool)
    (hleft : s.m_minimumRateBasedBytesLeft < 4294967296)
    (hres : ReserveMinimumRate s bytes controlSlotsEnabled = .returned s1) :
    ∃ s2, ReleaseMinimumRate s1 bytes controlSlotsEnabled = .returned s2 ∧
      s2.m_minimumRateBasedBytesLeft = s.m_minimumRateBasedBytesLeft ∧ s2 = s := by
  unfold ReserveMinimumRate at hres
  simp only at hres
  split_ifs at hres with h1 h2
  cases hres
  have hround : add32 (sub32 s.m_minimumRateBasedBytesLeft bytes) bytes
      = s.m_minimumRateBasedBytesLeft := by
    unfold add32 sub32
    omega
  refine ⟨s, ?_, rfl, rfl⟩
  unfold ReleaseMinimumRate
  simp only [rateBasedByteToCheck] at h1 ⊢
  rw [if_neg h1, hround]

/-- Witness for C1: reserving 30 bytes with control slots from a budget of 100 bytes. -/
theorem reserve_then_release_restores_witness :
    ∃ s2, ReleaseMinimumRate
        { budgetOnly 200 100 20 with m_minimumRateBasedBytesLeft := 70 } 30 true
          = .returned s2 ∧
      s2.m_minimumRateBasedBytesLeft = (budgetOnly 200 100 20).m_minimumRateBasedBytesLeft ∧
      s2 = budgetOnly 200 100 20 :=
  reserve_then_release_restores (budgetOnly 200 100 20)
    { budgetOnly 200 100 20 with m_minimumRateBasedBytesLeft := 70 } 30 true
    (by decide) (by rfl)

/-- C2, counterexample: with smallest carrier payload 10, remaining budget 5 and a
most robust slot payload of 100 bytes, reserving `2 ^ 32 - 100` bytes with control
slots gives a sum of `2 ^ 32`, above both limits, yet the call raises no fatal
error (the 32-bit sum is 0) and the budget becomes 105, not `5 - bytes`. -/
theorem reserve_fatal_iff_counterexample :
    ¬ (((ReserveMinimumRate (budgetOnly 10 5 100) 4294967196 true).isFatal = true ↔
          (4294967196 + 100 > 10 ∨ 4294967196 + 100 > 5)) ∧
        ((ReserveMinimumRate (budgetOnly 10 5 100) 4294967196 true).isFatal = false →
          ((ReserveMinimumRate (budgetOnly 10 5 100) 4294967196
              true).state.m_minimumRateBasedBytesLeft : Int) = 5 - 4294967196)) := by
  intro h
  have hnot : (ReserveMinimumRate (budgetOnly 10 5 100) 4294967196 true).isFatal = false := by
    decide
  have hfatal := h.1.mpr (Or.inl (by decide))
  rw [hnot] at hfatal
  exact Bool.noConfusion hfatal

/-- C2, amended: with `tested` the 32-bit sum
`(bytes + (mostRobustSlotPayloadInBytes if controlSlotsEnabled, else 0)) mod 2 ^ 32`,
`ReserveMinimumRate` raises a fatal error if and only if `tested` exceeds the
smallest carrier payload or the remaining budget; when it raises, the state is
unchanged; when it does not, the new budget is `(old - bytes) mod 2 ^ 32`, which is
`old - bytes` with `bytes <= old` whenever the sum did not wrap. -/
theorem reserve_fatal_iff_tested32 (s : SatSuperframeAllocator σ) (bytes : Nat)
    (controlSlotsEnabled : Bool)
    (hleft : s.m_minimumRateBasedBytesLeft < 4294967296) (hbytes : bytes < 4294967296) :
    ((ReserveMinimumRate s bytes controlSlotsEnabled).isFatal = true ↔
      ((bytes + if controlSlotsEnabled then s.m_mostRobustSlotPayloadInBytes else 0)
          % 4294967296 > s.m_minCarrierPayloadInBytes ∨
       (bytes + if controlSlotsEnabled then s.m_mostRobustSlotPayloadInBytes else 0)
          % 4294967296 > s.m_minimumRateBasedBytesLeft)) ∧
    ((ReserveMinimumRate s bytes controlSlotsEnabled).isFatal = true →
      (ReserveMinimumRate s bytes controlSlotsEnabled).state = s) ∧
    ((ReserveMinimumRate s bytes controlSlotsEnabled).isFatal = false →
      ((ReserveMinimumRate s bytes controlSlotsEnabled).state.m_minimumRateBasedBytesLeft
          = (s.m_minimumRateBasedBytesLeft + 4294967296 - bytes) % 4294967296) ∧
      ((bytes + if controlSlotsEnabled then s.m_mostRobustSlotPayloadInBytes else 0)
          < 4294967296 →
        bytes ≤ s.m_minimumRateBasedBytesLeft ∧
        (ReserveMinimumRate s bytes controlSlotsEnabled).state.m_minimumRateBasedBytesLeft
          = s.m_minimumRateBasedBytesLeft - bytes)) := by
  have hcheck : rateBasedByteToCheck s bytes controlSlotsEnabled
      = (bytes + if controlSlotsEnabled then s.m_mostRobustSlotPayloadInBytes else 0)
          % 4294967296 := by
    unfold rateBasedByteToCheck add32
    cases controlSlotsEnabled
    · simp only [Bool.false_eq_true, if_false, Nat.add_zero]
      omega
    · simp only [if_true]
  have hge : (bytes + if controlSlotsEnabled then s.m_mostRobustSlotPayloadInBytes else 0)
      < 4294967296 → bytes ≤ rateBasedByteToCheck s bytes controlSlotsEnabled := by
    intro hsum
    rw [hcheck, Nat.mod_eq_of_lt hsum]
    exact Nat.le_add_right _ _
  rw [← hcheck]
  unfold ReserveMinimumRate
  simp only
  by_cases h1 : rateBasedByteToCheck s bytes controlSlotsEnabled > s.m_minCarrierPayloadInBytes
  · rw [if_pos h1]
    simp [Outcome.isFatal, Outcome.state, h1]
  · rw [if_neg h1]
    by_cases h2 : rateBasedByteToCheck s bytes controlSlotsEnabled
        > s.m_minimumRateBasedBytesLeft
    · rw [if_pos h2]
      simp [Outcome.isFatal, Outcome.state, h2]
    · rw [if_neg h2]
      refine ⟨?_, ?_, ?_⟩
      · simp [Outcome.isFatal, h1, h2]
      · simp [Outcome.isFatal]
      · intro _
        simp only [Outcome.state]
        refine ⟨?_, ?_⟩
        · unfold sub32
          omega
        · intro hsum
          have := hge hsum
          unfold sub32
          omega

/-- Witness for C2 (amended): 30 bytes with control slots (payload 20) against a
smallest carrier payload of 200 and a remaining budget of 100 leave 70 bytes. -/
theorem reserve_fatal_iff_tested32_witness :
    30 ≤ (budgetOnly 200 100 20).m_minimumRateBasedBytesLeft ∧
    (ReserveMinimumRate (budgetOnly 200 100 20) 30 true).state.m_minimumRateBasedBytesLeft
      = (budgetOnly 200 100 20).m_minimumRateBasedBytesLeft - 30 :=
  ((reserve_fatal_iff_tested32 (budgetOnly 200 100 20) 30 true (by decide)
    (by decide)).2.2 (by decide)).2 (by decide)

/-- C3, counterexample: with a smallest carrier payload of 10 bytes, releasing 11
bytes raises the fatal error of `ReleaseMinimumRate`, and the budget stays 5
instead of becoming 16. -/
theorem release_always_succeeds_counterexample :
    (ReleaseMinimumRate (budgetOnly 10 5 0) 11 false).isFatal = true ∧
    (ReleaseMinimumRate (budgetOnly 10 5 0) 11 false).state.m_minimumRateBasedBytesLeft
      ≠ 5 + 11 := by
  decide

/-- C3, amended: `ReleaseMinimumRate` raises a fatal error if and only if the 32-bit
sum `tested = (bytes + (mostRobustSlotPayloadInBytes if controlSlotsEnabled, else 0))
mod 2 ^ 32` exceeds the smallest carrier payload, whatever the remaining budget is;
when it raises, the state is unchanged; when it does not, the new budget is
`(old + bytes) mod 2 ^ 32`, which is `old + bytes` when that sum fits 32 bits. -/
theorem release_fatal_iff_tested32 (s : SatSuperframeAllocator σ) (bytes : Nat)
    (controlSlotsEnabled : Bool) (hbytes : bytes < 4294967296) :
    ((ReleaseMinimumRate s bytes controlSlotsEnabled).isFatal = true ↔
      (bytes + if controlSlotsEnabled then s.m_mostRobustSlotPayloadInBytes else 0)
          % 4294967296 > s.m_minCarrierPayloadInBytes) ∧
    ((ReleaseMinimumRate s bytes controlSlotsEnabled).isFatal = true →
      (ReleaseMinimumRate s bytes controlSlotsEnabled).state = s) ∧
    ((ReleaseMinimumRate s bytes controlSlotsEnabled).isFatal = false →
      ((ReleaseMinimumRate s bytes controlSlotsEnabled).state.m_minimumRateBasedBytesLeft
          = (s.m_minimumRateBasedBytesLeft + bytes) % 4294967296) ∧
      (s.m_minimumRateBasedBytesLeft + bytes < 4294967296 →
        (ReleaseMinimumRate s bytes controlSlotsEnabled).state.m_minimumRateBasedBytesLeft
          = s.m_minimumRateBasedBytesLeft + bytes)) := by
  have hcheck : rateBasedByteToCheck s bytes controlSlotsEnabled
      = (bytes + if controlSlotsEnabled then s.m_mostRobustSlotPayloadInBytes else 0)
          % 4294967296 := by
    unfold rateBasedByteToCheck add32
    cases controlSlotsEnabled
    · simp only [Bool.false_eq_true, if_false, Nat.add_zero]
      omega
    · simp only [if_true]
  rw [← hcheck]
  unfold ReleaseMinimumRate
  simp only
  by_cases h1 : rateBasedByteToCheck s bytes controlSlotsEnabled > s.m_minCarrierPayloadInBytes
  · rw [if_pos h1]
    simp [Outcome.isFatal, Outcome.state, h1]
  · rw [if_neg h1]
    refine ⟨?_, ?_, ?_⟩
    · simp [Outcome.isFatal, h1]
    · simp [Outcome.isFatal]
    · intro _
      simp only [Outcome.state, add32]
      exact ⟨trivial, fun hsum => Nat.mod_eq_of_lt hsum⟩

/-- Witness for C3 (amended): releasing 30 bytes with control slots (payload 20)
into a budget of 70 bytes, smallest carrier payload 200, gives 100 bytes. -/
theorem release_fatal_iff_tested32_witness :
    (ReleaseMinimumRate (budgetOnly 200 70 20) 30 true).state.m_minimumRateBasedBytesLeft
      = (budgetOnly 200 70 20).m_minimumRateBasedBytesLeft + 30 :=
  ((release_fatal_iff_tested32 (budgetOnly 200 70 20) 30 true (by decide)).2.2
    (by decide)).2 (by decide)

/-- C4, counterexample: the budget equals the smallest carrier payload (10 bytes);
releasing one byte raises no fatal error and leaves a budget of 11 bytes, above the
smallest carrier payload. -/
theorem budget_bounded_counterexample :
    (budgetOnly 10 10 0).m_minimumRateBasedBytesLeft
      ≤ (budgetOnly 10 10 0).m_minCarrierPayloadInBytes ∧
    (ReleaseMinimumRate (budgetOnly 10 10 0) 1 false).isFatal = false ∧
    ¬ ((ReleaseMinimumRate (budgetOnly 10 10 0) 1 false).state.m_minimumRateBasedBytesLeft
      ≤ (ReleaseMinimumRate (budgetOnly 10 10 0) 1 false).state.m_minCarrierPayloadInBytes) := by
  decide

/-- C4, amended: from a state whose remaining budget is at most the smallest carrier
payload, a `ReserveMinimumRate` that raises no fatal error and whose tested sum
fits 32 bits does not increase the budget, so the bound still holds; a
`ReleaseMinimumRate` that raises no fatal error keeps the bound when
`old budget + bytes` is at most the smallest carrier payload (neither call changes
the smallest carrier payload). -/
theorem budget_bound_preserved (s : SatSuperframeAllocator σ) (bytes : Nat)
    (controlSlotsEnabled : Bool) (hwf : WellFormed s)
    (hbound : s.m_minimumRateBasedBytesLeft ≤ s.m_minCarrierPayloadInBytes) :
    ((bytes + if controlSlotsEnabled then s.m_mostRobustSlotPayloadInBytes else 0)
          < 4294967296 →
      (ReserveMinimumRate s bytes controlSlotsEnabled).isFatal = false →
      (ReserveMinimumRate s bytes controlSlotsEnabled).state.m_minimumRateBasedBytesLeft
          ≤ s.m_minimumRateBasedBytesLeft ∧
      (ReserveMinimumRate s bytes controlSlotsEnabled).state.m_minimumRateBasedBytesLeft
          ≤ (ReserveMinimumRate s bytes controlSlotsEnabled).state.m_minCarrierPayloadInBytes) ∧
    ((ReleaseMinimumRate s bytes controlSlotsEnabled).isFatal = false →
      s.m_minimumRateBasedBytesLeft + bytes ≤ s.m_minCarrierPayloadInBytes →
      (ReleaseMinimumRate s bytes controlSlotsEnabled).state.m_minimumRateBasedBytesLeft
          ≤ (ReleaseMinimumRate s bytes controlSlotsEnabled).state.m_minCarrierPayloadInBytes) := by
  obtain ⟨hmin, hleft, hrobust⟩ := hwf
  constructor
  · intro hsum
    have hge : bytes ≤ rateBasedByteToCheck s bytes controlSlotsEnabled := by
      unfold rateBasedByteToCheck add32
      cases controlSlotsEnabled
      · simp
      · simp only [if_true] at hsum ⊢
        rw [Nat.mod_eq_of_lt hsum]
        exact Nat.le_add_right _ _
    unfold ReserveMinimumRate
    simp only
    by_cases h1 : rateBasedByteToCheck s bytes controlSlotsEnabled > s.m_minCarrierPayloadInBytes
    · rw [if_pos h1]
      simp [Outcome.isFatal]
    · rw [if_neg h1]
      by_cases h2 : rateBasedByteToCheck s bytes controlSlotsEnabled
          > s.m_minimumRateBasedBytesLeft
      · rw [if_pos h2]
        simp [Outcome.isFatal]
      · rw [if_neg h2]
        intro _
        simp only [Outcome.state, sub32]
        omega
  · unfold ReleaseMinimumRate
    simp only
    by_cases h1 : rateBasedByteToCheck s bytes controlSlotsEnabled > s.m_minCarrierPayloadInBytes
    · rw [if_pos h1]
      simp [Outcome.isFatal]
    · rw [if_neg h1]
      intro _ hsum
      simp only [Outcome.state, add32]
      omega

/-- Witness for C4 (amended): budget 70, smallest carrier payload 200, 30 bytes with
control slots (payload 20). -/
theorem budget_bound_preserved_witness :
    (ReserveMinimumRate (budgetOnly 200 70 20) 30 true).state.m_minimumRateBasedBytesLeft
        ≤ (ReserveMinimumRate (budgetOnly 200 70 20) 30
            true).state.m_minCarrierPayloadInBytes ∧
    (ReleaseMinimumRate (budgetOnly 200 70 20) 30 true).state.m_minimumRateBasedBytesLeft
        ≤ (ReleaseMinimumRate (budgetOnly 200 70 20) 30
            true).state.m_minCarrierPayloadInBytes :=
  ⟨((budget_bound_preserved (budgetOnly 200 70 20) 30 true
      ⟨by decide, by decide, by decide⟩ (by decide)).1 (by decide) (by decide)).2,
   (budget_bound_preserved (budgetOnly 200 70 20) 30 true
      ⟨by decide, by decide, by decide⟩ (by decide)).2 (by decide) (by decide)⟩

/-! ### Allocation to frames -/

variable {D : Type}

theorem foldl_supported_of_none (ops : SatFrameAllocator σ D) (s : SatSuperframeAllocator σ)
    (cno : Rat) (l : List Ptr) (init : SupportedFramesMap_t)
    (h : ∀ p ∈ l, ops.GetBestWaveform (s.frames p) cno = none) :
    l.foldl
      (fun supportedFrames it =>
        match ops.GetBestWaveform (s.frames it) cno with
        | some waveformId => supportedFrames.insert (it, waveformId)
        | none => supportedFrames) init = init := by
  induction l generalizing init with
  | nil => rfl
  | cons q rest ih =>
    rw [List.foldl_cons, h q (List.mem_cons_self _ _)]
    exact ih _ (fun p hp => h p (List.mem_cons_of_mem _ hp))

theorem allocateBasedOnCc_some (ops : SatFrameAllocator σ D) (s : SatSuperframeAllocator σ)
    (ccLevel : CcLevel_t) (allocReq : SatFrameAllocReq D) (frames : SupportedFramesMap_t)
    (hne : frames ≠ []) :
    ∃ r, AllocateBasedOnCc ops s ccLevel allocReq frames = some r := by
  cases frames with
  | nil => exact absurd rfl hne
  | cons first rest => exact ⟨_, rfl⟩

theorem selectLoop_first_min (ops : SatFrameAllocator σ D) (s : SatSuperframeAllocator σ)
    (ccLevel : CcLevel_t) (rest a b : List (Ptr × Nat)) (sel : Ptr × Nat)
    (ha : ∀ x ∈ a, ops.GetCcLoad (s.frames sel.1) ccLevel < ops.GetCcLoad (s.frames x.1) ccLevel)
    (hb : ∀ x ∈ b, ops.GetCcLoad (s.frames sel.1) ccLevel ≤ ops.GetCcLoad (s.frames x.1) ccLevel) :
    ∃ a1 sel1 b1, a ++ sel :: b ++ rest = a1 ++ sel1 :: b1 ∧
      (selectLoop ops s ccLevel rest (sel, ops.GetCcLoad (s.frames sel.1) ccLevel)).1 = sel1 ∧
      (∀ x ∈ a1,
        ops.GetCcLoad (s.frames sel1.1) ccLevel < ops.GetCcLoad (s.frames x.1) ccLevel) ∧
      (∀ x ∈ b1,
        ops.GetCcLoad (s.frames sel1.1) ccLevel ≤ ops.GetCcLoad (s.frames x.1) ccLevel) := by
  induction rest generalizing a b sel with
  | nil => exact ⟨a, sel, b, by simp, rfl, ha, hb⟩
  | cons it rest ih =>
    unfold selectLoop
    by_cases hlt : ops.GetCcLoad (s.frames it.1) ccLevel < ops.GetCcLoad (s.frames sel.1) ccLevel
    · rw [if_pos hlt]
      obtain ⟨a1, sel1, b1, heq, hsel, ha1, hb1⟩ := ih (a ++ sel :: b) [] it
        (by
          intro x hx
          rcases List.mem_append.mp hx with hxa | hxb
          · exact lt_trans hlt (ha x hxa)
          · rcases List.mem_cons.mp hxb with hxs | hxb
            · rw [hxs]; exact hlt
            · exact lt_of_lt_of_le hlt (hb x hxb))
        (by simp)
      exact ⟨a1, sel1, b1, by rw [← heq]; simp, hsel, ha1, hb1⟩
    · rw [if_neg hlt]
      obtain ⟨a1, sel1, b1, heq, hsel, ha1, hb1⟩ := ih a (b ++ [it]) sel ha
        (by
          intro x hx
          rcases List.mem_append.mp hx with hxb | hxi
          · exact hb x hxb
          · rw [List.mem_singleton.mp hxi]; exact not_lt.mp hlt)
      exact ⟨a1, sel1, b1, by rw [← heq]; simp, hsel, ha1, hb1⟩

/-- C6: for a non-empty candidate collection `frames`, `AllocateBasedOnCc` returns,
and `frames` splits as `a ++ sel :: b` where every candidate before `sel` has a
strictly higher load at the level and every candidate after it a load at least as
high (so `sel` is the first candidate of minimum load); the run makes exactly one
call of `Allocate`, on the frame of `sel` with the given level, the request and the
waveform recorded for `sel`, returns the value of that call, and changes the state
of that frame only. -/
theorem allocateBasedOnCc_lowest_load (ops : SatFrameAllocator σ D)
    (s : SatSuperframeAllocator σ) (ccLevel : CcLevel_t) (allocReq : SatFrameAllocReq D)
    (frames : SupportedFramesMap_t) (hne : frames ≠ []) :
    ∃ a sel b, frames = a ++ sel :: b ∧
      (∀ x ∈ a, ops.GetCcLoad (s.frames sel.1) ccLevel < ops.GetCcLoad (s.frames x.1) ccLevel) ∧
      (∀ x ∈ b, ops.GetCcLoad (s.frames sel.1) ccLevel ≤ ops.GetCcLoad (s.frames x.1) ccLevel) ∧
      ∃ r, AllocateBasedOnCc ops s ccLevel allocReq frames = some r ∧
        r.allocated = (ops.Allocate (s.frames sel.1) ccLevel allocReq sel.2).1 ∧
        r.allocateCalls = [⟨sel.1, ccLevel, allocReq, sel.2,
          (ops.Allocate (s.frames sel.1) ccLevel allocReq sel.2).1⟩] ∧
        r.state =
          { s with
            frames := Function.update s.frames sel.1
              (ops.Allocate (s.frames sel.1) ccLevel allocReq sel.2).2 } := by
  cases frames with
  | nil => exact absurd rfl hne
  | cons first rest =>
    obtain ⟨a, sel, b, heq, hsel, ha, hb⟩ :=
      selectLoop_first_min ops s ccLevel rest [] [] first (by simp) (by simp)
    refine ⟨a, sel, b, by simpa using heq, ha, hb, ?_⟩
    unfold AllocateBasedOnCc
    simp only [hsel]
    exact ⟨_, rfl, rfl, rfl, rfl⟩

/-- Witness for C6: the two example frames as candidates, both with load 0. -/
theorem allocateBasedOnCc_lowest_load_witness :
    ∃ a sel b, ([(1, 3), (2, 7)] : SupportedFramesMap_t) = a ++ sel :: b ∧
      (∀ x ∈ a, exampleFrameAllocator.GetCcLoad ((twoFrames (some 3) (some 7)).frames sel.1)
          .CC_LEVEL_CRA
        < exampleFrameAllocator.GetCcLoad ((twoFrames (some 3) (some 7)).frames x.1)
          .CC_LEVEL_CRA) ∧
      (∀ x ∈ b, exampleFrameAllocator.GetCcLoad ((twoFrames (some 3) (some 7)).frames sel.1)
          .CC_LEVEL_CRA
        ≤ exampleFrameAllocator.GetCcLoad ((twoFrames (some 3) (some 7)).frames x.1)
          .CC_LEVEL_CRA) ∧
      ∃ r, AllocateBasedOnCc exampleFrameAllocator (twoFrames (some 3) (some 7)) .CC_LEVEL_CRA
          ⟨0, 15⟩ [(1, 3), (2, 7)] = some r ∧
        r.allocated = (exampleFrameAllocator.Allocate
          ((twoFrames (some 3) (some 7)).frames sel.1) .CC_LEVEL_CRA ⟨0, 15⟩ sel.2).1 ∧
        r.allocateCalls = [⟨sel.1, .CC_LEVEL_CRA, ⟨0, 15⟩, sel.2,
          (exampleFrameAllocator.Allocate
            ((twoFrames (some 3) (some 7)).frames sel.1) .CC_LEVEL_CRA ⟨0, 15⟩ sel.2).1⟩] ∧
        r.state =
          { (twoFrames (some 3) (some 7)) with
            frames := Function.update (twoFrames (some 3) (some 7)).frames sel.1
              (exampleFrameAllocator.Allocate
                ((twoFrames (some 3) (some 7)).frames sel.1) .CC_LEVEL_CRA ⟨0, 15⟩ sel.2).2 } :=
  allocateBasedOnCc_lowest_load exampleFrameAllocator (twoFrames (some 3) (some 7))
    .CC_LEVEL_CRA ⟨0, 15⟩ [(1, 3), (2, 7)] (by simp)

theorem allocateToFrame_of_no_supported (ops : SatFrameAllocator σ D)
    (s : SatSuperframeAllocator σ) (allocReq : SatFrameAllocReq D)
    (hemp : findSupportedFrames ops s allocReq.m_cno = []) :
    AllocateToFrame ops s allocReq
      = some { allocated := false, state := s, ccCalls := [], allocateCalls := [] } := by
  unfold AllocateToFrame
  simp [hemp]

/-- C7: when `GetBestWaveform` is false on every frame allocator for the C/N0 of the
request, `AllocateToFrame` returns `false` (no fatal error), makes no call of
`Allocate` (nor of `AllocateBasedOnCc`) and leaves the state as it was. -/
theorem allocateToFrame_no_supported_frame (ops : SatFrameAllocator σ D)
    (s : SatSuperframeAllocator σ) (allocReq : SatFrameAllocReq D)
    (hnone : ∀ p ∈ s.m_frameAllocators,
      ops.GetBestWaveform (s.frames p) allocReq.m_cno = none) :
    ∃ r, AllocateToFrame ops s allocReq = some r ∧ r.allocated = false ∧
      r.allocateCalls = [] ∧ r.ccCalls = [] ∧ r.state = s :=
  ⟨_, allocateToFrame_of_no_supported ops s allocReq
      (foldl_supported_of_none ops s allocReq.m_cno s.m_frameAllocators [] hnone),
    rfl, rfl, rfl, rfl⟩

/-- Witness for C7: neither of the two example frames has a waveform. -/
theorem allocateToFrame_no_supported_frame_witness :
    ∃ r, AllocateToFrame exampleFrameAllocator (twoFrames none none) ⟨0, 15⟩ = some r ∧
      r.allocated = false ∧ r.allocateCalls = [] ∧ r.ccCalls = [] ∧
      r.state = twoFrames none none :=
  allocateToFrame_no_supported_frame exampleFrameAllocator (twoFrames none none) ⟨0, 15⟩
    (by
      intro p _
      simp only [exampleFrameAllocator, twoFrames]
      split_ifs <;> rfl)

theorem mem_insert (m : SupportedFramesMap_t) (kv e : Ptr × Nat)
    (he : e ∈ m.insert kv) : e ∈ m ∨ e = kv := by
  induction m with
  | nil =>
    simp only [SupportedFramesMap_t.insert, List.mem_singleton] at he
    exact Or.inr he
  | cons x rest ih =>
    unfold SupportedFramesMap_t.insert at he
    split_ifs at he with h1 h2
    · rcases List.mem_cons.mp he with h | h
      · exact Or.inr h
      · exact Or.inl h
    · exact Or.inl he
    · rcases List.mem_cons.mp he with h | h
      · exact Or.inl (h ▸ List.mem_cons_self _ _)
      · rcases ih h with h | h
        · exact Or.inl (List.mem_cons_of_mem _ h)
        · exact Or.inr h

theorem foldl_supported_mem (ops : SatFrameAllocator σ D) (s : SatSuperframeAllocator σ)
    (cno : Rat) (l : List Ptr) (init : SupportedFramesMap_t) (e : Ptr × Nat)
    (he : e ∈ l.foldl
      (fun supportedFrames it =>
        match ops.GetBestWaveform (s.frames it) cno with
        | some waveformId => supportedFrames.insert (it, waveformId)
        | none => supportedFrames) init) :
    e ∈ init ∨ e.1 ∈ l := by
  induction l generalizing init with
  | nil => exact Or.inl he
  | cons q rest ih =>
    rw [List.foldl_cons] at he
    rcases ih _ he with h | h
    · cases hw : ops.GetBestWaveform (s.frames q) cno with
      | none =>
        rw [hw] at h
        exact Or.inl h
      | some w =>
        rw [hw] at h
        rcases mem_insert _ _ _ h with h | h
        · exact Or.inl h
        · exact Or.inr (by rw [h]; exact List.mem_cons_self _ _)
    · exact Or.inr (List.mem_cons_of_mem _ h)

theorem allocateBasedOnCc_contract (ops : SatFrameAllocator σ D)
    (grants : σ → List (SatFrameAllocReq D)) (hc : AllocateContract ops grants)
    (s : SatSuperframeAllocator σ) (ccLevel : CcLevel_t) (allocReq : SatFrameAllocReq D)
    (frames : SupportedFramesMap_t) (r : CcRun σ D)
    (h : AllocateBasedOnCc ops s ccLevel allocReq frames = some r) :
    (r.allocated = false → r.state = s) ∧
    (r.allocated = true → ∃ e f, e ∈ frames ∧
      r.state = { s with frames := Function.update s.frames e.1 f } ∧
      grants f = grants (s.frames e.1) ++ [allocReq]) := by
  have hne : frames ≠ [] := by
    rintro rfl
    simp [AllocateBasedOnCc] at h
  cases frames with
  | nil => exact absurd rfl hne
  | cons first rest =>
    obtain ⟨a, sel, b, heq, hsel, -, -⟩ :=
      selectLoop_first_min ops s ccLevel rest [] [] first (by simp) (by simp)
    unfold AllocateBasedOnCc at h
    simp only [hsel, Option.some.injEq] at h
    subst h
    constructor
    · intro hfalse
      have := hc.reject_unchanged _ _ _ _ hfalse
      simp only [this, Function.update_eq_self]
    · intro htrue
      refine ⟨sel, _, ?_, rfl, hc.accept_commits _ _ _ _ htrue⟩
      have : sel ∈ a ++ sel :: b := by simp
      rw [← heq] at this
      simpa using this

/-- C8 (with `Allocate` as the spec describes it, `AllocateContract`):
`AllocateToFrame` returns; when it returns `false` the state of the superframe
allocator, with all its frame allocators and the minimum-rate budget, is what it
was before the call; when it returns `true` the final state is the initial one with
exactly one frame allocator of `m_frameAllocators` changed, and that frame has
committed one more grant, for this request. -/
theorem allocateToFrame_failure_no_effect (ops : SatFrameAllocator σ D)
    (grants : σ → List (SatFrameAllocReq D)) (hc : AllocateContract ops grants)
    (s : SatSuperframeAllocator σ) (allocReq : SatFrameAllocReq D) :
    ∃ r, AllocateToFrame ops s allocReq = some r ∧
      (r.allocated = false → r.state = s) ∧
      (r.allocated = true → ∃ p f, p ∈ s.m_frameAllocators ∧
        r.state = { s with frames := Function.update s.frames p f } ∧
        grants (r.state.frames p) = grants (s.frames p) ++ [allocReq] ∧
        (∀ q, q ≠ p → r.state.frames q = s.frames q) ∧
        r.state.m_minimumRateBasedBytesLeft = s.m_minimumRateBasedBytesLeft) := by
  have hfinish : ∀ r : CcRun σ D, ∀ lvl,
      AllocateBasedOnCc ops s lvl allocReq (findSupportedFrames ops s allocReq.m_cno) = some r →
      r.allocated = true → ∃ p f, p ∈ s.m_frameAllocators ∧
        r.state = { s with frames := Function.update s.frames p f } ∧
        grants (r.state.frames p) = grants (s.frames p) ++ [allocReq] ∧
        (∀ q, q ≠ p → r.state.frames q = s.frames q) ∧
        r.state.m_minimumRateBasedBytesLeft = s.m_minimumRateBasedBytesLeft := by
    intro r lvl hr htrue
    obtain ⟨e, f, hmem, hstate, hgr⟩ :=
      (allocateBasedOnCc_contract ops grants hc s lvl allocReq _ r hr).2 htrue
    refine ⟨e.1, f, ?_, hstate, ?_, ?_, ?_⟩
    · rcases foldl_supported_mem ops s allocReq.m_cno s.m_frameAllocators [] e hmem with h | h
      · simp at h
      · exact h
    · rw [hstate]
      simpa using hgr
    · intro q hq
      rw [hstate]
      simp [Function.update_noteq hq]
    · rw [hstate]
  by_cases hemp : findSupportedFrames ops s allocReq.m_cno = []
  · exact ⟨_, allocateToFrame_of_no_supported ops s allocReq hemp, fun _ => rfl,
      fun h => by simp at h⟩
  · have hemp2 : (findSupportedFrames ops s allocReq.m_cno).isEmpty = false := by
      cases hf : findSupportedFrames ops s allocReq.m_cno with
      | nil => exact absurd hf hemp
      | cons _ _ => rfl
    unfold AllocateToFrame
    simp only [hemp2, if_true]
    obtain ⟨r1, h1⟩ := allocateBasedOnCc_some ops s .CC_LEVEL_CRA_RBDC_VBDC allocReq _ hemp
    rw [h1]
    simp only
    by_cases a1 : r1.allocated = false
    · rw [if_pos a1]
      have s1 := (allocateBasedOnCc_contract ops grants hc s _ allocReq _ r1 h1).1 a1
      rw [s1]
      obtain ⟨r2, h2⟩ := allocateBasedOnCc_some ops s .CC_LEVEL_CRA_RBDC allocReq _ hemp
      rw [h2]
      simp only
      by_cases a2 : r2.allocated = false
      · rw [if_pos a2]
        have s2 := (allocateBasedOnCc_contract ops grants hc s _ allocReq _ r2 h2).1 a2
        rw [s2]
        obtain ⟨r3, h3⟩ := allocateBasedOnCc_some ops s .CC_LEVEL_CRA_MIN_RBDC allocReq _ hemp
        rw [h3]
        simp only
        by_cases a3 : r3.allocated = false
        · rw [if_pos a3]
          have s3 := (allocateBasedOnCc_contract ops grants hc s _ allocReq _ r3 h3).1 a3
          rw [s3]
          obtain ⟨r4, h4⟩ := allocateBasedOnCc_some ops s .CC_LEVEL_CRA allocReq _ hemp
          rw [h4]
          exact ⟨_, rfl, (allocateBasedOnCc_contract ops grants hc s _ allocReq _ r4 h4).1,
            hfinish r4 _ h4⟩
        · rw [if_neg a3]
          exact ⟨_, rfl, fun h => absurd h a3, hfinish r3 _ h3⟩
      · rw [if_neg a2]
        exact ⟨_, rfl, fun h => absurd h a2, hfinish r2 _ h2⟩
    · rw [if_neg a1]
      exact ⟨_, rfl, fun h => absurd h a1, hfinish r1 _ h1⟩

theorem exampleFrameAllocator_contract :
    AllocateContract exampleFrameAllocator (fun f => f.accepted) where
  reject_unchanged := by
    intro f ccLevel allocReq waveformId h
    simp only [exampleFrameAllocator] at h ⊢
    by_cases hfit : f.load + ExampleFrame.demand ccLevel allocReq ≤ f.capacity
    · rw [if_pos hfit] at h
      exact absurd h (by simp)
    · rw [if_neg hfit]
  accept_commits := by
    intro f ccLevel allocReq waveformId h
    simp only [exampleFrameAllocator] at h ⊢
    by_cases hfit : f.load + ExampleFrame.demand ccLevel allocReq ≤ f.capacity
    · rw [if_pos hfit]
    · rw [if_neg hfit] at h
      exact absurd h (by simp)

/-- Witness for C8: the two example frames and a request of 15 symbols. -/
theorem allocateToFrame_failure_no_effect_witness :
    ∃ r, AllocateToFrame exampleFrameAllocator (twoFrames (some 3) (some 7)) ⟨0, 15⟩ = some r ∧
      (r.allocated = false → r.state = twoFrames (some 3) (some 7)) ∧
      (r.allocated = true → ∃ p f, p ∈ (twoFrames (some 3) (some 7)).m_frameAllocators ∧
        r.state =
          { (twoFrames (some 3) (some 7)) with
            frames := Function.update (twoFrames (some 3) (some 7)).frames p f } ∧
        (r.state.frames p).accepted
          = ((twoFrames (some 3) (some 7)).frames p).accepted ++ [⟨0, 15⟩] ∧
        (∀ q, q ≠ p → r.state.frames q = (twoFrames (some 3) (some 7)).frames q) ∧
        r.state.m_minimumRateBasedBytesLeft
          = (twoFrames (some 3) (some 7)).m_minimumRateBasedBytesLeft) :=
  allocateToFrame_failure_no_effect exampleFrameAllocator (fun f => f.accepted)
    exampleFrameAllocator_contract (twoFrames (some 3) (some 7)) ⟨0, 15⟩

end SatSuperframeAllocator

namespace SatRequestManager

/-! ### Pending RBDC window -/

theorem updatePendingRbdcCounters_ok (m : SatRequestManager) (rc value : Nat) (w : List Nat)
    (hw : m.m_pendingRbdcRequestsKbps[rc]? = some w) (hlen : w.length ≤ m.m_maxPendingCrEntries) :
    UpdatePendingRbdcCounters m rc value
      = .ok { m with
          m_pendingRbdcRequestsKbps := m.m_pendingRbdcRequestsKbps.set rc
            (if (w ++ [value]).length > m.m_maxPendingCrEntries then (w ++ [value]).tail
             else w ++ [value]) } := by
  unfold UpdatePendingRbdcCounters
  rw [hw]
  simp only
  rw [if_pos]
  split_ifs with h
  · simp only [List.length_tail, List.length_append, List.length_singleton]
    omega
  · exact not_lt.mp h

theorem updatePendingRbdcCounters_inv (m m1 : SatRequestManager) (rc value : Nat)
    (h : UpdatePendingRbdcCounters m rc value = .ok m1) :
    m1.m_maxPendingCrEntries = m.m_maxPendingCrEntries ∧
    m1.m_pendingRbdcRequestsKbps.length = m.m_pendingRbdcRequestsKbps.length ∧
    ((∀ w ∈ m.m_pendingRbdcRequestsKbps, w.length ≤ m.m_maxPendingCrEntries) →
      ∀ w ∈ m1.m_pendingRbdcRequestsKbps, w.length ≤ m1.m_maxPendingCrEntries) := by
  unfold UpdatePendingRbdcCounters at h
  cases hw : m.m_pendingRbdcRequestsKbps[rc]? with
  | none =>
    rw [hw] at h
    cases h
  | some cont =>
    rw [hw] at h
    simp only at h
    split_ifs at h with h1 h2 h2
    all_goals
      cases h
      refine ⟨rfl, by simp, ?_⟩
      intro hall w hmem
      rcases List.mem_or_eq_of_mem_set hmem with hmem | heq
      · exact hall w hmem
      · rw [heq]
        exact h2

theorem doRbdc_inv (m m1 : SatRequestManager) (rc r : Nat) (stats : QueueStats_t)
    (h : DoRbdc m rc stats = .ok (r, m1)) :
    UpdatePendingRbdcCounters m rc r = .ok m1 := by
  unfold DoRbdc at h
  cases h1 : GetPendingRbdcSumKbps m rc with
  | error e =>
    rw [h1] at h
    cases h
  | ok pendingSum =>
    rw [h1] at h
    simp only at h
    cases h2 : rbdcAfterCra m.m_llsConf rc (rawRbdcKbps m stats pendingSum) with
    | error e =>
      rw [h2] at h
      cases h
    | ok req =>
      rw [h2] at h
      simp only at h
      cases h3 : UpdatePendingRbdcCounters m rc
          (m.m_llsConf.GetQuantizedRbdcValue rc req % 4294967296) with
      | error e =>
        rw [h3] at h
        cases h
      | ok m2 =>
        rw [h3] at h
        simp only [Except.ok.injEq, Prod.mk.injEq] at h
        rw [← h.1, ← h.2]
        exact h3

theorem reachable_inv (m0 : SatRequestManager) (llsConf : SatLowerLayerServiceConf)
    (m : SatRequestManager) (h : Reachable m0 llsConf m) :
    m.m_maxPendingCrEntries
      = toUint32 (Int.tdiv m0.m_rttEstimate.ticks m0.m_evaluationInterval.ticks) ∧
    m.m_pendingRbdcRequestsKbps.length = llsConf.GetDaServiceCount ∧
    (∀ w ∈ m.m_pendingRbdcRequestsKbps, w.length ≤ m.m_maxPendingCrEntries) := by
  induction h with
  | init m hinit =>
    unfold Initialize at hinit
    split_ifs at hinit with h0
    simp only [Option.some.injEq] at hinit
    subst hinit
    refine ⟨rfl, by simp, ?_⟩
    intro w hw
    rw [List.eq_of_mem_replicate hw]
    exact Nat.zero_le _
  | doRbdc m m1 rc stats r _ hstep ih =>
    obtain ⟨h1, h2, h3⟩ := updatePendingRbdcCounters_inv m m1 rc r (doRbdc_inv m m1 rc r stats hstep)
    exact ⟨h1.trans ih.1, h2.trans ih.2.1, h3 ih.2.2⟩
  | update m m1 rc value _ hstep ih =>
    obtain ⟨h1, h2, h3⟩ := updatePendingRbdcCounters_inv m m1 rc value hstep
    exact ⟨h1.trans ih.1, h2.trans ih.2.1, h3 ih.2.2⟩

theorem toUint32_tdiv_eq_floor (a b : Int) (ha : 0 ≤ a) (hb : 0 < b)
    (hfit : ⌊(a : ℚ) / (b : ℚ)⌋ < 4294967296) :
    ((toUint32 (Int.tdiv a b) : Nat) : Int) = ⌊(a : ℚ) / (b : ℚ)⌋ := by
  have hfloor : ⌊(a : ℚ) / (b : ℚ)⌋ = a / b := by
    have hcast : ((b.toNat : ℕ) : ℚ) = (b : ℚ) := by
      exact_mod_cast congrArg (Int.cast : ℤ → ℚ) (Int.toNat_of_nonneg hb.le)
    have := Rat.floor_intCast_div_natCast a b.toNat
    rw [hcast, Int.toNat_of_nonneg hb.le] at this
    exact this
  rw [hfloor] at hfit ⊢
  rw [Int.tdiv_eq_ediv ha hb.le]
  have hq : 0 ≤ a / b := Int.ediv_nonneg ha hb.le
  unfold toUint32
  rw [Int.emod_eq_of_lt hq hfit, Int.toNat_of_nonneg hq]

/-- C9, counterexample: with an RTT estimate of `2 ^ 32` ticks and an evaluation
interval of one tick, the state left by `Initialize` has
`m_maxPendingCrEntries = 0` (the quotient cast to `uint32_t`), while
`floor (rttEstimate / evaluationInterval)` is `2 ^ 32`. -/
theorem maxPendingCrEntries_floor_counterexample :
    Reachable (constructed 4294967296 1 (oneRcConf 50 100 [0, 32, 64, 96]))
      (oneRcConf 50 100 [0, 32, 64, 96])
      (initialized 4294967296 1 (oneRcConf 50 100 [0, 32, 64, 96])) ∧
    (((initialized 4294967296 1 (oneRcConf 50 100 [0, 32, 64, 96])).m_maxPendingCrEntries
        : Nat) : Int)
      ≠ ⌊((4294967296 : Int) : ℚ) / ((1 : Int) : ℚ)⌋ := by
  constructor
  · exact Reachable.init _ rfl
  · have h0 : (initialized 4294967296 1
        (oneRcConf 50 100 [0, 32, 64, 96])).m_maxPendingCrEntries = 0 := by decide
    rw [h0]
    norm_num

/-- C9, amended: in every state reachable from `Initialize` by `DoRbdc` and
`UpdatePendingRbdcCounters` calls there is one pending window per request class
below the service count, each of size at most `m_maxPendingCrEntries`, where
`m_maxPendingCrEntries` is the quotient `rttEstimate / evaluationInterval` of the
tick counts, truncated toward zero and reduced modulo `2 ^ 32`; it equals
`floor (rttEstimate / evaluationInterval)` when the RTT estimate is not negative, the
evaluation interval is positive and the floor is below `2 ^ 32`. The assertion that
ends `UpdatePendingRbdcCounters` never fails, and the call returns for every
request class below the service count (also when the bound is 0). -/
theorem pending_window_bounded (m0 : SatRequestManager) (llsConf : SatLowerLayerServiceConf)
    (m : SatRequestManager) (h : Reachable m0 llsConf m) :
    (∀ rc, rc < llsConf.GetDaServiceCount →
      ∃ w, m.m_pendingRbdcRequestsKbps[rc]? = some w ∧ w.length ≤ m.m_maxPendingCrEntries) ∧
    m.m_maxPendingCrEntries
      = toUint32 (Int.tdiv m0.m_rttEstimate.ticks m0.m_evaluationInterval.ticks) ∧
    (0 ≤ m0.m_rttEstimate.ticks → 0 < m0.m_evaluationInterval.ticks →
      ⌊(m0.m_rttEstimate.ticks : ℚ) / (m0.m_evaluationInterval.ticks : ℚ)⌋ < 4294967296 →
      ((m.m_maxPendingCrEntries : Nat) : Int)
        = ⌊(m0.m_rttEstimate.ticks : ℚ) / (m0.m_evaluationInterval.ticks : ℚ)⌋) ∧
    (∀ rc value, UpdatePendingRbdcCounters m rc value ≠ .error .assertFailed) ∧
    (∀ rc value, rc < llsConf.GetDaServiceCount →
      ∃ m1, UpdatePendingRbdcCounters m rc value = .ok m1) := by
  obtain ⟨hmax, hlen, hall⟩ := reachable_inv m0 llsConf m h
  have hwin : ∀ rc, rc < llsConf.GetDaServiceCount →
      ∃ w, m.m_pendingRbdcRequestsKbps[rc]? = some w ∧ w.length ≤ m.m_maxPendingCrEntries := by
    intro rc hrc
    have hlt : rc < m.m_pendingRbdcRequestsKbps.length := by rw [hlen]; exact hrc
    exact ⟨m.m_pendingRbdcRequestsKbps[rc], List.getElem?_eq_getElem hlt,
      hall _ (List.getElem_mem hlt)⟩
  refine ⟨hwin, hmax, ?_, ?_, ?_⟩
  · intro ha hb hfit
    rw [hmax]
    exact toUint32_tdiv_eq_floor _ _ ha hb hfit
  · intro rc value
    cases hw : m.m_pendingRbdcRequestsKbps[rc]? with
    | none =>
      unfold UpdatePendingRbdcCounters
      rw [hw]
      simp
    | some w =>
      have hmem : w ∈ m.m_pendingRbdcRequestsKbps := List.mem_iff_getElem?.mpr ⟨rc, hw⟩
      rw [updatePendingRbdcCounters_ok m rc value w hw (hall w hmem)]
      simp
  · intro rc value hrc
    obtain ⟨w, hw, hwlen⟩ := hwin rc hrc
    exact ⟨_, updatePendingRbdcCounters_ok m rc value w hw hwlen⟩

/-- Witness for C9 (amended): the state after `Initialize` with the default times
(RTT estimate 560 ms, evaluation interval 100 ms) and one request class. -/
theorem pending_window_bounded_witness :
    (∃ w, (initialized 560000000 100000000
        (oneRcConf 50 100 [0, 32, 64, 96])).m_pendingRbdcRequestsKbps[0]? = some w ∧
      w.length ≤ (initialized 560000000 100000000
        (oneRcConf 50 100 [0, 32, 64, 96])).m_maxPendingCrEntries) ∧
    (((initialized 560000000 100000000
        (oneRcConf 50 100 [0, 32, 64, 96])).m_maxPendingCrEntries : Nat) : Int)
      = ⌊((560000000 : Int) : ℚ) / ((100000000 : Int) : ℚ)⌋ :=
  ⟨(pending_window_bounded (constructed 560000000 100000000 (oneRcConf 50 100 [0, 32, 64, 96]))
      (oneRcConf 50 100 [0, 32, 64, 96]) _ (Reachable.init _ rfl)).1 0 (by decide),
   (pending_window_bounded (constructed 560000000 100000000 (oneRcConf 50 100 [0, 32, 64, 96]))
      (oneRcConf 50 100 [0, 32, 64, 96]) _ (Reachable.init _ rfl)).2.2.1 (by decide) (by decide)
      (by
        show ⌊((560000000 : Int) : ℚ) / ((100000000 : Int) : ℚ)⌋ < 4294967296
        have : ⌊((560000000 : Int) : ℚ) / ((100000000 : Int) : ℚ)⌋ = 5 := by
          norm_num [Int.floor_eq_iff]
        rw [this]
        decide)⟩

/-! ### RBDC request and the CRA -/

theorem rbdcAfterCra_bound (llsConf : SatLowerLayerServiceConf) (rc : Nat) (raw : Rat)
    (hcra : llsConf.GetDaConstantAssignmentProvided rc = true)
    (hlt : llsConf.GetDaConstantServiceRateInKbps rc < llsConf.GetDaMaximumServiceRateInKbps rc) :
    ∃ req, rbdcAfterCra llsConf rc raw = .ok req ∧ 0 ≤ req ∧
      (llsConf.GetDaConstantServiceRateInKbps rc : Rat) + req
        ≤ (llsConf.GetDaMaximumServiceRateInKbps rc : Rat) := by
  have hltq : (llsConf.GetDaConstantServiceRateInKbps rc : Rat)
      < (llsConf.GetDaMaximumServiceRateInKbps rc : Rat) := by exact_mod_cast hlt
  unfold rbdcAfterCra
  rw [if_pos hcra]
  simp only
  rw [if_pos hlt]
  by_cases hle : raw ≤ (llsConf.GetDaConstantServiceRateInKbps rc : Rat)
  · rw [if_pos hle]
    simp only [add_zero]
    rw [if_neg (not_lt.mpr hltq.le)]
    exact ⟨0, rfl, le_refl _, by simpa using hltq.le⟩
  · rw [if_neg hle]
    have hpos : 0 ≤ raw - (llsConf.GetDaConstantServiceRateInKbps rc : Rat) := by
      linarith [not_le.mp hle]
    by_cases hcap : (llsConf.GetDaConstantServiceRateInKbps rc : Rat)
        + (raw - (llsConf.GetDaConstantServiceRateInKbps rc : Rat))
        > (llsConf.GetDaMaximumServiceRateInKbps rc : Rat)
    · rw [if_pos hcap]
      exact ⟨_, rfl, by linarith, by linarith⟩
    · rw [if_neg hcap]
      exact ⟨_, rfl, hpos, not_lt.mp hcap⟩

/-- C10, counterexample: constant rate 50 kbps, maximum rate 100 kbps, quantization
steps 0, 32, 64, 96 (nearest step), incoming rate 100 kbps and an empty queue: the
rate handed to the quantizer is 50, `DoRbdc` returns 64, and 50 + 64 exceeds 100. -/
theorem doRbdc_cra_bound_counterexample :
    (oneRcConf 50 100 [0, 32, 64, 96]).GetDaConstantAssignmentProvided 0 = true ∧
    (oneRcConf 50 100 [0, 32, 64, 96]).GetDaConstantServiceRateInKbps 0
      < (oneRcConf 50 100 [0, 32, 64, 96]).GetDaMaximumServiceRateInKbps 0 ∧
    (DoRbdc (initialized 560000000 100000000 (oneRcConf 50 100 [0, 32, 64, 96])) 0
        ⟨100, 0, 0, 0, 0⟩).toOption.map (fun result => result.1) = some 64 ∧
    ¬ ((oneRcConf 50 100 [0, 32, 64, 96]).GetDaConstantServiceRateInKbps 0 + 64
        ≤ (oneRcConf 50 100 [0, 32, 64, 96]).GetDaMaximumServiceRateInKbps 0) := by
  refine ⟨rfl, by decide, ?_, by decide⟩
  have hsum : GetPendingRbdcSumKbps
      (initialized 560000000 100000000 (oneRcConf 50 100 [0, 32, 64, 96])) 0 = .ok 0 := rfl
  have hraw : rawRbdcKbps (initialized 560000000 100000000 (oneRcConf 50 100 [0, 32, 64, 96]))
      ⟨100, 0, 0, 0, 0⟩ 0 = 100 := by
    norm_num [rawRbdcKbps, initialized, Initialize, constructed, Time.GetSeconds,
      Time.GetInteger, BITS_PER_BYTE]
  have hconf : (initialized 560000000 100000000 (oneRcConf 50 100 [0, 32, 64, 96])).m_llsConf
      = oneRcConf 50 100 [0, 32, 64, 96] := rfl
  have hreq : rbdcAfterCra (oneRcConf 50 100 [0, 32, 64, 96]) 0 100 = .ok 50 := by
    norm_num [rbdcAfterCra, oneRcConf]
  have hquant : (oneRcConf 50 100 [0, 32, 64, 96]).GetQuantizedRbdcValue 0 50 = 64 := by
    norm_num [oneRcConf, nearestStep, abs_lt, abs_of_nonneg, abs_of_nonpos]
  obtain ⟨w, hw, hwlen⟩ : ∃ w, (initialized 560000000 100000000
      (oneRcConf 50 100 [0, 32, 64, 96])).m_pendingRbdcRequestsKbps[0]? = some w ∧
      w.length ≤ (initialized 560000000 100000000
        (oneRcConf 50 100 [0, 32, 64, 96])).m_maxPendingCrEntries := ⟨[], rfl, by decide⟩
  have hrun : ∃ m1, DoRbdc (initialized 560000000 100000000 (oneRcConf 50 100 [0, 32, 64, 96]))
      0 ⟨100, 0, 0, 0, 0⟩ = .ok (64, m1) := by
    unfold DoRbdc
    rw [hsum]
    simp only
    rw [hraw, hconf, hreq]
    simp only
    rw [hquant, updatePendingRbdcCounters_ok _ 0 _ w hw hwlen]
    exact ⟨_, rfl⟩
  obtain ⟨m1, hm1⟩ := hrun
  rw [hm1]
  rfl

theorem doRbdc_returns_quantized (m m1 : SatRequestManager) (rc r : Nat) (stats : QueueStats_t)
    (w : List Nat) (req : Rat) (hw : m.m_pendingRbdcRequestsKbps[rc]? = some w)
    (hreq : rbdcAfterCra m.m_llsConf rc (rawRbdcKbps m stats (w.foldl add32 0)) = .ok req)
    (h : DoRbdc m rc stats = .ok (r, m1)) :
    r = m.m_llsConf.GetQuantizedRbdcValue rc req % 4294967296 := by
  have hsum : GetPendingRbdcSumKbps m rc = .ok (w.foldl add32 0) := by
    unfold GetPendingRbdcSumKbps
    rw [hw]
  unfold DoRbdc at h
  rw [hsum] at h
  simp only at h
  rw [hreq] at h
  simp only at h
  cases h3 : UpdatePendingRbdcCounters m rc
      (m.m_llsConf.GetQuantizedRbdcValue rc req % 4294967296) with
  | error e =>
    rw [h3] at h
    cases h
  | ok m2 =>
    rw [h3] at h
    simp only [Except.ok.injEq, Prod.mk.injEq] at h
    exact h.1.symm

/-- C10, amended: for a request class `rc` with CRA provided and constant rate below
the maximum rate, every snapshot and every pending window `w`, the rate `req` that
`DoRbdc` hands to the quantizer satisfies `0 <= req` and
`constantServiceRate + req <= maximumServiceRate`; whenever `DoRbdc` returns, the
returned value is `GetQuantizedRbdcValue (rc, req)` as a `uint32_t`, and it does
return when the window is within its bound; hence
`constantServiceRate + r <= maximumServiceRate` holds whenever the quantizer returns
no more than the rate it was given. -/
theorem doRbdc_cra_bound_before_quantization (m : SatRequestManager) (rc : Nat)
    (stats : QueueStats_t) (w : List Nat)
    (hw : m.m_pendingRbdcRequestsKbps[rc]? = some w)
    (hcra : m.m_llsConf.GetDaConstantAssignmentProvided rc = true)
    (hlt : m.m_llsConf.GetDaConstantServiceRateInKbps rc
      < m.m_llsConf.GetDaMaximumServiceRateInKbps rc) :
    ∃ req,
      rbdcAfterCra m.m_llsConf rc (rawRbdcKbps m stats (w.foldl add32 0)) = .ok req ∧
      0 ≤ req ∧
      (m.m_llsConf.GetDaConstantServiceRateInKbps rc : Rat) + req
        ≤ (m.m_llsConf.GetDaMaximumServiceRateInKbps rc : Rat) ∧
      (∀ r m1, DoRbdc m rc stats = .ok (r, m1) →
        r = m.m_llsConf.GetQuantizedRbdcValue rc req % 4294967296) ∧
      (w.length ≤ m.m_maxPendingCrEntries →
        ∃ m1, DoRbdc m rc stats
          = .ok (m.m_llsConf.GetQuantizedRbdcValue rc req % 4294967296, m1)) ∧
      (((m.m_llsConf.GetQuantizedRbdcValue rc req : Nat) : Rat) ≤ req →
        m.m_llsConf.GetDaConstantServiceRateInKbps rc
            + m.m_llsConf.GetQuantizedRbdcValue rc req % 4294967296
          ≤ m.m_llsConf.GetDaMaximumServiceRateInKbps rc) := by
  obtain ⟨req, hreq, hpos, hbound⟩ :=
    rbdcAfterCra_bound m.m_llsConf rc (rawRbdcKbps m stats (w.foldl add32 0)) hcra hlt
  have hsum : GetPendingRbdcSumKbps m rc = .ok (w.foldl add32 0) := by
    unfold GetPendingRbdcSumKbps
    rw [hw]
  refine ⟨req, hreq, hpos, hbound, ?_, ?_, ?_⟩
  · intro r m1 hrun
    exact doRbdc_returns_quantized m m1 rc r stats w req hw hreq hrun
  · intro hlen
    unfold DoRbdc
    rw [hsum]
    simp only
    rw [hreq]
    simp only
    rw [updatePendingRbdcCounters_ok m rc _ w hw hlen]
    exact ⟨_, rfl⟩
  · intro hq
    have hmod : ((m.m_llsConf.GetQuantizedRbdcValue rc req % 4294967296 : Nat) : Rat)
        ≤ ((m.m_llsConf.GetQuantizedRbdcValue rc req : Nat) : Rat) := by
      exact_mod_cast Nat.mod_le _ _
    have hsumq : ((m.m_llsConf.GetDaConstantServiceRateInKbps rc
        + m.m_llsConf.GetQuantizedRbdcValue rc req % 4294967296 : Nat) : Rat)
        ≤ ((m.m_llsConf.GetDaMaximumServiceRateInKbps rc : Nat) : Rat) := by
      push_cast
      linarith
    exact_mod_cast hsumq

/-- Witness for C10 (amended): constant rate 50 kbps, maximum rate 100 kbps, incoming
rate 85 kbps, empty queue and empty pending window. -/
theorem doRbdc_cra_bound_before_quantization_witness :
    ∃ req,
      rbdcAfterCra (initialized 560000000 100000000 (oneRcConf 50 100 [0, 32, 64, 96])).m_llsConf
        0 (rawRbdcKbps (initialized 560000000 100000000 (oneRcConf 50 100 [0, 32, 64, 96]))
          ⟨85, 0, 0, 0, 0⟩ (([] : List Nat).foldl add32 0)) = .ok req ∧
      0 ≤ req ∧
      (((initialized 560000000 100000000 (oneRcConf 50 100 [0, 32, 64, 96])).m_llsConf
          ).GetDaConstantServiceRateInKbps 0 : Rat) + req
        ≤ (((initialized 560000000 100000000 (oneRcConf 50 100 [0, 32, 64, 96])).m_llsConf
          ).GetDaMaximumServiceRateInKbps 0 : Rat) ∧
      (∀ r m1, DoRbdc (initialized 560000000 100000000 (oneRcConf 50 100 [0, 32, 64, 96])) 0
          ⟨85, 0, 0, 0, 0⟩ = .ok (r, m1) →
        r = ((initialized 560000000 100000000 (oneRcConf 50 100 [0, 32, 64, 96])).m_llsConf
          ).GetQuantizedRbdcValue 0 req % 4294967296) ∧
      (([] : List Nat).length
          ≤ (initialized 560000000 100000000
            (oneRcConf 50 100 [0, 32, 64, 96])).m_maxPendingCrEntries →
        ∃ m1, DoRbdc (initialized 560000000 100000000 (oneRcConf 50 100 [0, 32, 64, 96])) 0
            ⟨85, 0, 0, 0, 0⟩
          = .ok (((initialized 560000000 100000000 (oneRcConf 50 100 [0, 32, 64, 96])).m_llsConf
            ).GetQuantizedRbdcValue 0 req % 4294967296, m1)) ∧
      (((((initialized 560000000 100000000 (oneRcConf 50 100 [0, 32, 64, 96])).m_llsConf
          ).GetQuantizedRbdcValue 0 req : Nat) : Rat) ≤ req →
        ((initialized 560000000 100000000 (oneRcConf 50 100 [0, 32, 64, 96])).m_llsConf
          ).GetDaConstantServiceRateInKbps 0
            + ((initialized 560000000 100000000 (oneRcConf 50 100 [0, 32, 64, 96])).m_llsConf
              ).GetQuantizedRbdcValue 0 req % 4294967296
          ≤ ((initialized 560000000 100000000 (oneRcConf 50 100 [0, 32, 64, 96])).m_llsConf
            ).GetDaMaximumServiceRateInKbps 0) :=
  doRbdc_cra_bound_before_quantization
    (initialized 560000000 100000000 (oneRcConf 50 100 [0, 32, 64, 96])) 0 ⟨85, 0, 0, 0, 0⟩ []
    rfl rfl (by decide)

/-! ### The rate handed to the quantizer -/

/-- C11: for a request class with CRA provided and constant rate `C` below the
maximum rate `M`, and every raw requested rate `x`, the rate `DoRbdc` hands to the
quantizer is 0 when `x <= C` and `min (x - C) (M - C)` when `x > C`; whenever
`DoRbdc` returns, it returns the quantizer applied to that rate (as a `uint32_t`). -/
theorem rbdcAfterCra_with_cra (llsConf : SatLowerLayerServiceConf) (rc : Nat) (x : Rat)
    (hcra : llsConf.GetDaConstantAssignmentProvided rc = true)
    (hlt : llsConf.GetDaConstantServiceRateInKbps rc < llsConf.GetDaMaximumServiceRateInKbps rc) :
    rbdcAfterCra llsConf rc x
      = .ok (if x ≤ (llsConf.GetDaConstantServiceRateInKbps rc : Rat) then 0
          else min (x - (llsConf.GetDaConstantServiceRateInKbps rc : Rat))
            ((llsConf.GetDaMaximumServiceRateInKbps rc : Rat)
              - (llsConf.GetDaConstantServiceRateInKbps rc : Rat))) ∧
    ∀ (m m1 : SatRequestManager) (stats : QueueStats_t) (w : List Nat) (r : Nat),
      m.m_llsConf = llsConf → m.m_pendingRbdcRequestsKbps[rc]? = some w →
      rawRbdcKbps m stats (w.foldl add32 0) = x → DoRbdc m rc stats = .ok (r, m1) →
      r = llsConf.GetQuantizedRbdcValue rc
          (if x ≤ (llsConf.GetDaConstantServiceRateInKbps rc : Rat) then 0
            else min (x - (llsConf.GetDaConstantServiceRateInKbps rc : Rat))
              ((llsConf.GetDaMaximumServiceRateInKbps rc : Rat)
                - (llsConf.GetDaConstantServiceRateInKbps rc : Rat))) % 4294967296 := by
  have hltq : (llsConf.GetDaConstantServiceRateInKbps rc : Rat)
      < (llsConf.GetDaMaximumServiceRateInKbps rc : Rat) := by exact_mod_cast hlt
  have hmain : rbdcAfterCra llsConf rc x
      = .ok (if x ≤ (llsConf.GetDaConstantServiceRateInKbps rc : Rat) then 0
          else min (x - (llsConf.GetDaConstantServiceRateInKbps rc : Rat))
            ((llsConf.GetDaMaximumServiceRateInKbps rc : Rat)
              - (llsConf.GetDaConstantServiceRateInKbps rc : Rat))) := by
    unfold rbdcAfterCra
    rw [if_pos hcra]
    simp only
    rw [if_pos hlt]
    by_cases hle : x ≤ (llsConf.GetDaConstantServiceRateInKbps rc : Rat)
    · rw [if_pos hle, if_pos hle]
      simp only [add_zero]
      rw [if_neg (not_lt.mpr hltq.le)]
    · rw [if_neg hle, if_neg hle]
      by_cases hcap : (llsConf.GetDaConstantServiceRateInKbps rc : Rat)
          + (x - (llsConf.GetDaConstantServiceRateInKbps rc : Rat))
          > (llsConf.GetDaMaximumServiceRateInKbps rc : Rat)
      · rw [if_pos hcap, min_eq_right (by linarith)]
      · rw [if_neg hcap, min_eq_left (by linarith [not_lt.mp hcap])]
  refine ⟨hmain, ?_⟩
  intro m m1 stats w r hconf hw hraw hrun
  subst hconf
  rw [← hraw] at hmain
  rw [← hraw]
  exact doRbdc_returns_quantized m m1 rc r stats w _ hw hmain hrun

/-- Witness for C11: constant rate 50 kbps, raw rate 80 kbps, maximum rate 100 kbps
give 30 kbps. -/
theorem rbdcAfterCra_with_cra_witness :
    rbdcAfterCra (oneRcConf 50 100 [0, 32, 64, 96]) 0 80 = .ok 30 :=
  (rbdcAfterCra_with_cra (oneRcConf 50 100 [0, 32, 64, 96]) 0 80 rfl (by decide)).1.trans
    (by norm_num [oneRcConf])

/-- C13: for a request class without CRA provided and every raw requested rate `x`,
the rate `DoRbdc` hands to the quantizer is `min (x, maximumServiceRate)`; whenever
`DoRbdc` returns, it returns the quantizer applied to that rate (as a `uint32_t`). -/
theorem rbdcAfterCra_without_cra (llsConf : SatLowerLayerServiceConf) (rc : Nat) (x : Rat)
    (hcra : llsConf.GetDaConstantAssignmentProvided rc = false) :
    rbdcAfterCra llsConf rc x
      = .ok (min x (llsConf.GetDaMaximumServiceRateInKbps rc : Rat)) ∧
    ∀ (m m1 : SatRequestManager) (stats : QueueStats_t) (w : List Nat) (r : Nat),
      m.m_llsConf = llsConf → m.m_pendingRbdcRequestsKbps[rc]? = some w →
      rawRbdcKbps m stats (w.foldl add32 0) = x → DoRbdc m rc stats = .ok (r, m1) →
      r = llsConf.GetQuantizedRbdcValue rc
          (min x (llsConf.GetDaMaximumServiceRateInKbps rc : Rat)) % 4294967296 := by
  have hmain : rbdcAfterCra llsConf rc x
      = .ok (min x (llsConf.GetDaMaximumServiceRateInKbps rc : Rat)) := by
    unfold rbdcAfterCra
    rw [hcra]
    simp only [Bool.false_eq_true, if_false]
    by_cases hgt : x > (llsConf.GetDaMaximumServiceRateInKbps rc : Rat)
    · rw [if_pos hgt, min_eq_right hgt.le]
    · rw [if_neg hgt, min_eq_left (not_lt.mp hgt)]
  refine ⟨hmain, ?_⟩
  intro m m1 stats w r hconf hw hraw hrun
  subst hconf
  rw [← hraw] at hmain
  rw [← hraw]
  exact doRbdc_returns_quantized m m1 rc r stats w _ hw hmain hrun

/-- Witness for C13: without CRA and with a maximum rate of 100 kbps, a raw rate of
130 kbps is handed over as 100 kbps. -/
theorem rbdcAfterCra_without_cra_witness :
    rbdcAfterCra (oneRcConfNoCra 100 [0, 32, 64, 96]) 0 130 = .ok 100 :=
  (rbdcAfterCra_without_cra (oneRcConfNoCra 100 [0, 32, 64, 96]) 0 130 rfl).1.trans
    (by norm_num [oneRcConfNoCra])

/-! ### The raw RBDC request -/

theorem foldl_add32_eq (w : List Nat) (acc : Nat) (hacc : acc < 4294967296) :
    w.foldl add32 acc = (acc + w.sum) % 4294967296 := by
  induction w generalizing acc with
  | nil => simp [Nat.mod_eq_of_lt hacc]
  | cons v rest ih =>
    rw [List.foldl_cons, ih (add32 acc v) (Nat.mod_lt _ (by decide))]
    simp only [add32, List.sum_cons]
    omega

theorem reachable_gain (m0 : SatRequestManager) (llsConf : SatLowerLayerServiceConf)
    (m : SatRequestManager) (h : Reachable m0 llsConf m) :
    m.m_evaluationInterval = m0.m_evaluationInterval ∧
    m.m_gainValueK = 1 / (2 * m.m_evaluationInterval.GetSeconds) := by
  have hupd : ∀ (a b : SatRequestManager) (rc value : Nat),
      UpdatePendingRbdcCounters a rc value = .ok b →
      b.m_evaluationInterval = a.m_evaluationInterval ∧ b.m_gainValueK = a.m_gainValueK := by
    intro a b rc value hab
    unfold UpdatePendingRbdcCounters at hab
    cases hw : a.m_pendingRbdcRequestsKbps[rc]? with
    | none =>
      rw [hw] at hab
      cases hab
    | some cont =>
      rw [hw] at hab
      simp only at hab
      split_ifs at hab
      all_goals
        cases hab
        exact ⟨rfl, rfl⟩
  induction h with
  | init m hinit =>
    unfold Initialize at hinit
    split_ifs at hinit with h0
    simp only [Option.some.injEq] at hinit
    subst hinit
    exact ⟨rfl, rfl⟩
  | doRbdc a b rc stats r _ hstep ih =>
    obtain ⟨h1, h2⟩ := hupd a b rc r (doRbdc_inv a b rc r stats hstep)
    exact ⟨h1.trans ih.1, by rw [h2, h1, ih.2]⟩
  | update a b rc value _ hstep ih =>
    obtain ⟨h1, h2⟩ := hupd a b rc value hstep
    exact ⟨h1.trans ih.1, by rw [h2, h1, ih.2]⟩

/-- C12, counterexample: after `Initialize` (evaluation interval 100 ms) and two
calls `UpdatePendingRbdcCounters (0, 2 ^ 31)` the pending window of class 0 holds
`2 ^ 31` twice, of sum `2 ^ 32`. With an incoming rate of 0 and a queue of 8000
bytes the backlog of 64 kbits is far below `(0 + 2 ^ 32) * T`, so the claimed raw
rate is the incoming rate 0; `GetPendingRbdcSumKbps` returns 0 (the `uint32_t` sum
wraps) and the raw rate of `DoRbdc` is 3200. And right after `Initialize`, with an
incoming rate of 0 and a queue of `2 ^ 29` bytes, the claimed backlog of
`8 * 2 ^ 29 / 1000` kbits gives a claimed raw rate of 1073741824/5 kbps, while the
32-bit product `8 * 2 ^ 29` is 0 and the raw rate of `DoRbdc` is 0. -/
theorem rawRbdc_pending_sum_counterexample :
    Reachable (constructed 560000000 100000000 (oneRcConf 50 100 [0, 32, 64, 96]))
      (oneRcConf 50 100 [0, 32, 64, 96])
      (twoPending (oneRcConf 50 100 [0, 32, 64, 96]) 2147483648) ∧
    (twoPending (oneRcConf 50 100 [0, 32, 64, 96]) 2147483648).m_pendingRbdcRequestsKbps[0]?
      = some [2147483648, 2147483648] ∧
    ((8 * 8000 : Nat) : Rat) / 1000
      ≤ ((0 : Rat) + (([2147483648, 2147483648] : List Nat).sum : Rat))
        * (twoPending (oneRcConf 50 100 [0, 32, 64, 96])
            2147483648).m_evaluationInterval.GetSeconds ∧
    GetPendingRbdcSumKbps (twoPending (oneRcConf 50 100 [0, 32, 64, 96]) 2147483648) 0
      = .ok 0 ∧
    rawRbdcKbps (twoPending (oneRcConf 50 100 [0, 32, 64, 96]) 2147483648)
      ⟨0, 0, 0, 0, 8000⟩ 0 = 3200 ∧
    (0 : Rat) + (1 / (2 * (initialized 560000000 100000000
          (oneRcConf 50 100 [0, 32, 64, 96])).m_evaluationInterval.GetSeconds))
        / (initialized 560000000 100000000
            (oneRcConf 50 100 [0, 32, 64, 96])).m_evaluationInterval.GetSeconds
        * (((8 * 536870912 : Nat) : Rat) / 1000
          - ((0 : Rat) + ((([] : List Nat).sum : Nat) : Rat))
            * (initialized 560000000 100000000
                (oneRcConf 50 100 [0, 32, 64, 96])).m_evaluationInterval.GetSeconds)
      = 1073741824 / 5 ∧
    rawRbdcKbps (initialized 560000000 100000000 (oneRcConf 50 100 [0, 32, 64, 96]))
      ⟨0, 0, 0, 0, 536870912⟩ 0 = 0 := by
  refine ⟨?_, rfl, ?_, rfl, ?_, ?_, ?_⟩
  · refine Reachable.update
      { initialized 560000000 100000000 (oneRcConf 50 100 [0, 32, 64, 96]) with
        m_pendingRbdcRequestsKbps := [[2147483648]] } _ 0 2147483648 ?_ rfl
    exact Reachable.update _ _ 0 2147483648 (Reachable.init _ rfl) rfl
  · norm_num [twoPending, initialized, Initialize, constructed, Time.GetSeconds,
      Time.GetInteger]
  · norm_num [rawRbdcKbps, twoPending, initialized, Initialize, constructed, Time.GetSeconds,
      Time.GetInteger, BITS_PER_BYTE]
  · norm_num [initialized, Initialize, constructed, Time.GetSeconds, Time.GetInteger]
  · norm_num [rawRbdcKbps, initialized, Initialize, constructed, Time.GetSeconds,
      Time.GetInteger, BITS_PER_BYTE]

/-- C12, amended: in a state reachable from `Initialize` with a positive evaluation
interval `T` (in seconds), with `gain = 1 / (2 T)`, `backlog = b / 1000`, where `b`
is the product `8 * queueSizeBytes` modulo `2 ^ 32` (the 32-bit product of the
source; the plain product when it is below `2 ^ 32`), and
`sum = (incomingRateKbps + p) * T`, where `p` is the sum of the pending window of
`rc` modulo `2 ^ 32` (what `GetPendingRbdcSumKbps` returns; the plain sum when it
is below `2 ^ 32`): the raw requested rate of `DoRbdc` is `incomingRateKbps` when
`backlog <= sum` and `incomingRateKbps + (gain / T) * (backlog - sum)` otherwise;
it is never below `incomingRateKbps`; with an empty queue and a non-negative
incoming rate (such as 100) it is exactly the incoming rate. -/
theorem rawRbdc_formula (m0 : SatRequestManager) (llsConf : SatLowerLayerServiceConf)
    (m : SatRequestManager) (hreach : Reachable m0 llsConf m) (rc : Nat)
    (stats : QueueStats_t) (w : List Nat)
    (hw : m.m_pendingRbdcRequestsKbps[rc]? = some w)
    (hT : 0 < m.m_evaluationInterval.ticks) :
    GetPendingRbdcSumKbps m rc = .ok (w.sum % 4294967296) ∧
    (w.sum < 4294967296 → GetPendingRbdcSumKbps m rc = .ok w.sum) ∧
    (8 * stats.m_queueSizeBytes < 4294967296 →
      (8 * stats.m_queueSizeBytes) % 4294967296 = 8 * stats.m_queueSizeBytes) ∧
    rawRbdcKbps m stats (w.sum % 4294967296)
      = (if (((8 * stats.m_queueSizeBytes) % 4294967296 : Nat) : Rat) / 1000
            ≤ (stats.m_incomingRateKbps + ((w.sum % 4294967296 : Nat) : Rat))
              * m.m_evaluationInterval.GetSeconds
          then stats.m_incomingRateKbps
          else stats.m_incomingRateKbps
            + (1 / (2 * m.m_evaluationInterval.GetSeconds)) / m.m_evaluationInterval.GetSeconds
              * ((((8 * stats.m_queueSizeBytes) % 4294967296 : Nat) : Rat) / 1000
                - (stats.m_incomingRateKbps + ((w.sum % 4294967296 : Nat) : Rat))
                  * m.m_evaluationInterval.GetSeconds)) ∧
    stats.m_incomingRateKbps ≤ rawRbdcKbps m stats (w.sum % 4294967296) ∧
    (stats.m_queueSizeBytes = 0 → 0 ≤ stats.m_incomingRateKbps →
      rawRbdcKbps m stats (w.sum % 4294967296) = stats.m_incomingRateKbps) := by
  obtain ⟨-, hgain⟩ := reachable_gain m0 llsConf m hreach
  have hsum : GetPendingRbdcSumKbps m rc = .ok (w.sum % 4294967296) := by
    unfold GetPendingRbdcSumKbps
    rw [hw]
    simp only
    rw [foldl_add32_eq w 0 (by decide), Nat.zero_add]
  have hTq : 0 < m.m_evaluationInterval.GetSeconds := by
    unfold Time.GetSeconds
    have : (0 : Rat) < (m.m_evaluationInterval.ticks : Rat) := by exact_mod_cast hT
    positivity
  have hcoef : 0 ≤ (1 / (2 * m.m_evaluationInterval.GetSeconds))
      / m.m_evaluationInterval.GetSeconds := by positivity
  have hformula : rawRbdcKbps m stats (w.sum % 4294967296)
      = (if (((8 * stats.m_queueSizeBytes) % 4294967296 : Nat) : Rat) / 1000
            ≤ (stats.m_incomingRateKbps + ((w.sum % 4294967296 : Nat) : Rat))
              * m.m_evaluationInterval.GetSeconds
          then stats.m_incomingRateKbps
          else stats.m_incomingRateKbps
            + (1 / (2 * m.m_evaluationInterval.GetSeconds)) / m.m_evaluationInterval.GetSeconds
              * ((((8 * stats.m_queueSizeBytes) % 4294967296 : Nat) : Rat) / 1000
                - (stats.m_incomingRateKbps + ((w.sum % 4294967296 : Nat) : Rat))
                  * m.m_evaluationInterval.GetSeconds)) := by
    unfold rawRbdcKbps
    simp only [BITS_PER_BYTE, hgain, ← add_mul]
    by_cases hle : (((8 * stats.m_queueSizeBytes) % 4294967296 : Nat) : Rat) / 1000
        ≤ (stats.m_incomingRateKbps + ((w.sum % 4294967296 : Nat) : Rat))
          * m.m_evaluationInterval.GetSeconds
    · rw [if_pos hle, if_neg (not_lt.mpr hle)]
    · rw [if_neg hle, if_pos (not_le.mp hle)]
  refine ⟨hsum, ?_, Nat.mod_eq_of_lt, hformula, ?_, ?_⟩
  · intro hfit
    rw [hsum, Nat.mod_eq_of_lt hfit]
  · rw [hformula]
    split_ifs with hle
    · exact le_refl _
    · have hpos := mul_nonneg hcoef (sub_nonneg.mpr (not_le.mp hle).le)
      linarith
  · intro hq hinc
    rw [hformula, if_pos]
    rw [hq]
    have hp : (0 : Rat) ≤ ((w.sum % 4294967296 : Nat) : Rat) := Nat.cast_nonneg _
    have := mul_nonneg (add_nonneg hinc hp) hTq.le
    simpa using this

/-- Witness for C12 (amended): evaluation interval 100 ms, empty pending window,
incoming rate 100 kbps and an empty queue give a raw rate of exactly 100 kbps. -/
theorem rawRbdc_formula_witness :
    rawRbdcKbps (initialized 560000000 100000000 (oneRcConf 50 100 [0, 32, 64, 96]))
      ⟨100, 0, 0, 0, 0⟩ (([] : List Nat).sum % 4294967296) = 100 :=
  (rawRbdc_formula (constructed 560000000 100000000 (oneRcConf 50 100 [0, 32, 64, 96]))
    (oneRcConf 50 100 [0, 32, 64, 96])
    (initialized 560000000 100000000 (oneRcConf 50 100 [0, 32, 64, 96]))
    (Reachable.init _ rfl) 0 ⟨100, 0, 0, 0, 0⟩ [] rfl (by decide)).2.2.2.2.2 rfl (by norm_num)

/-! ### Volume based requests -/

theorem lt_length_of_getElem? {α : Type} (l : List α) (i : Nat) (a : α) (h : l[i]? = some a) :
    i < l.length :=
  (List.getElem?_eq_some.mp h).1

theorem updatePendingVbdcCounters_ok (m : SatRequestManager) (rc p a : Nat)
    (hp : m.m_pendingVbdcBytes[rc]? = some p) (ha : m.m_assignedDaResourcesBytes[rc]? = some a) :
    UpdatePendingVbdcCounters m rc
      = .ok { m with
          m_pendingVbdcBytes := m.m_pendingVbdcBytes.set rc (if p > a then p - a else 0)
          m_assignedDaResourcesBytes := m.m_assignedDaResourcesBytes.set rc 0 } := by
  unfold UpdatePendingVbdcCounters
  rw [hp, ha]
  simp only
  split_ifs <;> rfl

theorem assignedDaResourcesAll_ok (rc : Nat) (reports : List Nat) (m : SatRequestManager)
    (a0 : Nat) (ha : m.m_assignedDaResourcesBytes[rc]? = some a0) (ha0 : a0 < 4294967296) :
    ∃ m1, AssignedDaResourcesAll m rc reports = .ok m1 ∧
      m1.m_assignedDaResourcesBytes[rc]? = some ((a0 + reports.sum) % 4294967296) ∧
      m1.m_pendingVbdcBytes = m.m_pendingVbdcBytes ∧
      m1.m_sumVbdcVolumeIn = m.m_sumVbdcVolumeIn ∧
      m1.m_pendingRbdcRequestsKbps = m.m_pendingRbdcRequestsKbps := by
  induction reports generalizing m a0 with
  | nil =>
    refine ⟨m, rfl, ?_, rfl, rfl, rfl⟩
    simp [ha, Nat.mod_eq_of_lt ha0]
  | cons bytes rest ih =>
    have hlt := lt_length_of_getElem? _ _ _ ha
    obtain ⟨m1, hrun, hassigned, hpend, hsum, hwin⟩ :=
      ih { m with
          m_assignedDaResourcesBytes := m.m_assignedDaResourcesBytes.set rc (add32 a0 bytes) }
        (add32 a0 bytes) (List.getElem?_set_self hlt) (Nat.mod_lt _ (by decide))
    refine ⟨m1, ?_, ?_, hpend, hsum, hwin⟩
    · unfold AssignedDaResourcesAll AssignedDaResources
      rw [ha]
      exact hrun
    · rw [hassigned]
      simp only [add32, List.sum_cons]
      congr 1
      omega

/-- C18, counterexample: class 0 has 100 pending bytes and an assigned counter of
0; after `AssignedDaResources (0, 2 ^ 31)` twice the reported bytes sum to `2 ^ 32`,
at least the pending amount, but the `uint32_t` counter is 0 again and
`UpdatePendingVbdcCounters` leaves the 100 pending bytes. -/
theorem updatePendingVbdcCounters_counterexample :
    (100 : Nat) ≤ ([2147483648, 2147483648] : List Nat).sum ∧
    ((AssignedDaResourcesAll (vbdcState (oneRcVbdcConf false 0) 100 0 0) 0
        [2147483648, 2147483648]).toOption.bind
      (fun m1 => (UpdatePendingVbdcCounters m1 0).toOption)).map
        (fun m2 => m2.m_pendingVbdcBytes) = some [100] := by
  constructor
  · decide
  · rfl

/-- C18, amended: for a request class `rc` with pending amount `p` and assigned
counter `a`, `UpdatePendingVbdcCounters` returns, sets `pendingVbdcBytes` to `p - a`
when `p > a` and to 0 otherwise (never wrapping), and sets
`assignedDaResourcesBytes` to 0, so the pending amount becomes 0 as soon as
`a >= p`; the counter `a` is the sum of the bytes reported by `AssignedDaResources`
since the last reset taken modulo `2 ^ 32`, which is the plain sum when that is
below `2 ^ 32`. -/
theorem updatePendingVbdcCounters_floor (m : SatRequestManager) (rc p : Nat)
    (hp : m.m_pendingVbdcBytes[rc]? = some p) :
    (∀ a, m.m_assignedDaResourcesBytes[rc]? = some a →
      ∃ m1, UpdatePendingVbdcCounters m rc = .ok m1 ∧
        m1.m_pendingVbdcBytes[rc]? = some (if p > a then p - a else 0) ∧
        m1.m_assignedDaResourcesBytes[rc]? = some 0 ∧
        (a ≥ p → m1.m_pendingVbdcBytes[rc]? = some 0)) ∧
    (∀ reports : List Nat, m.m_assignedDaResourcesBytes[rc]? = some 0 →
      ∃ m1 m2, AssignedDaResourcesAll m rc reports = .ok m1 ∧
        m1.m_assignedDaResourcesBytes[rc]? = some (reports.sum % 4294967296) ∧
        (reports.sum < 4294967296 → m1.m_assignedDaResourcesBytes[rc]? = some reports.sum) ∧
        UpdatePendingVbdcCounters m1 rc = .ok m2 ∧
        m2.m_pendingVbdcBytes[rc]?
          = some (if p > reports.sum % 4294967296 then p - reports.sum % 4294967296 else 0) ∧
        m2.m_assignedDaResourcesBytes[rc]? = some 0 ∧
        (reports.sum < 4294967296 → reports.sum ≥ p → m2.m_pendingVbdcBytes[rc]? = some 0)) := by
  have hplt := lt_length_of_getElem? _ _ _ hp
  have hgen : ∀ (m' : SatRequestManager) (a : Nat), m'.m_pendingVbdcBytes[rc]? = some p →
      m'.m_assignedDaResourcesBytes[rc]? = some a →
      ∃ m1, UpdatePendingVbdcCounters m' rc = .ok m1 ∧
        m1.m_pendingVbdcBytes[rc]? = some (if p > a then p - a else 0) ∧
        m1.m_assignedDaResourcesBytes[rc]? = some 0 ∧
        (a ≥ p → m1.m_pendingVbdcBytes[rc]? = some 0) := by
    intro m' a hp' ha'
    have hp'lt := lt_length_of_getElem? _ _ _ hp'
    have ha'lt := lt_length_of_getElem? _ _ _ ha'
    refine ⟨_, updatePendingVbdcCounters_ok m' rc p a hp' ha', ?_, ?_, ?_⟩
    · exact List.getElem?_set_self hp'lt
    · exact List.getElem?_set_self ha'lt
    · intro hge
      simp only
      rw [List.getElem?_set_self hp'lt, if_neg (not_lt.mpr hge)]
  refine ⟨fun a ha => hgen m a hp ha, ?_⟩
  intro reports ha0
  obtain ⟨m1, hrun, hassigned, hpend, -, -⟩ :=
    assignedDaResourcesAll_ok rc reports m 0 ha0 (by decide)
  rw [Nat.zero_add] at hassigned
  obtain ⟨m2, hupd, hp2, ha2, hzero⟩ := hgen m1 (reports.sum % 4294967296)
    (by rw [hpend]; exact hp) hassigned
  refine ⟨m1, m2, hrun, hassigned, ?_, hupd, hp2, ha2, ?_⟩
  · intro hfit
    rw [hassigned, Nat.mod_eq_of_lt hfit]
  · intro hfit hge
    apply hzero
    rw [Nat.mod_eq_of_lt hfit]
    exact hge

/-- Witness for C18 (amended): 100 pending bytes and reports of 30 and 90 bytes
leave no pending bytes. -/
theorem updatePendingVbdcCounters_floor_witness :
    ∃ m1 m2, AssignedDaResourcesAll (vbdcState (oneRcVbdcConf false 0) 100 0 0) 0 [30, 90]
        = .ok m1 ∧
      m1.m_assignedDaResourcesBytes[0]? = some (([30, 90] : List Nat).sum % 4294967296) ∧
      (([30, 90] : List Nat).sum < 4294967296 →
        m1.m_assignedDaResourcesBytes[0]? = some ([30, 90] : List Nat).sum) ∧
      UpdatePendingVbdcCounters m1 0 = .ok m2 ∧
      m2.m_pendingVbdcBytes[0]?
        = some (if 100 > ([30, 90] : List Nat).sum % 4294967296
            then 100 - ([30, 90] : List Nat).sum % 4294967296 else 0) ∧
      m2.m_assignedDaResourcesBytes[0]? = some 0 ∧
      (([30, 90] : List Nat).sum < 4294967296 → ([30, 90] : List Nat).sum ≥ 100 →
        m2.m_pendingVbdcBytes[0]? = some 0) :=
  (updatePendingVbdcCounters_floor (vbdcState (oneRcVbdcConf false 0) 100 0 0) 0 100 rfl).2
    [30, 90] rfl

theorem truncToUint32_eq_floor (x : Rat) (hx : 0 ≤ x) (hfit : ⌊x⌋ < 4294967296) :
    truncToUint32 x = ⌊x⌋.toNat := by
  have hnum : 0 ≤ x.num := Rat.num_nonneg.mpr hx
  have hfl : ⌊x⌋ = x.num / (x.den : Int) := Rat.floor_def
  unfold truncToUint32 toUint32
  rw [Int.tdiv_eq_ediv hnum (Int.natCast_nonneg _), ← hfl,
    Int.emod_eq_of_lt (Int.floor_nonneg.mpr hx) hfit]

theorem ceilKBytes_eq_ceil (n : Nat) (hn : n < 4294967296) :
    ceilKBytes n = ⌈(n : Rat) / 1000⌉.toNat := by
  have h0 : (0 : Int) ≤ ⌈(n : Rat) / 1000⌉ := Int.ceil_nonneg (by positivity)
  have hle : ⌈(n : Rat) / 1000⌉ ≤ (n : Int) := by
    apply Int.ceil_le.mpr
    have : (0 : Rat) ≤ (n : Rat) := Nat.cast_nonneg _
    push_cast
    linarith
  unfold ceilKBytes toUint32
  rw [Int.emod_eq_of_lt h0 (by omega)]

theorem craBytes_eq_floor (m : SatRequestManager) (rc : Nat)
    (hT : 0 ≤ m.m_evaluationInterval.ticks)
    (hfit : ⌊1000 * (m.m_llsConf.GetDaConstantServiceRateInKbps rc : Rat)
      * m.m_evaluationInterval.GetSeconds / 8⌋ < 4294967296) :
    craBytes m rc
      = if m.m_llsConf.GetDaConstantAssignmentProvided rc then
          ⌊1000 * (m.m_llsConf.GetDaConstantServiceRateInKbps rc : Rat)
            * m.m_evaluationInterval.GetSeconds / 8⌋.toNat
        else 0 := by
  unfold craBytes
  split_ifs with hcra
  · have hTq : 0 ≤ m.m_evaluationInterval.GetSeconds := by
      unfold Time.GetSeconds
      have : (0 : Rat) ≤ (m.m_evaluationInterval.ticks : Rat) := by exact_mod_cast hT
      positivity
    have hx : 0 ≤ 1000 * (m.m_llsConf.GetDaConstantServiceRateInKbps rc : Rat)
        * m.m_evaluationInterval.GetSeconds / 8 := by positivity
    have h8 : ((BITS_PER_BYTE : Nat) : Rat) = 8 := by norm_num [BITS_PER_BYTE]
    rw [h8]
    exact truncToUint32_eq_floor _ hx hfit
  · rfl

theorem updatePendingVbdcCounters_inv (m m1 : SatRequestManager) (rc : Nat)
    (h : UpdatePendingVbdcCounters m rc = .ok m1) :
    ∃ p a, m.m_pendingVbdcBytes[rc]? = some p ∧ m.m_assignedDaResourcesBytes[rc]? = some a ∧
      m1 = { m with
        m_pendingVbdcBytes := m.m_pendingVbdcBytes.set rc (if p > a then p - a else 0)
        m_assignedDaResourcesBytes := m.m_assignedDaResourcesBytes.set rc 0 } := by
  cases hp : m.m_pendingVbdcBytes[rc]? with
  | none =>
    unfold UpdatePendingVbdcCounters at h
    rw [hp] at h
    cases h
  | some p =>
    cases ha : m.m_assignedDaResourcesBytes[rc]? with
    | none =>
      unfold UpdatePendingVbdcCounters at h
      rw [hp, ha] at h
      cases h
    | some a =>
      rw [updatePendingVbdcCounters_ok m rc p a hp ha] at h
      cases h
      exact ⟨p, a, rfl, rfl, rfl⟩

theorem reset_ok (m : SatRequestManager) (rc : Nat)
    (ha : rc < m.m_assignedDaResourcesBytes.length) (hp : rc < m.m_pendingVbdcBytes.length)
    (hs : rc < m.m_sumVbdcVolumeIn.length) :
    Reset m rc
      = .ok { m with
          m_assignedDaResourcesBytes := m.m_assignedDaResourcesBytes.set rc 0
          m_pendingVbdcBytes := m.m_pendingVbdcBytes.set rc 0
          m_sumVbdcVolumeIn := m.m_sumVbdcVolumeIn.set rc 0 } := by
  unfold Reset setAt
  rw [if_pos ha, if_pos hp, if_pos hs]

/-- C19, counterexample: no CRA, every KByte value allowed, nothing pending, a
queue of `2 ^ 32 - 1` bytes and some inbound volume: `DoVbdc` returns AVBDC with a
request of 4294968 KBytes, and `pendingVbdcBytes` becomes 704 (the product
`1000 * 4294968` taken modulo `2 ^ 32`), not 1000 times the request. -/
theorem doVbdc_avbdc_pending_counterexample :
    (DoVbdc (vbdcState (oneRcVbdcConf false 0) 0 0 0) 0 ⟨0, 0, 1, 0, 4294967295⟩).toOption.map
        (fun result => (result.1, result.2.1, result.2.2.m_pendingVbdcBytes))
      = some (.DA_AVBDC, 4294968, [704]) ∧
    (704 : Nat) ≠ 1000 * 4294968 := by
  constructor
  · have hceil : ceilKBytes 4294967295 = 4294968 := by
      rw [ceilKBytes_eq_ceil _ (by decide)]
      have : ⌈((4294967295 : Nat) : Rat) / 1000⌉ = 4294968 := by
        rw [Int.ceil_eq_iff]
        norm_num
      rw [this]
      rfl
    have hrun : DoVbdc (vbdcState (oneRcVbdcConf false 0) 0 0 0) 0 ⟨0, 0, 1, 0, 4294967295⟩
        = .ok (.DA_AVBDC, 4294968,
            { vbdcState (oneRcVbdcConf false 0) 0 0 0 with m_pendingVbdcBytes := [704] }) := by
      simp only [DoVbdc, UpdatePendingVbdcCounters, GetAvbdcKBytes, Reset, setAt, vbdcState,
        initialized, Initialize, constructed, craBytes, oneRcVbdcConf, add32,
        Time.GetInteger]
      simp [hceil]
    rw [hrun]
    rfl
  · decide

/-- C19, amended: when `pendingVbdcBytes` of `rc` is 0 after reconciliation and the
snapshot has `volumeInBytes > 0`, `DoVbdc` returns with category AVBDC; with
`craBytes = floor (1000 * constantRateKbps * T / 8)` if CRA is provided and 0
otherwise, the request is `Quantize (ceil ((queueSizeBytes - craBytes) / 1000))`
KBytes (as a `uint32_t`) when `craBytes < queueSizeBytes` and 0 otherwise;
afterwards `pendingVbdcBytes` is `1000 * request` modulo `2 ^ 32`, which is exactly
`1000 * request` when that product is below `2 ^ 32`, while `sumVbdcVolumeIn` and
`assignedDaResourcesBytes` are 0. -/
theorem doVbdc_avbdc (m m1 : SatRequestManager) (rc : Nat) (stats : QueueStats_t)
    (hrec : UpdatePendingVbdcCounters m rc = .ok m1)
    (hzero : m1.m_pendingVbdcBytes[rc]? = some 0)
    (hsum : rc < m.m_sumVbdcVolumeIn.length)
    (hvol : 0 < stats.m_volumeInBytes) (hqueue : stats.m_queueSizeBytes < 4294967296)
    (hT : 0 ≤ m.m_evaluationInterval.ticks)
    (hfit : ⌊1000 * (m.m_llsConf.GetDaConstantServiceRateInKbps rc : Rat)
      * m.m_evaluationInterval.GetSeconds / 8⌋ < 4294967296) :
    ∃ r m2, DoVbdc m rc stats = .ok (.DA_AVBDC, r, m2) ∧
      r = (if (if m.m_llsConf.GetDaConstantAssignmentProvided rc then
                ⌊1000 * (m.m_llsConf.GetDaConstantServiceRateInKbps rc : Rat)
                  * m.m_evaluationInterval.GetSeconds / 8⌋.toNat
              else 0) < stats.m_queueSizeBytes
          then m.m_llsConf.GetQuantizedVbdcValue rc
            ⌈((stats.m_queueSizeBytes
                - (if m.m_llsConf.GetDaConstantAssignmentProvided rc then
                    ⌊1000 * (m.m_llsConf.GetDaConstantServiceRateInKbps rc : Rat)
                      * m.m_evaluationInterval.GetSeconds / 8⌋.toNat
                  else 0) : Nat) : Rat) / 1000⌉.toNat % 4294967296
          else 0) ∧
      m2.m_pendingVbdcBytes[rc]? = some ((1000 * r) % 4294967296) ∧
      (1000 * r < 4294967296 → m2.m_pendingVbdcBytes[rc]? = some (1000 * r)) ∧
      m2.m_sumVbdcVolumeIn[rc]? = some 0 ∧
      m2.m_assignedDaResourcesBytes[rc]? = some 0 := by
  obtain ⟨p, a, hp, ha, hm1⟩ := updatePendingVbdcCounters_inv m m1 rc hrec
  have hplt := lt_length_of_getElem? _ _ _ hp
  have halt := lt_length_of_getElem? _ _ _ ha
  have hcraeq := craBytes_eq_floor m rc hT hfit
  subst hm1
  have hreset := reset_ok
    { m with
      m_pendingVbdcBytes := m.m_pendingVbdcBytes.set rc (if p > a then p - a else 0)
      m_assignedDaResourcesBytes := m.m_assignedDaResourcesBytes.set rc 0 } rc
    (by simpa using halt) (by simpa using hplt) hsum
  simp only [List.set_set] at hreset
  rw [← hcraeq]
  by_cases hlt : craBytes m rc < stats.m_queueSizeBytes
  · have hrun : DoVbdc m rc stats
        = .ok (.DA_AVBDC,
            m.m_llsConf.GetQuantizedVbdcValue rc
              (ceilKBytes (stats.m_queueSizeBytes - craBytes m rc)) % 4294967296,
            { m with
              m_assignedDaResourcesBytes := m.m_assignedDaResourcesBytes.set rc 0
              m_pendingVbdcBytes := (m.m_pendingVbdcBytes.set rc 0).set rc
                (add32 0 (1000 * (m.m_llsConf.GetQuantizedVbdcValue rc
                  (ceilKBytes (stats.m_queueSizeBytes - craBytes m rc)) % 4294967296)))
              m_sumVbdcVolumeIn := m.m_sumVbdcVolumeIn.set rc 0 }) := by
      unfold DoVbdc
      rw [hrec]
      simp only [hzero, if_pos hvol, if_true]
      unfold GetAvbdcKBytes
      rw [hreset]
      have hc : craBytes
          { m with
            m_assignedDaResourcesBytes := m.m_assignedDaResourcesBytes.set rc 0
            m_pendingVbdcBytes := m.m_pendingVbdcBytes.set rc 0
            m_sumVbdcVolumeIn := m.m_sumVbdcVolumeIn.set rc 0 } rc = craBytes m rc := rfl
      simp only [hc, if_pos hlt, List.getElem?_set_self hplt]
    refine ⟨_, _, hrun, ?_, ?_, ?_, ?_, ?_⟩
    · rw [if_pos hlt, ceilKBytes_eq_ceil _ (by omega)]
    · simp only [List.set_set, add32, Nat.zero_add]
      exact List.getElem?_set_self hplt
    · intro hfit2
      simp only [List.set_set, add32, Nat.zero_add]
      rw [List.getElem?_set_self hplt, Nat.mod_eq_of_lt hfit2]
    · exact List.getElem?_set_self hsum
    · exact List.getElem?_set_self halt
  · have hrun : DoVbdc m rc stats
        = .ok (.DA_AVBDC, 0,
            { m with
              m_assignedDaResourcesBytes := m.m_assignedDaResourcesBytes.set rc 0
              m_pendingVbdcBytes := m.m_pendingVbdcBytes.set rc 0
              m_sumVbdcVolumeIn := m.m_sumVbdcVolumeIn.set rc 0 }) := by
      unfold DoVbdc
      rw [hrec]
      simp only [hzero, if_pos hvol, if_true]
      unfold GetAvbdcKBytes
      rw [hreset]
      have hc : craBytes
          { m with
            m_assignedDaResourcesBytes := m.m_assignedDaResourcesBytes.set rc 0
            m_pendingVbdcBytes := m.m_pendingVbdcBytes.set rc 0
            m_sumVbdcVolumeIn := m.m_sumVbdcVolumeIn.set rc 0 } rc = craBytes m rc := rfl
      simp only [hc, if_neg hlt]
    refine ⟨_, _, hrun, ?_, ?_, ?_, ?_, ?_⟩
    · rw [if_neg hlt]
    · exact List.getElem?_set_self hplt
    · intro _
      exact List.getElem?_set_self hplt
    · exact List.getElem?_set_self hsum
    · exact List.getElem?_set_self halt

/-- Witness for C19 (amended): CRA of 80 kbps over 100 ms covers 1000 bytes; with a
queue of 2500 bytes and nothing pending the request is recorded as pending. -/
theorem doVbdc_avbdc_witness :
    ∃ r m2, DoVbdc (vbdcState (oneRcVbdcConf true 80) 0 0 0) 0 ⟨0, 0, 1, 0, 2500⟩
        = .ok (.DA_AVBDC, r, m2) ∧
      m2.m_pendingVbdcBytes[0]? = some ((1000 * r) % 4294967296) ∧
      m2.m_sumVbdcVolumeIn[0]? = some 0 ∧
      m2.m_assignedDaResourcesBytes[0]? = some 0 :=
  let ⟨r, m2, hrun, _, hpending, _, hsum, hassigned⟩ :=
    doVbdc_avbdc (vbdcState (oneRcVbdcConf true 80) 0 0 0) _ 0 ⟨0, 0, 1, 0, 2500⟩
      (updatePendingVbdcCounters_ok _ 0 0 0 rfl rfl) rfl (by decide) (by decide) (by decide)
      (by decide)
      (by
        have h : ⌊1000 * (((vbdcState (oneRcVbdcConf true 80) 0 0
            0).m_llsConf.GetDaConstantServiceRateInKbps 0 : Nat) : Rat)
            * (vbdcState (oneRcVbdcConf true 80) 0 0 0).m_evaluationInterval.GetSeconds / 8⌋
            = 1000 := by
          rw [Int.floor_eq_iff]
          norm_num [vbdcState, initialized, Initialize, constructed, oneRcVbdcConf,
            Time.GetSeconds, Time.GetInteger]
        rw [h]
        decide)
  ⟨r, m2, hrun, hpending, hsum, hassigned⟩

/-- C20, counterexample: no CRA, every KByte value allowed, 500 bytes pending, a
running sum of 4294967000 bytes and 1000 bytes of inbound volume: the sum increased
by the volume would be 4294968000 and the request 4294968 KBytes, but `DoVbdc`
stores the sum 704 (the `uint32_t` addition wraps) and requests 1 KByte. -/
theorem doVbdc_vbdc_sum_counterexample :
    (DoVbdc (vbdcState (oneRcVbdcConf false 0) 500 0 4294967000) 0
        ⟨0, 0, 1000, 0, 2500⟩).toOption.map
        (fun result => (result.1, result.2.1, result.2.2.m_sumVbdcVolumeIn))
      = some (.DA_VBDC, 1, [704]) ∧
    (704 : Nat) ≠ 4294967000 + 1000 := by
  constructor
  · have hceil : ceilKBytes 204 = 1 := by
      rw [ceilKBytes_eq_ceil _ (by decide)]
      have : ⌈((204 : Nat) : Rat) / 1000⌉ = 1 := by
        rw [Int.ceil_eq_iff]
        norm_num
      rw [this]
      rfl
    have hrun : DoVbdc (vbdcState (oneRcVbdcConf false 0) 500 0 4294967000) 0
        ⟨0, 0, 1000, 0, 2500⟩
        = .ok (.DA_VBDC, 1,
            { vbdcState (oneRcVbdcConf false 0) 500 0 4294967000 with
              m_pendingVbdcBytes := [1500]
              m_sumVbdcVolumeIn := [704] }) := by
      simp only [DoVbdc, UpdatePendingVbdcCounters, GetVbdcKBytes, vbdcState,
        initialized, Initialize, constructed, craBytes, oneRcVbdcConf, add32,
        Time.GetInteger]
      simp [hceil]
    rw [hrun]
    rfl
  · decide

/-- C20, amended: when `pendingVbdcBytes` of `rc` is `p > 0` after reconciliation and
the snapshot has `volumeInBytes > 0`, `DoVbdc` returns with category VBDC; with
`craBytes` as in `GetAvbdcKBytes`, the running sum `s` becomes
`s1 = (s + (volumeInBytes - craBytes)) mod 2 ^ 32` when `craBytes < volumeInBytes`
and stays `s` otherwise; the request is `Quantize (ceil ((s1 - p) / 1000))` KBytes
(as a `uint32_t`) when the volume exceeded `craBytes` and `p < s1`, and 0 otherwise;
`pendingVbdcBytes` afterwards is `(p + 1000 * request) mod 2 ^ 32`. When neither sum
reaches `2 ^ 32` these are `s + (volumeInBytes - craBytes)` and
`p + 1000 * request`. -/
theorem doVbdc_vbdc (m m1 : SatRequestManager) (rc : Nat) (stats : QueueStats_t) (p s : Nat)
    (hrec : UpdatePendingVbdcCounters m rc = .ok m1)
    (hp : m1.m_pendingVbdcBytes[rc]? = some p) (hpos : 0 < p) (hp32 : p < 4294967296)
    (hs : m.m_sumVbdcVolumeIn[rc]? = some s)
    (hvol : 0 < stats.m_volumeInBytes)
    (hT : 0 ≤ m.m_evaluationInterval.ticks)
    (hfit : ⌊1000 * (m.m_llsConf.GetDaConstantServiceRateInKbps rc : Rat)
      * m.m_evaluationInterval.GetSeconds / 8⌋ < 4294967296) :
    ∃ cra s1 r m2,
      cra = (if m.m_llsConf.GetDaConstantAssignmentProvided rc then
          ⌊1000 * (m.m_llsConf.GetDaConstantServiceRateInKbps rc : Rat)
            * m.m_evaluationInterval.GetSeconds / 8⌋.toNat
        else 0) ∧
      s1 = (if cra < stats.m_volumeInBytes
        then (s + (stats.m_volumeInBytes - cra)) % 4294967296 else s) ∧
      DoVbdc m rc stats = .ok (.DA_VBDC, r, m2) ∧
      m2.m_sumVbdcVolumeIn[rc]? = some s1 ∧
      r = (if cra < stats.m_volumeInBytes ∧ p < s1
        then m.m_llsConf.GetQuantizedVbdcValue rc ⌈((s1 - p : Nat) : Rat) / 1000⌉.toNat
          % 4294967296
        else 0) ∧
      m2.m_pendingVbdcBytes[rc]? = some ((p + 1000 * r) % 4294967296) ∧
      (s + (stats.m_volumeInBytes - cra) < 4294967296 → p + 1000 * r < 4294967296 →
        m2.m_sumVbdcVolumeIn[rc]?
          = some (if cra < stats.m_volumeInBytes then s + (stats.m_volumeInBytes - cra) else s) ∧
        m2.m_pendingVbdcBytes[rc]? = some (p + 1000 * r)) := by
  obtain ⟨p0, a, hp0, ha, hm1⟩ := updatePendingVbdcCounters_inv m m1 rc hrec
  have hplt : rc < m1.m_pendingVbdcBytes.length := lt_length_of_getElem? _ _ _ hp
  have hslt : rc < m.m_sumVbdcVolumeIn.length := lt_length_of_getElem? _ _ _ hs
  have hsum1 : m1.m_sumVbdcVolumeIn = m.m_sumVbdcVolumeIn := by rw [hm1]
  have hconf1 : m1.m_llsConf = m.m_llsConf := by rw [hm1]
  have hcra1 : craBytes m1 rc = craBytes m rc := by rw [hm1]; rfl
  have hcraeq := craBytes_eq_floor m rc hT hfit
  have hpne : ¬ p = 0 := by omega
  by_cases hlt : craBytes m rc < stats.m_volumeInBytes
  · by_cases hps : p < (s + (stats.m_volumeInBytes - craBytes m rc)) % 4294967296
    · have hrun : DoVbdc m rc stats
          = .ok (.DA_VBDC,
              m.m_llsConf.GetQuantizedVbdcValue rc
                (ceilKBytes ((s + (stats.m_volumeInBytes - craBytes m rc)) % 4294967296 - p))
                % 4294967296,
              { m1 with
                m_sumVbdcVolumeIn := m1.m_sumVbdcVolumeIn.set rc
                  ((s + (stats.m_volumeInBytes - craBytes m rc)) % 4294967296)
                m_pendingVbdcBytes := m1.m_pendingVbdcBytes.set rc
                  (add32 p (1000 * (m.m_llsConf.GetQuantizedVbdcValue rc
                    (ceilKBytes ((s + (stats.m_volumeInBytes - craBytes m rc)) % 4294967296
                      - p)) % 4294967296))) }) := by
        unfold DoVbdc
        rw [hrec]
        simp only [hp, if_pos hvol, if_neg hpne]
        unfold GetVbdcKBytes
        simp only [hcra1, if_pos hlt, hsum1, hs, hp, add32, if_pos hps, hconf1]
      refine ⟨craBytes m rc, (s + (stats.m_volumeInBytes - craBytes m rc)) % 4294967296,
        _, _, hcraeq, (if_pos hlt).symm, hrun, ?_, ?_, ?_, ?_⟩
      · simp only [hsum1]
        exact List.getElem?_set_self hslt
      · rw [if_pos ⟨hlt, hps⟩, ceilKBytes_eq_ceil _ (by omega)]
      · simp only [add32]
        exact List.getElem?_set_self hplt
      · intro hfit1 hfit2
        simp only [hsum1, add32, if_pos hlt]
        rw [Nat.mod_eq_of_lt hfit1] at hfit2
        rw [List.getElem?_set_self hslt, List.getElem?_set_self hplt,
          Nat.mod_eq_of_lt hfit1, Nat.mod_eq_of_lt hfit2]
        exact ⟨rfl, rfl⟩
    · have hrun : DoVbdc m rc stats
          = .ok (.DA_VBDC, 0,
              { m1 with
                m_sumVbdcVolumeIn := m1.m_sumVbdcVolumeIn.set rc
                  ((s + (stats.m_volumeInBytes - craBytes m rc)) % 4294967296) }) := by
        unfold DoVbdc
        rw [hrec]
        simp only [hp, if_pos hvol, if_neg hpne]
        unfold GetVbdcKBytes
        simp only [hcra1, if_pos hlt, hsum1, hs, hp, add32, if_neg hps]
      refine ⟨craBytes m rc, (s + (stats.m_volumeInBytes - craBytes m rc)) % 4294967296,
        _, _, hcraeq, (if_pos hlt).symm, hrun, ?_, ?_, ?_, ?_⟩
      · simp only [hsum1]
        exact List.getElem?_set_self hslt
      · rw [if_neg (fun h => hps h.2)]
      · simp only [Nat.mul_zero, Nat.add_zero, Nat.mod_eq_of_lt hp32]
        exact hp
      · intro hfit1 _
        simp only [hsum1, Nat.mul_zero, Nat.add_zero, if_pos hlt]
        rw [List.getElem?_set_self hslt, Nat.mod_eq_of_lt hfit1]
        exact ⟨rfl, hp⟩
  · have hrun : DoVbdc m rc stats = .ok (.DA_VBDC, 0, m1) := by
      unfold DoVbdc
      rw [hrec]
      simp only [hp, if_pos hvol, if_neg hpne]
      unfold GetVbdcKBytes
      simp only [hcra1, if_neg hlt]
    refine ⟨craBytes m rc, s, _, _, hcraeq, (if_neg hlt).symm, hrun, ?_, ?_, ?_, ?_⟩
    · rw [hsum1]
      exact hs
    · rw [if_neg (fun h => hlt h.1)]
    · simp only [Nat.mul_zero, Nat.add_zero, Nat.mod_eq_of_lt hp32]
      exact hp
    · intro _ _
      simp only [Nat.mul_zero, Nat.add_zero, if_neg hlt, hsum1]
      exact ⟨hs, hp⟩

/-- Witness for C20 (amended): 500 bytes pending of which 100 were assigned, a
running sum of 1000 bytes, 1000 bytes of inbound volume and no CRA. -/
theorem doVbdc_vbdc_witness :
    ∃ cra s1 r m2,
      cra = (if (vbdcState (oneRcVbdcConf false 0) 500 100
            1000).m_llsConf.GetDaConstantAssignmentProvided 0 then
          ⌊1000 * (((vbdcState (oneRcVbdcConf false 0) 500 100
              1000).m_llsConf.GetDaConstantServiceRateInKbps 0 : Nat) : Rat)
            * (vbdcState (oneRcVbdcConf false 0) 500 100
              1000).m_evaluationInterval.GetSeconds / 8⌋.toNat
        else 0) ∧
      s1 = (if cra < 1000 then (1000 + (1000 - cra)) % 4294967296 else 1000) ∧
      DoVbdc (vbdcState (oneRcVbdcConf false 0) 500 100 1000) 0 ⟨0, 0, 1000, 0, 2500⟩
        = .ok (.DA_VBDC, r, m2) ∧
      m2.m_sumVbdcVolumeIn[0]? = some s1 ∧
      m2.m_pendingVbdcBytes[0]? = some ((400 + 1000 * r) % 4294967296) :=
  let ⟨cra, s1, r, m2, hcra, hs1, hrun, hsum, _, hpending, _⟩ :=
    doVbdc_vbdc (vbdcState (oneRcVbdcConf false 0) 500 100 1000) _ 0 ⟨0, 0, 1000, 0, 2500⟩
      400 1000 (updatePendingVbdcCounters_ok _ 0 500 100 rfl rfl) rfl (by decide) (by decide)
      rfl (by decide) (by decide)
      (by
        have h : ⌊1000 * (((vbdcState (oneRcVbdcConf false 0) 500 100
            1000).m_llsConf.GetDaConstantServiceRateInKbps 0 : Nat) : Rat)
            * (vbdcState (oneRcVbdcConf false 0) 500 100
              1000).m_evaluationInterval.GetSeconds / 8⌋ = 0 := by
          rw [Int.floor_eq_iff]
          norm_num [vbdcState, initialized, Initialize, constructed, oneRcVbdcConf,
            Time.GetSeconds, Time.GetInteger]
        rw [h]
        decide)
  ⟨cra, s1, r, m2, hcra, hs1, hrun, hsum, hpending⟩

/-! ### Evaluation cycle -/

theorem unchanged_refl (m : SatRequestManager) : Unchanged m m :=
  ⟨rfl, rfl, rfl, rfl, rfl, rfl, rfl, rfl, rfl, rfl, rfl, rfl, rfl⟩

theorem unchanged_trans {m m1 m2 : SatRequestManager} (h1 : Unchanged m m1)
    (h2 : Unchanged m1 m2) : Unchanged m m2 :=
  ⟨h2.llsConf.trans h1.llsConf, h2.evaluationInterval.trans h1.evaluationInterval,
    h2.cnoReportInterval.trans h1.cnoReportInterval,
    h2.maxPendingCrEntries.trans h1.maxPendingCrEntries,
    h2.queueCallbacks.trans h1.queueCallbacks, h2.ctrlCallback.trans h1.ctrlCallback,
    h2.gwAddress.trans h1.gwAddress, h2.lastCno.trans h1.lastCno,
    h2.cnoReportEvent.trans h1.cnoReportEvent,
    h2.pendingRbdcLength.trans h1.pendingRbdcLength,
    h2.pendingVbdcLength.trans h1.pendingVbdcLength,
    h2.assignedLength.trans h1.assignedLength, h2.sumLength.trans h1.sumLength⟩

theorem updatePendingRbdcCounters_unchanged (m m1 : SatRequestManager) (rc value : Nat)
    (h : UpdatePendingRbdcCounters m rc value = .ok m1) :
    Unchanged m m1 ∧ m1.m_pendingVbdcBytes = m.m_pendingVbdcBytes ∧
      m1.m_assignedDaResourcesBytes = m.m_assignedDaResourcesBytes ∧
      m1.m_sumVbdcVolumeIn = m.m_sumVbdcVolumeIn := by
  unfold UpdatePendingRbdcCounters at h
  cases hw : m.m_pendingRbdcRequestsKbps[rc]? with
  | none =>
    rw [hw] at h
    cases h
  | some cont =>
    rw [hw] at h
    simp only at h
    split_ifs at h
    all_goals
      cases h
      exact ⟨⟨rfl, rfl, rfl, rfl, rfl, rfl, rfl, rfl, rfl, by simp, rfl, rfl, rfl⟩,
        rfl, rfl, rfl⟩

theorem doRbdc_unchanged (m m1 : SatRequestManager) (rc r : Nat) (stats : QueueStats_t)
    (h : DoRbdc m rc stats = .ok (r, m1)) :
    Unchanged m m1 ∧ m1.m_pendingVbdcBytes = m.m_pendingVbdcBytes ∧
      m1.m_assignedDaResourcesBytes = m.m_assignedDaResourcesBytes ∧
      m1.m_sumVbdcVolumeIn = m.m_sumVbdcVolumeIn :=
  updatePendingRbdcCounters_unchanged m m1 rc r (doRbdc_inv m m1 rc r stats h)

theorem doRbdc_total (m : SatRequestManager) (rc : Nat) (stats : QueueStats_t)
    (hrc : rc < m.m_pendingRbdcRequestsKbps.length)
    (hbound : ∀ w ∈ m.m_pendingRbdcRequestsKbps, w.length ≤ m.m_maxPendingCrEntries)
    (hcra : m.m_llsConf.GetDaConstantAssignmentProvided rc = true →
      m.m_llsConf.GetDaConstantServiceRateInKbps rc
        < m.m_llsConf.GetDaMaximumServiceRateInKbps rc) :
    ∃ r m1, DoRbdc m rc stats = .ok (r, m1) := by
  have hw : m.m_pendingRbdcRequestsKbps[rc]? = some m.m_pendingRbdcRequestsKbps[rc] :=
    List.getElem?_eq_getElem hrc
  have hlen := hbound _ (List.getElem_mem hrc)
  have hsum : GetPendingRbdcSumKbps m rc
      = .ok (m.m_pendingRbdcRequestsKbps[rc].foldl add32 0) := by
    unfold GetPendingRbdcSumKbps
    rw [hw]
  have hreq : ∃ req, rbdcAfterCra m.m_llsConf rc
      (rawRbdcKbps m stats (m.m_pendingRbdcRequestsKbps[rc].foldl add32 0)) = .ok req := by
    cases hflag : m.m_llsConf.GetDaConstantAssignmentProvided rc with
    | true =>
      obtain ⟨req, hreq, -, -⟩ := rbdcAfterCra_bound m.m_llsConf rc
        (rawRbdcKbps m stats (m.m_pendingRbdcRequestsKbps[rc].foldl add32 0)) hflag (hcra hflag)
      exact ⟨req, hreq⟩
    | false =>
      unfold rbdcAfterCra
      rw [hflag]
      simp only [Bool.false_eq_true, if_false]
      split_ifs
      · exact ⟨_, rfl⟩
      · exact ⟨_, rfl⟩
  obtain ⟨req, hreq⟩ := hreq
  unfold DoRbdc
  rw [hsum]
  simp only
  rw [hreq]
  simp only
  rw [updatePendingRbdcCounters_ok m rc _ _ hw hlen]
  exact ⟨_, _, rfl⟩

theorem updatePendingVbdcCounters_unchanged (m m1 : SatRequestManager) (rc : Nat)
    (h : UpdatePendingVbdcCounters m rc = .ok m1) :
    Unchanged m m1 ∧ m1.m_pendingRbdcRequestsKbps = m.m_pendingRbdcRequestsKbps := by
  obtain ⟨p, a, -, -, hm1⟩ := updatePendingVbdcCounters_inv m m1 rc h
  subst hm1
  exact ⟨⟨rfl, rfl, rfl, rfl, rfl, rfl, rfl, rfl, rfl, rfl, by simp, by simp, rfl⟩, rfl⟩

theorem setAt_length (v v1 : List Nat) (rc value : Nat) (h : setAt v rc value = .ok v1) :
    v1.length = v.length := by
  unfold setAt at h
  split_ifs at h
  cases h
  simp

theorem reset_unchanged (m m1 : SatRequestManager) (rc : Nat) (h : Reset m rc = .ok m1) :
    Unchanged m m1 ∧ m1.m_pendingRbdcRequestsKbps = m.m_pendingRbdcRequestsKbps := by
  unfold Reset at h
  cases ha : setAt m.m_assignedDaResourcesBytes rc 0 with
  | error e =>
    rw [ha] at h
    cases h
  | ok assigned =>
    rw [ha] at h
    simp only at h
    cases hp : setAt m.m_pendingVbdcBytes rc 0 with
    | error e =>
      rw [hp] at h
      cases h
    | ok pending =>
      rw [hp] at h
      simp only at h
      cases hs : setAt m.m_sumVbdcVolumeIn rc 0 with
      | error e =>
        rw [hs] at h
        cases h
      | ok sumIn =>
        rw [hs] at h
        cases h
        exact ⟨⟨rfl, rfl, rfl, rfl, rfl, rfl, rfl, rfl, rfl, rfl, setAt_length _ _ _ _ hp,
          setAt_length _ _ _ _ ha, setAt_length _ _ _ _ hs⟩, rfl⟩

theorem getAvbdcKBytes_unchanged (m m1 : SatRequestManager) (rc k : Nat) (stats : QueueStats_t)
    (h : GetAvbdcKBytes m rc stats = .ok (k, m1)) :
    Unchanged m m1 ∧ m1.m_pendingRbdcRequestsKbps = m.m_pendingRbdcRequestsKbps := by
  unfold GetAvbdcKBytes at h
  cases hr : Reset m rc with
  | error e =>
    rw [hr] at h
    cases h
  | ok mr =>
    rw [hr] at h
    simp only at h
    obtain ⟨hun, hwin⟩ := reset_unchanged m mr rc hr
    split_ifs at h with hlt
    · cases hp : mr.m_pendingVbdcBytes[rc]? with
      | none =>
        rw [hp] at h
        cases h
      | some pending =>
        rw [hp] at h
        simp only [Except.ok.injEq, Prod.mk.injEq] at h
        rw [← h.2]
        exact ⟨unchanged_trans hun
          ⟨rfl, rfl, rfl, rfl, rfl, rfl, rfl, rfl, rfl, rfl, by simp, rfl, rfl⟩, hwin⟩
    · simp only [Except.ok.injEq, Prod.mk.injEq] at h
      rw [← h.2]
      exact ⟨hun, hwin⟩

theorem getVbdcKBytes_unchanged (m m1 : SatRequestManager) (rc k : Nat) (stats : QueueStats_t)
    (h : GetVbdcKBytes m rc stats = .ok (k, m1)) :
    Unchanged m m1 ∧ m1.m_pendingRbdcRequestsKbps = m.m_pendingRbdcRequestsKbps := by
  unfold GetVbdcKBytes at h
  simp only at h
  split_ifs at h with hlt
  · cases hs : m.m_sumVbdcVolumeIn[rc]? with
    | none =>
      rw [hs] at h
      cases h
    | some sumIn =>
      rw [hs] at h
      simp only at h
      cases hp : m.m_pendingVbdcBytes[rc]? with
      | none =>
        rw [hp] at h
        cases h
      | some pending =>
        rw [hp] at h
        simp only at h
        split_ifs at h with hps
        · simp only [Except.ok.injEq, Prod.mk.injEq] at h
          rw [← h.2]
          exact ⟨⟨rfl, rfl, rfl, rfl, rfl, rfl, rfl, rfl, rfl, rfl, by simp, rfl, by simp⟩, rfl⟩
        · simp only [Except.ok.injEq, Prod.mk.injEq] at h
          rw [← h.2]
          exact ⟨⟨rfl, rfl, rfl, rfl, rfl, rfl, rfl, rfl, rfl, rfl, rfl, rfl, by simp⟩, rfl⟩
  · simp only [Except.ok.injEq, Prod.mk.injEq] at h
    rw [← h.2]
    exact ⟨unchanged_refl m, rfl⟩

theorem doVbdc_unchanged (m m1 : SatRequestManager) (rc k : Nat) (stats : QueueStats_t)
    (cac : SatCapacityAllocationCategory_t) (h : DoVbdc m rc stats = .ok (cac, k, m1)) :
    Unchanged m m1 ∧ m1.m_pendingRbdcRequestsKbps = m.m_pendingRbdcRequestsKbps := by
  unfold DoVbdc at h
  cases hu : UpdatePendingVbdcCounters m rc with
  | error e =>
    rw [hu] at h
    cases h
  | ok mu =>
    rw [hu] at h
    simp only at h
    obtain ⟨hun, hwin⟩ := updatePendingVbdcCounters_unchanged m mu rc hu
    split_ifs at h with hvol
    · cases hp : mu.m_pendingVbdcBytes[rc]? with
      | none =>
        rw [hp] at h
        cases h
      | some pending =>
        rw [hp] at h
        simp only at h
        split_ifs at h with hzero
        · cases ha : GetAvbdcKBytes mu rc stats with
          | error e =>
            rw [ha] at h
            cases h
          | ok res =>
            obtain ⟨k2, m2⟩ := res
            rw [ha] at h
            simp only [Except.ok.injEq, Prod.mk.injEq] at h
            obtain ⟨hun2, hwin2⟩ := getAvbdcKBytes_unchanged mu m2 rc k2 stats ha
            rw [← h.2.2]
            exact ⟨unchanged_trans hun hun2, hwin2.trans hwin⟩
        · cases ha : GetVbdcKBytes mu rc stats with
          | error e =>
            rw [ha] at h
            cases h
          | ok res =>
            obtain ⟨k2, m2⟩ := res
            rw [ha] at h
            simp only [Except.ok.injEq, Prod.mk.injEq] at h
            obtain ⟨hun2, hwin2⟩ := getVbdcKBytes_unchanged mu m2 rc k2 stats ha
            rw [← h.2.2]
            exact ⟨unchanged_trans hun hun2, hwin2.trans hwin⟩
    · simp only [Except.ok.injEq, Prod.mk.injEq] at h
      rw [← h.2.2]
      exact ⟨hun, hwin⟩

theorem getAvbdcKBytes_total (m : SatRequestManager) (rc : Nat) (stats : QueueStats_t)
    (ha : rc < m.m_assignedDaResourcesBytes.length) (hp : rc < m.m_pendingVbdcBytes.length)
    (hs : rc < m.m_sumVbdcVolumeIn.length) :
    ∃ k m1, GetAvbdcKBytes m rc stats = .ok (k, m1) := by
  unfold GetAvbdcKBytes
  rw [reset_ok m rc ha hp hs]
  simp only
  split_ifs with hlt
  · rw [List.getElem?_set_self hp]
    exact ⟨_, _, rfl⟩
  · exact ⟨_, _, rfl⟩

theorem getVbdcKBytes_total (m : SatRequestManager) (rc : Nat) (stats : QueueStats_t)
    (hp : rc < m.m_pendingVbdcBytes.length) (hs : rc < m.m_sumVbdcVolumeIn.length) :
    ∃ k m1, GetVbdcKBytes m rc stats = .ok (k, m1) := by
  unfold GetVbdcKBytes
  simp only
  split_ifs with hlt
  · rw [List.getElem?_eq_getElem hs]
    simp only
    rw [List.getElem?_eq_getElem hp]
    simp only
    split_ifs
    · exact ⟨_, _, rfl⟩
    · exact ⟨_, _, rfl⟩
  · exact ⟨_, _, rfl⟩

theorem doVbdc_total (m : SatRequestManager) (rc : Nat) (stats : QueueStats_t)
    (ha : rc < m.m_assignedDaResourcesBytes.length) (hp : rc < m.m_pendingVbdcBytes.length)
    (hs : rc < m.m_sumVbdcVolumeIn.length) :
    ∃ cac k m1, DoVbdc m rc stats = .ok (cac, k, m1) := by
  obtain ⟨mu, hu⟩ : ∃ mu, UpdatePendingVbdcCounters m rc = .ok mu :=
    ⟨_, updatePendingVbdcCounters_ok m rc _ _ (List.getElem?_eq_getElem hp)
      (List.getElem?_eq_getElem ha)⟩
  obtain ⟨hun, -⟩ := updatePendingVbdcCounters_unchanged m mu rc hu
  have ha1 : rc < mu.m_assignedDaResourcesBytes.length := by rw [hun.assignedLength]; exact ha
  have hp1 : rc < mu.m_pendingVbdcBytes.length := by rw [hun.pendingVbdcLength]; exact hp
  have hs1 : rc < mu.m_sumVbdcVolumeIn.length := by rw [hun.sumLength]; exact hs
  unfold DoVbdc
  rw [hu]
  simp only
  by_cases hvol : stats.m_volumeInBytes > 0
  · rw [if_pos hvol, List.getElem?_eq_getElem hp1]
    simp only
    by_cases hzero : mu.m_pendingVbdcBytes[rc] = 0
    · obtain ⟨k, m1, hk⟩ := getAvbdcKBytes_total mu rc stats ha1 hp1 hs1
      rw [if_pos hzero, hk]
      exact ⟨_, _, _, rfl⟩
    · obtain ⟨k, m1, hk⟩ := getVbdcKBytes_total mu rc stats hp1 hs1
      rw [if_neg hzero, hk]
      exact ⟨_, _, _, rfl⟩
  · rw [if_neg hvol]
    exact ⟨_, _, _, rfl⟩

theorem ready_of_unchanged {m m1 : SatRequestManager} (hready : EvaluationReady m)
    (hun : Unchanged m m1)
    (hbound : ∀ w ∈ m1.m_pendingRbdcRequestsKbps, w.length ≤ m1.m_maxPendingCrEntries) :
    EvaluationReady m1 where
  queueCallbacks := by
    rw [hun.llsConf, hun.queueCallbacks]
    exact hready.queueCallbacks
  pendingRbdcLength := by rw [hun.llsConf, hun.pendingRbdcLength]; exact hready.pendingRbdcLength
  pendingVbdcLength := by rw [hun.llsConf, hun.pendingVbdcLength]; exact hready.pendingVbdcLength
  assignedLength := by rw [hun.llsConf, hun.assignedLength]; exact hready.assignedLength
  sumLength := by rw [hun.llsConf, hun.sumLength]; exact hready.sumLength
  windowsBounded := hbound
  constantBelowMaximum := by
    rw [hun.llsConf]
    exact hready.constantBelowMaximum

theorem dispatch_rbdc (llsConf : SatLowerLayerServiceConf) (rc : Nat)
    (h : (llsConf.GetDaRbdcAllowed rc && !llsConf.GetDaVolumeAllowed rc) = true) :
    dispatch llsConf rc = some .DoRbdc := by
  unfold dispatch
  rw [if_pos h]

theorem dispatch_vbdc (llsConf : SatLowerLayerServiceConf) (rc : Nat)
    (h1 : ¬ (llsConf.GetDaRbdcAllowed rc && !llsConf.GetDaVolumeAllowed rc) = true)
    (h2 : (llsConf.GetDaVolumeAllowed rc && !llsConf.GetDaRbdcAllowed rc) = true) :
    dispatch llsConf rc = some .DoVbdc := by
  unfold dispatch
  rw [if_neg h1, if_pos h2]

theorem dispatch_none (llsConf : SatLowerLayerServiceConf) (rc : Nat)
    (h1 : ¬ (llsConf.GetDaRbdcAllowed rc && !llsConf.GetDaVolumeAllowed rc) = true)
    (h2 : ¬ (llsConf.GetDaVolumeAllowed rc && !llsConf.GetDaRbdcAllowed rc) = true) :
    dispatch llsConf rc = none := by
  unfold dispatch
  rw [if_neg h1, if_neg h2]

theorem evaluateRc_inv (reset : Bool) (st st1 : EvaluationLoop) (rc : Nat)
    (h : evaluateRc reset st rc = .ok st1) :
    ∃ queueCallback, st.manager.m_queueCallbacks rc = some queueCallback ∧
      ¬ (st.manager.m_llsConf.GetDaRbdcAllowed rc = true
        ∧ st.manager.m_llsConf.GetDaVolumeAllowed rc = true) ∧
      st1.queueCalls = st.queueCalls ++ [(rc, reset)] ∧
      ((dispatch st.manager.m_llsConf rc = some .DoRbdc ∧
          ∃ r m1, DoRbdc st.manager rc (queueCallback reset) = .ok (r, m1) ∧
            st1.manager = m1 ∧
            st1.crMsg = st.crMsg.AddControlElement rc .DA_RBDC r ∧
            st1.estimatorCalls = st.estimatorCalls ++ [⟨rc, .DoRbdc, .DA_RBDC, r⟩] ∧
            st1.traces = st.traces ++
              (if r > 0 then
                [.crTraceLog rc .DA_RBDC r (queueCallback reset).m_queueSizeBytes, .rbdcTrace r]
               else [])) ∨
       (dispatch st.manager.m_llsConf rc = some .DoVbdc ∧
          ∃ cac k m1, DoVbdc st.manager rc (queueCallback reset) = .ok (cac, k, m1) ∧
            st1.manager = m1 ∧
            st1.crMsg = st.crMsg.AddControlElement rc cac k ∧
            st1.estimatorCalls = st.estimatorCalls ++ [⟨rc, .DoVbdc, cac, k⟩] ∧
            st1.traces = st.traces ++
              (if k > 0 then
                [.crTraceLog rc cac k (queueCallback reset).m_queueSizeBytes, .vbdcTrace k]
               else [])) ∨
       (dispatch st.manager.m_llsConf rc = none ∧ st1.manager = st.manager ∧
          st1.crMsg = st.crMsg ∧ st1.estimatorCalls = st.estimatorCalls ∧
          st1.traces = st.traces)) := by
  unfold evaluateRc at h
  cases hcb : st.manager.m_queueCallbacks rc with
  | none =>
    rw [hcb] at h
    cases h
  | some queueCallback =>
    rw [hcb] at h
    simp only at h
    refine ⟨queueCallback, rfl, ?_⟩
    by_cases h1 : (st.manager.m_llsConf.GetDaRbdcAllowed rc
        && !st.manager.m_llsConf.GetDaVolumeAllowed rc) = true
    · rw [if_pos h1] at h
      cases hr : DoRbdc st.manager rc (queueCallback reset) with
      | error e =>
        rw [hr] at h
        cases h
      | ok res =>
        obtain ⟨r, m1⟩ := res
        rw [hr] at h
        simp only [Except.ok.injEq] at h
        subst h
        refine ⟨?_, rfl, Or.inl ⟨dispatch_rbdc _ _ h1, r, m1, rfl, rfl, rfl, rfl, rfl⟩⟩
        intro hboth
        rw [hboth.1, hboth.2] at h1
        exact absurd h1 (by decide)
    · rw [if_neg h1] at h
      by_cases h2 : (st.manager.m_llsConf.GetDaVolumeAllowed rc
          && !st.manager.m_llsConf.GetDaRbdcAllowed rc) = true
      · rw [if_pos h2] at h
        cases hr : DoVbdc st.manager rc (queueCallback reset) with
        | error e =>
          rw [hr] at h
          cases h
        | ok res =>
          obtain ⟨cac, k, m1⟩ := res
          rw [hr] at h
          simp only [Except.ok.injEq] at h
          subst h
          refine ⟨?_, rfl,
            Or.inr (Or.inl ⟨dispatch_vbdc _ _ h1 h2, cac, k, m1, rfl, rfl, rfl, rfl, rfl⟩)⟩
          intro hboth
          rw [hboth.1, hboth.2] at h2
          exact absurd h2 (by decide)
      · rw [if_neg h2] at h
        by_cases h3 : (st.manager.m_llsConf.GetDaRbdcAllowed rc
            && st.manager.m_llsConf.GetDaVolumeAllowed rc) = true
        · rw [if_pos h3] at h
          cases h
        · rw [if_neg h3] at h
          simp only [Except.ok.injEq] at h
          subst h
          refine ⟨?_, rfl, Or.inr (Or.inr ⟨dispatch_none _ _ h1 h2, rfl, rfl, rfl, rfl⟩)⟩
          intro hboth
          rw [hboth.1, hboth.2] at h3
          exact absurd rfl h3

theorem evaluateRc_step (reset : Bool) (st st1 : EvaluationLoop) (rc : Nat)
    (h : evaluateRc reset st rc = .ok st1) :
    Unchanged st.manager st1.manager ∧
    ((∀ w ∈ st.manager.m_pendingRbdcRequestsKbps, w.length ≤ st.manager.m_maxPendingCrEntries) →
      ∀ w ∈ st1.manager.m_pendingRbdcRequestsKbps, w.length ≤ st1.manager.m_maxPendingCrEntries) ∧
    st1.estimatorCalls.map (fun c => (c.rc, c.estimator))
      = st.estimatorCalls.map (fun c => (c.rc, c.estimator))
        ++ ((dispatch st.manager.m_llsConf rc).map (fun e => (rc, e))).toList ∧
    (st.crMsg.m_requestData = st.estimatorCalls.map controlElement →
      st1.crMsg.m_requestData = st1.estimatorCalls.map controlElement) ∧
    st1.crMsg.m_cnoEstimate = st.crMsg.m_cnoEstimate := by
  obtain ⟨cb, -, -, -, hcase⟩ := evaluateRc_inv reset st st1 rc h
  rcases hcase with ⟨hd, r, m1, hrun, hm, hcr, hcalls, -⟩ | ⟨hd, cac, k, m1, hrun, hm, hcr, hcalls, -⟩ |
    ⟨hd, hm, hcr, hcalls, -⟩
  · obtain ⟨hun, -, -, -⟩ := doRbdc_unchanged st.manager m1 rc r _ hrun
    obtain ⟨hmax, -, hb⟩ := updatePendingRbdcCounters_inv st.manager m1 rc r
      (doRbdc_inv st.manager m1 rc r _ hrun)
    rw [hm, hcr, hcalls, hd]
    refine ⟨hun, hb, by simp, ?_, rfl⟩
    intro hinv
    simp [SatCrMessage.AddControlElement, hinv, controlElement]
  · obtain ⟨hun, hwin⟩ := doVbdc_unchanged st.manager m1 rc k _ cac hrun
    rw [hm, hcr, hcalls, hd]
    refine ⟨hun, ?_, by simp, ?_, rfl⟩
    · intro hb
      rw [hwin, hun.maxPendingCrEntries]
      exact hb
    · intro hinv
      simp [SatCrMessage.AddControlElement, hinv, controlElement]
  · rw [hm, hcr, hcalls, hd]
    exact ⟨unchanged_refl _, fun hb => hb, by simp, fun hinv => hinv, rfl⟩

theorem evaluationLoop_inv (reset : Bool) (l : List Nat) (st st1 : EvaluationLoop)
    (h : evaluationLoop reset l st = .ok st1) :
    Unchanged st.manager st1.manager ∧
    ((∀ w ∈ st.manager.m_pendingRbdcRequestsKbps, w.length ≤ st.manager.m_maxPendingCrEntries) →
      ∀ w ∈ st1.manager.m_pendingRbdcRequestsKbps, w.length ≤ st1.manager.m_maxPendingCrEntries) ∧
    (∀ rc ∈ l, ¬ (st.manager.m_llsConf.GetDaRbdcAllowed rc = true
      ∧ st.manager.m_llsConf.GetDaVolumeAllowed rc = true)) ∧
    st1.queueCalls = st.queueCalls ++ l.map (fun rc => (rc, reset)) ∧
    st1.estimatorCalls.map (fun c => (c.rc, c.estimator))
      = st.estimatorCalls.map (fun c => (c.rc, c.estimator))
        ++ l.filterMap (fun rc => (dispatch st.manager.m_llsConf rc).map (fun e => (rc, e))) ∧
    (st.crMsg.m_requestData = st.estimatorCalls.map controlElement →
      st1.crMsg.m_requestData = st1.estimatorCalls.map controlElement) ∧
    st1.crMsg.m_cnoEstimate = st.crMsg.m_cnoEstimate := by
  induction l generalizing st with
  | nil =>
    simp only [evaluationLoop, Except.ok.injEq] at h
    subst h
    exact ⟨unchanged_refl _, fun hb => hb, by simp, by simp, by simp, fun hinv => hinv, rfl⟩
  | cons rc rest ih =>
    unfold evaluationLoop at h
    cases hstep : evaluateRc reset st rc with
    | error e =>
      rw [hstep] at h
      cases h
    | ok st2 =>
      rw [hstep] at h
      simp only at h
      obtain ⟨hun, hb, hcalls, hinv, hcno⟩ := evaluateRc_step reset st st2 rc hstep
      obtain ⟨cb, -, hnot, hq, -⟩ := evaluateRc_inv reset st st2 rc hstep
      obtain ⟨hun2, hb2, hnot2, hq2, hcalls2, hinv2, hcno2⟩ := ih st2 h
      rw [hun.llsConf] at hnot2 hcalls2
      refine ⟨unchanged_trans hun hun2, fun h0 => hb2 (hb h0), ?_, ?_, ?_,
        fun h0 => hinv2 (hinv h0), hcno2.trans hcno⟩
      · intro x hx
        rcases List.mem_cons.mp hx with hx | hx
        · rw [hx]; exact hnot
        · exact hnot2 x hx
      · rw [hq2, hq]
        simp
      · rw [hcalls2, hcalls, List.filterMap_cons]
        cases hd : dispatch st.manager.m_llsConf rc with
        | none => simp
        | some e => simp

theorem evaluateRc_total (reset : Bool) (st : EvaluationLoop) (rc : Nat)
    (hready : EvaluationReady st.manager) (hrc : rc < st.manager.m_llsConf.GetDaServiceCount) :
    ((st.manager.m_llsConf.GetDaRbdcAllowed rc = true
        ∧ st.manager.m_llsConf.GetDaVolumeAllowed rc = true) →
      evaluateRc reset st rc = .error .fatalError) ∧
    (¬ (st.manager.m_llsConf.GetDaRbdcAllowed rc = true
        ∧ st.manager.m_llsConf.GetDaVolumeAllowed rc = true) →
      ∃ st1, evaluateRc reset st rc = .ok st1) := by
  obtain ⟨cb, hcb⟩ := Option.isSome_iff_exists.mp (hready.queueCallbacks rc hrc)
  have hrbdc := doRbdc_total st.manager rc (cb reset)
    (by rw [hready.pendingRbdcLength]; exact hrc) hready.windowsBounded
    (hready.constantBelowMaximum rc hrc)
  have hvbdc := doVbdc_total st.manager rc (cb reset)
    (by rw [hready.assignedLength]; exact hrc) (by rw [hready.pendingVbdcLength]; exact hrc)
    (by rw [hready.sumLength]; exact hrc)
  unfold evaluateRc
  rw [hcb]
  simp only
  cases hr : st.manager.m_llsConf.GetDaRbdcAllowed rc <;>
    cases hv : st.manager.m_llsConf.GetDaVolumeAllowed rc
  · simp
  · obtain ⟨cac, k, m1, hrun⟩ := hvbdc
    simp [hrun]
  · obtain ⟨r, m1, hrun⟩ := hrbdc
    simp [hrun]
  · simp

theorem evaluationLoop_total (reset : Bool) (l : List Nat) (st : EvaluationLoop)
    (hready : EvaluationReady st.manager)
    (hl : ∀ rc ∈ l, rc < st.manager.m_llsConf.GetDaServiceCount) :
    ((∃ rc ∈ l, st.manager.m_llsConf.GetDaRbdcAllowed rc = true
        ∧ st.manager.m_llsConf.GetDaVolumeAllowed rc = true) →
      evaluationLoop reset l st = .error .fatalError) ∧
    ((∀ rc ∈ l, ¬ (st.manager.m_llsConf.GetDaRbdcAllowed rc = true
        ∧ st.manager.m_llsConf.GetDaVolumeAllowed rc = true)) →
      ∃ st1, evaluationLoop reset l st = .ok st1) := by
  induction l generalizing st with
  | nil =>
    refine ⟨?_, fun _ => ⟨st, rfl⟩⟩
    rintro ⟨rc, hmem, -⟩
    cases hmem
  | cons rc rest ih =>
    obtain ⟨hfatal, hok⟩ := evaluateRc_total reset st rc hready (hl rc (List.mem_cons_self rc rest))
    unfold evaluationLoop
    by_cases hboth : st.manager.m_llsConf.GetDaRbdcAllowed rc = true
        ∧ st.manager.m_llsConf.GetDaVolumeAllowed rc = true
    · rw [hfatal hboth]
      refine ⟨fun _ => rfl, fun hnone => ?_⟩
      exact absurd hboth (hnone rc (List.mem_cons_self rc rest))
    · obtain ⟨st2, hstep⟩ := hok hboth
      obtain ⟨hun, hb, -, -, -⟩ := evaluateRc_step reset st st2 rc hstep
      have hready2 := ready_of_unchanged hready hun (hb hready.windowsBounded)
      have hl2 : ∀ x ∈ rest, x < st2.manager.m_llsConf.GetDaServiceCount := by
        intro x hx
        rw [hun.llsConf]
        exact hl x (List.mem_cons_of_mem rc hx)
      obtain ⟨ihfatal, ihok⟩ := ih st2 hready2 hl2
      rw [hun.llsConf] at ihfatal ihok
      rw [hstep]
      simp only
      refine ⟨?_, fun hnone => ihok (fun x hx => hnone x (List.mem_cons_of_mem rc hx))⟩
      rintro ⟨x, hx, hxboth⟩
      rcases List.mem_cons.mp hx with hx | hx
      · rw [hx] at hxboth
        exact absurd hxboth hboth
      · exact ihfatal ⟨x, hx, hxboth⟩

theorem resetAssignedLoop_inv (l : List Nat) (m m1 : SatRequestManager)
    (h : resetAssignedLoop l m = .ok m1) :
    m1 = { m with m_assignedDaResourcesBytes := m1.m_assignedDaResourcesBytes } ∧
    (∀ i ∈ l, m1.m_assignedDaResourcesBytes[i]? = some 0) ∧
    (∀ i : Nat, m.m_assignedDaResourcesBytes[i]? = some 0 →
      m1.m_assignedDaResourcesBytes[i]? = some 0) := by
  induction l generalizing m with
  | nil =>
    simp only [resetAssignedLoop, Except.ok.injEq] at h
    subst h
    exact ⟨rfl, by simp, fun _ hi => hi⟩
  | cons i rest ih =>
    unfold resetAssignedLoop at h
    unfold setAt at h
    by_cases hlt : i < m.m_assignedDaResourcesBytes.length
    · rw [if_pos hlt] at h
      simp only at h
      obtain ⟨heq, hzero, hkeep⟩ := ih
        { m with m_assignedDaResourcesBytes := m.m_assignedDaResourcesBytes.set i 0 } h
      have hset : ∀ j : Nat, m.m_assignedDaResourcesBytes[j]? = some 0 →
          (m.m_assignedDaResourcesBytes.set i 0)[j]? = some 0 := by
        intro j hj
        by_cases hij : i = j
        · subst hij
          rw [List.getElem?_set_self hlt]
        · rw [List.getElem?_set_ne hij]
          exact hj
      refine ⟨heq, ?_, fun j hj => hkeep j (hset j hj)⟩
      intro j hj
      rcases List.mem_cons.mp hj with hj | hj
      · rw [hj]
        exact hkeep i (by simp only; rw [List.getElem?_set_self hlt])
      · exact hzero j hj
    · rw [if_neg hlt] at h
      cases h

theorem resetAssignedLoop_total (l : List Nat) (m : SatRequestManager)
    (hl : ∀ i ∈ l, i < m.m_assignedDaResourcesBytes.length) :
    ∃ m1, resetAssignedLoop l m = .ok m1 := by
  induction l generalizing m with
  | nil => exact ⟨m, rfl⟩
  | cons i rest ih =>
    unfold resetAssignedLoop
    unfold setAt
    rw [if_pos (hl i (List.mem_cons_self i rest))]
    simp only
    apply ih
    intro j hj
    simp only [List.length_set]
    exact hl j (List.mem_cons_of_mem i hj)

theorem sendCapacityRequest_inv (m : SatRequestManager) (sim : Simulator) (crMsg : SatCrMessage)
    (sendRun : SendRun) (h : SendCapacityRequest m sim crMsg = .ok sendRun) :
    m.m_ctrlCallback.isSome = true ∧
    sendRun.manager = { m with m_cnoReportEvent :=
      ((sim.Cancel m.m_cnoReportEvent).Schedule m.m_cnoReportInterval .SendCnoReport).1 } ∧
    sendRun.simulator
      = ((sim.Cancel m.m_cnoReportEvent).Schedule m.m_cnoReportInterval .SendCnoReport).2 ∧
    sendRun.sent = [(.capacityRequest (crMsg.SetCnoEstimate m.m_lastCno), m.m_gwAddress)] ∧
    sendRun.traces = [.crTrace crMsg] := by
  unfold SendCapacityRequest at h
  cases hc : m.m_ctrlCallback with
  | none =>
    rw [hc] at h
    cases h
  | some cb =>
    rw [hc] at h
    simp only [Except.ok.injEq] at h
    subst h
    exact ⟨rfl, rfl, rfl, rfl, rfl⟩

theorem sendCapacityRequest_total (m : SatRequestManager) (sim : Simulator) (crMsg : SatCrMessage)
    (hctrl : m.m_ctrlCallback.isSome = true) :
    ∃ sendRun, SendCapacityRequest m sim crMsg = .ok sendRun := by
  obtain ⟨cb, hcb⟩ := Option.isSome_iff_exists.mp hctrl
  unfold SendCapacityRequest
  rw [hcb]
  exact ⟨_, rfl⟩

theorem resetAssignedResources_total (m : SatRequestManager)
    (hlen : m.m_llsConf.GetDaServiceCount ≤ m.m_assignedDaResourcesBytes.length) :
    ∃ m1, ResetAssignedResources m = .ok m1 := by
  unfold ResetAssignedResources
  apply resetAssignedLoop_total
  intro i hi
  exact lt_of_lt_of_le (List.mem_range.mp hi) hlen

theorem doEvaluation_inv (m : SatRequestManager) (sim : Simulator) (periodical : Bool)
    (run : EvaluationRun) (h : DoEvaluation m sim periodical = .ok run) :
    ∃ st, evaluationLoop (resetFlag periodical) (List.range m.m_llsConf.GetDaServiceCount)
        { manager := m, crMsg := ⟨[], none⟩, queueCalls := [], estimatorCalls := [],
          traces := [] } = .ok st ∧
      run.crMsg = st.crMsg ∧ run.queueCalls = st.queueCalls ∧
      run.estimatorCalls = st.estimatorCalls ∧
      ((st.crMsg.HasNonZeroContent = true ∧
          ∃ sendRun, SendCapacityRequest st.manager sim st.crMsg = .ok sendRun ∧
            ResetAssignedResources sendRun.manager = .ok run.manager ∧
            run.simulator = sendRun.simulator ∧ run.sent = sendRun.sent ∧
            run.traces = st.traces ++ sendRun.traces) ∨
       (st.crMsg.HasNonZeroContent = false ∧
          ResetAssignedResources st.manager = .ok run.manager ∧
          run.simulator = sim ∧ run.sent = [] ∧ run.traces = st.traces)) := by
  unfold DoEvaluation at h
  simp only at h
  generalize hloop : evaluationLoop _ _ _ = res at h
  cases res with
  | error e => cases h
  | ok st =>
    simp only at h
    refine ⟨st, rfl, ?_⟩
    by_cases hnz : st.crMsg.HasNonZeroContent = true
    · rw [if_pos hnz] at h
      cases hs : SendCapacityRequest st.manager sim st.crMsg with
      | error e =>
        rw [hs] at h
        cases h
      | ok sendRun =>
        rw [hs] at h
        simp only at h
        cases hr : ResetAssignedResources sendRun.manager with
        | error e =>
          rw [hr] at h
          cases h
        | ok m1 =>
          rw [hr] at h
          simp only [Except.ok.injEq] at h
          subst h
          exact ⟨rfl, rfl, rfl, Or.inl ⟨hnz, sendRun, rfl, hr, rfl, rfl, rfl⟩⟩
    · rw [if_neg hnz] at h
      cases hr : ResetAssignedResources st.manager with
      | error e =>
        rw [hr] at h
        cases h
      | ok m1 =>
        rw [hr] at h
        simp only [Except.ok.injEq] at h
        subst h
        exact ⟨rfl, rfl, rfl, Or.inr ⟨by simpa using hnz, rfl, rfl, rfl, rfl⟩⟩

theorem doEvaluation_total (m : SatRequestManager) (sim : Simulator) (periodical : Bool)
    (hready : EvaluationReady m) (hctrl : m.m_ctrlCallback.isSome = true)
    (hnone : ∀ rc, rc < m.m_llsConf.GetDaServiceCount →
      ¬ (m.m_llsConf.GetDaRbdcAllowed rc = true ∧ m.m_llsConf.GetDaVolumeAllowed rc = true)) :
    ∃ run, DoEvaluation m sim periodical = .ok run := by
  obtain ⟨st, hloop⟩ := (evaluationLoop_total (resetFlag periodical)
    (List.range m.m_llsConf.GetDaServiceCount)
    { manager := m, crMsg := ⟨[], none⟩, queueCalls := [], estimatorCalls := [], traces := [] }
    hready (fun x hx => List.mem_range.mp hx)).2 (fun x hx => hnone x (List.mem_range.mp hx))
  obtain ⟨hun, hb, -⟩ := evaluationLoop_inv _ _ _ _ hloop
  have hready1 : EvaluationReady st.manager :=
    ready_of_unchanged hready hun (hb hready.windowsBounded)
  unfold DoEvaluation
  simp only
  rw [hloop]
  simp only
  by_cases hnz : st.crMsg.HasNonZeroContent = true
  · rw [if_pos hnz]
    obtain ⟨sendRun, hs⟩ := sendCapacityRequest_total st.manager sim st.crMsg
      (by rw [hun.ctrlCallback]; exact hctrl)
    obtain ⟨-, hm, -⟩ := sendCapacityRequest_inv _ _ _ _ hs
    obtain ⟨m1, hr⟩ := resetAssignedResources_total sendRun.manager
      (by rw [hm]; exact le_of_eq hready1.assignedLength.symm)
    rw [hs]
    simp only
    rw [hr]
    exact ⟨_, rfl⟩
  · rw [if_neg hnz]
    obtain ⟨m1, hr⟩ := resetAssignedResources_total st.manager
      (le_of_eq hready1.assignedLength.symm)
    rw [hr]
    exact ⟨_, rfl⟩

theorem evaluationState_ready (llsConf : SatLowerLayerServiceConf) (stats : QueueStats_t)
    (ctrlCallback : Option SendCtrlCallback)
    (hcra : ∀ rc, rc < llsConf.GetDaServiceCount →
      llsConf.GetDaConstantAssignmentProvided rc = true →
      llsConf.GetDaConstantServiceRateInKbps rc < llsConf.GetDaMaximumServiceRateInKbps rc) :
    EvaluationReady (evaluationState llsConf stats ctrlCallback) where
  queueCallbacks := fun _ _ => rfl
  pendingRbdcLength := by
    simp [evaluationState, initialized, Initialize, constructed, Time.GetInteger]
  pendingVbdcLength := by
    simp [evaluationState, initialized, Initialize, constructed, Time.GetInteger]
  assignedLength := by
    simp [evaluationState, initialized, Initialize, constructed, Time.GetInteger]
  sumLength := by
    simp [evaluationState, initialized, Initialize, constructed, Time.GetInteger]
  windowsBounded := by
    intro w hw
    have hnil : w = [] := by
      simp only [evaluationState, initialized, Initialize, constructed, Time.GetInteger] at hw
      simp at hw
      exact hw.2
    rw [hnil]
    exact Nat.zero_le _
  constantBelowMaximum := hcra

theorem filterMap_dispatch_fst (llsConf : SatLowerLayerServiceConf) (l : List Nat) :
    (l.filterMap (fun rc => (dispatch llsConf rc).map (fun e => (rc, e)))).map (fun p => p.1)
      = l.filter (fun rc =>
          (llsConf.GetDaRbdcAllowed rc && !llsConf.GetDaVolumeAllowed rc)
            || (llsConf.GetDaVolumeAllowed rc && !llsConf.GetDaRbdcAllowed rc)) := by
  induction l with
  | nil => rfl
  | cons rc rest ih =>
    have hd : ((llsConf.GetDaRbdcAllowed rc && !llsConf.GetDaVolumeAllowed rc)
        || (llsConf.GetDaVolumeAllowed rc && !llsConf.GetDaRbdcAllowed rc))
        = (dispatch llsConf rc).isSome := by
      unfold dispatch
      cases llsConf.GetDaRbdcAllowed rc <;> cases llsConf.GetDaVolumeAllowed rc <;> rfl
    simp only [List.filterMap_cons, List.filter_cons, hd]
    cases hdis : dispatch llsConf rc with
    | none => simpa using ih
    | some e => simpa using ih

/-- C15, counterexample: a request class with volume allowed only and one with
RBDC allowed only, each with an empty queue and no traffic: the estimator returns
0, and the Capacity Request still holds a control element for the class, with
value 0 (nothing is sent). -/
theorem doEvaluation_zero_element_counterexample :
    (DoEvaluation (evaluationState (oneRcVbdcConf false 0) ⟨0, 0, 0, 0, 0⟩ (some ⟨⟩))
        idleSimulator true).toOption.map
          (fun run => (run.estimatorCalls, run.crMsg.m_requestData, run.sent.length))
      = some ([⟨0, .DoVbdc, .DA_AVBDC, 0⟩], [(0, .DA_AVBDC, 0)], 0) ∧
    (DoEvaluation (evaluationState (oneRcConf 50 100 [0, 32, 64, 96]) ⟨0, 0, 0, 0, 0⟩ (some ⟨⟩))
        idleSimulator true).toOption.map
          (fun run => (run.estimatorCalls, run.crMsg.m_requestData, run.sent.length))
      = some ([⟨0, .DoRbdc, .DA_RBDC, 0⟩], [(0, .DA_RBDC, 0)], 0) := by
  refine ⟨by decide, ?_⟩
  have hraw : rawRbdcKbps (evaluationState (oneRcConf 50 100 [0, 32, 64, 96]) ⟨0, 0, 0, 0, 0⟩
      (some ⟨⟩)) ⟨0, 0, 0, 0, 0⟩ 0 = 0 := by
    norm_num [rawRbdcKbps, evaluationState, initialized, Initialize, constructed,
      Time.GetSeconds, Time.GetInteger, BITS_PER_BYTE]
  have hreq : rbdcAfterCra (oneRcConf 50 100 [0, 32, 64, 96]) 0 0 = .ok 0 := by
    norm_num [rbdcAfterCra, oneRcConf]
  have hquant : (oneRcConf 50 100 [0, 32, 64, 96]).GetQuantizedRbdcValue 0 0 = 0 := by
    norm_num [oneRcConf, nearestStep, abs_lt, abs_of_nonneg, abs_of_nonpos]
  have hsum : GetPendingRbdcSumKbps (evaluationState (oneRcConf 50 100 [0, 32, 64, 96])
      ⟨0, 0, 0, 0, 0⟩ (some ⟨⟩)) 0 = .ok 0 := rfl
  have hconf : (evaluationState (oneRcConf 50 100 [0, 32, 64, 96]) ⟨0, 0, 0, 0, 0⟩
      (some ⟨⟩)).m_llsConf = oneRcConf 50 100 [0, 32, 64, 96] := rfl
  have hrun : ∃ m1, DoRbdc (evaluationState (oneRcConf 50 100 [0, 32, 64, 96]) ⟨0, 0, 0, 0, 0⟩
      (some ⟨⟩)) 0 ⟨0, 0, 0, 0, 0⟩ = .ok (0, m1) := by
    unfold DoRbdc
    rw [hsum]
    simp only
    rw [hraw, hconf, hreq]
    simp only
    rw [hquant]
    exact ⟨_, rfl⟩
  obtain ⟨m1, hrun⟩ := hrun
  obtain ⟨hun, -⟩ := doRbdc_unchanged _ m1 0 0 _ hrun
  obtain ⟨m2, hreset⟩ := resetAssignedResources_total m1
    (by rw [hun.llsConf, hun.assignedLength]; exact Nat.le_refl 1)
  have hrange : List.range (evaluationState (oneRcConf 50 100 [0, 32, 64, 96]) ⟨0, 0, 0, 0, 0⟩
      (some ⟨⟩)).m_llsConf.GetDaServiceCount = [0] := rfl
  have hcb : (evaluationState (oneRcConf 50 100 [0, 32, 64, 96]) ⟨0, 0, 0, 0, 0⟩
      (some ⟨⟩)).m_queueCallbacks 0 = some (fun _ => ⟨0, 0, 0, 0, 0⟩) := rfl
  have hr : (oneRcConf 50 100 [0, 32, 64, 96]).GetDaRbdcAllowed 0 = true := rfl
  have hv : (oneRcConf 50 100 [0, 32, 64, 96]).GetDaVolumeAllowed 0 = false := rfl
  unfold DoEvaluation
  rw [hrange]
  simp only [evaluationLoop, evaluateRc]
  simp only [hcb, hconf, hr, hv]
  simp [hrun, SatCrMessage.HasNonZeroContent, SatCrMessage.AddControlElement, hreset]
  exact ⟨_, rfl, rfl, rfl, rfl⟩

/-- C15, amended: in every `DoEvaluation` that returns, the Capacity Request holds
exactly one control element for each request class below the service count that
has RBDC allowed only or volume allowed only, in the order of the classes, with
the category and the value of the estimator call for that class, also when that
value is 0; a class with neither flag contributes no control element. -/
theorem doEvaluation_control_elements (m : SatRequestManager) (sim : Simulator)
    (periodical : Bool) (run : EvaluationRun) (h : DoEvaluation m sim periodical = .ok run) :
    run.crMsg.m_requestData = run.estimatorCalls.map controlElement ∧
    run.estimatorCalls.map (fun c => c.rc)
      = (List.range m.m_llsConf.GetDaServiceCount).filter (fun rc =>
          (m.m_llsConf.GetDaRbdcAllowed rc && !m.m_llsConf.GetDaVolumeAllowed rc)
            || (m.m_llsConf.GetDaVolumeAllowed rc && !m.m_llsConf.GetDaRbdcAllowed rc)) := by
  obtain ⟨st, hloop, hcr, -, hcalls, -⟩ := doEvaluation_inv m sim periodical run h
  obtain ⟨-, -, -, -, hmap, hinv, -⟩ := evaluationLoop_inv _ _ _ _ hloop
  rw [hcr, hcalls]
  refine ⟨hinv rfl, ?_⟩
  rw [← filterMap_dispatch_fst]
  have hfst := congrArg (List.map (fun p : Nat × Estimator => p.1)) hmap
  simpa [List.map_map, Function.comp_def] using hfst

/-- C15, witness: three request classes (RBDC only, volume only, neither) with
empty queues: the evaluation returns, and the Capacity Request holds one control
element for class 0 and one for class 1, those of the estimator calls. -/
theorem doEvaluation_control_elements_witness :
    ∃ run, DoEvaluation (evaluationState (threeRcConf false) ⟨0, 0, 0, 0, 0⟩ (some ⟨⟩))
        idleSimulator false = .ok run ∧
      run.crMsg.m_requestData = run.estimatorCalls.map controlElement ∧
      run.estimatorCalls.map (fun c => c.rc) = [0, 1] := by
  obtain ⟨run, hrun⟩ := doEvaluation_total
    (evaluationState (threeRcConf false) ⟨0, 0, 0, 0, 0⟩ (some ⟨⟩)) idleSimulator false
    (evaluationState_ready _ _ _ (fun _ _ _ => by simp [threeRcConf])) rfl
    (by
      rintro rc hrc ⟨hr, hv⟩
      have hrc3 : rc < 3 := hrc
      interval_cases rc <;> simp [evaluationState, initialized, Initialize, constructed,
        Time.GetInteger, threeRcConf] at hr hv)
  have hclaim := doEvaluation_control_elements _ idleSimulator false run hrun
  refine ⟨run, hrun, hclaim.1, ?_⟩
  rw [hclaim.2]
  rfl

/-- C16: in every `DoEvaluation` that returns, the Capacity Request is handed to the
control callback exactly once (after its C/N0 estimate is set, with the gateway
address as destination, and with the C/N0 report timer cancelled and scheduled
again) if at least one accumulated control element has a non-zero value, and
nothing is sent and no timer is touched if every control element is zero; in
either case at most one message is sent. -/
theorem doEvaluation_sends_once (m : SatRequestManager) (sim : Simulator) (periodical : Bool)
    (run : EvaluationRun) (h : DoEvaluation m sim periodical = .ok run) :
    (run.crMsg.HasNonZeroContent = true ↔
      ∃ element ∈ run.crMsg.m_requestData, element.2.2 ≠ 0) ∧
    run.sent = (if run.crMsg.HasNonZeroContent then
      [(.capacityRequest (run.crMsg.SetCnoEstimate m.m_lastCno), m.m_gwAddress)] else []) ∧
    run.simulator = (if run.crMsg.HasNonZeroContent then
      ((sim.Cancel m.m_cnoReportEvent).Schedule m.m_cnoReportInterval .SendCnoReport).2
      else sim) ∧
    run.sent.length ≤ 1 := by
  have hiff : run.crMsg.HasNonZeroContent = true ↔
      ∃ element ∈ run.crMsg.m_requestData, element.2.2 ≠ 0 := by
    unfold SatCrMessage.HasNonZeroContent
    rw [List.any_eq_true]
    constructor
    · rintro ⟨element, hmem, hne⟩
      exact ⟨element, hmem, of_decide_eq_true hne⟩
    · rintro ⟨element, hmem, hne⟩
      exact ⟨element, hmem, decide_eq_true hne⟩
  obtain ⟨st, hloop, hcr, -, -, hcase⟩ := doEvaluation_inv m sim periodical run h
  obtain ⟨hun, -⟩ := evaluationLoop_inv _ _ _ _ hloop
  refine ⟨hiff, ?_⟩
  rw [hcr]
  rcases hcase with ⟨hnz, sendRun, hs, -, hsim, hsent, -⟩ | ⟨hnz, -, hsim, hsent, -⟩
  · obtain ⟨-, -, hsim1, hsent1, -⟩ := sendCapacityRequest_inv _ _ _ _ hs
    have hunl := hun.lastCno
    have hung := hun.gwAddress
    have hune := hun.cnoReportEvent
    have huni := hun.cnoReportInterval
    simp only at hunl hung hune huni
    rw [hnz, hsent, hsim, hsent1, hsim1, hunl, hung, hune, huni]
    exact ⟨rfl, rfl, Nat.le_refl 1⟩
  · rw [hnz, hsent, hsim]
    exact ⟨rfl, rfl, Nat.zero_le 1⟩

/-- C16, witness: one request class with volume allowed only, a queue of 2500
bytes with inbound volume and a control callback: the evaluation returns with the
single control element (AVBDC, 3 KBytes), and exactly one Capacity Request is
sent, to the gateway address 7 with the C/N0 estimate 12. -/
theorem doEvaluation_sends_once_witness :
    ∃ run, DoEvaluation (evaluationState (oneRcVbdcConf false 0) ⟨0, 0, 1, 0, 2500⟩ (some ⟨⟩))
        idleSimulator true = .ok run ∧
      run.crMsg.m_requestData = [(0, .DA_AVBDC, 3)] ∧
      run.sent = (if run.crMsg.HasNonZeroContent then
        [(.capacityRequest (run.crMsg.SetCnoEstimate (some 12)), 7)] else []) ∧
      run.sent.length = 1 := by
  have hceil : ceilKBytes 2500 = 3 := by
    rw [ceilKBytes_eq_ceil _ (by decide)]
    have : ⌈((2500 : Nat) : Rat) / 1000⌉ = 3 := by
      rw [Int.ceil_eq_iff]
      norm_num
    rw [this]
    rfl
  have hvbdc : ∃ m1, DoVbdc (evaluationState (oneRcVbdcConf false 0) ⟨0, 0, 1, 0, 2500⟩
      (some ⟨⟩)) 0 ⟨0, 0, 1, 0, 2500⟩ = .ok (.DA_AVBDC, 3, m1) := by
    simp only [DoVbdc, UpdatePendingVbdcCounters, GetAvbdcKBytes, Reset, setAt, evaluationState,
      initialized, Initialize, constructed, craBytes, oneRcVbdcConf, add32,
      Time.GetInteger]
    simp [hceil]
  obtain ⟨m1, hvbdc⟩ := hvbdc
  obtain ⟨run, hrun⟩ := doEvaluation_total
    (evaluationState (oneRcVbdcConf false 0) ⟨0, 0, 1, 0, 2500⟩ (some ⟨⟩)) idleSimulator true
    (evaluationState_ready _ _ _ (fun _ _ h => by simp [oneRcVbdcConf] at h)) rfl
    (fun rc _ hboth => Bool.false_ne_true hboth.1)
  obtain ⟨st, hloop, hcr, -, -, -⟩ := doEvaluation_inv _ _ _ run hrun
  have hdata : run.crMsg.m_requestData = [(0, .DA_AVBDC, 3)] := by
    rw [hcr]
    have hrange : List.range (evaluationState (oneRcVbdcConf false 0) ⟨0, 0, 1, 0, 2500⟩
        (some ⟨⟩)).m_llsConf.GetDaServiceCount = [0] := rfl
    rw [hrange] at hloop
    simp only [evaluationLoop] at hloop
    cases hstep : evaluateRc (resetFlag true) _ 0 with
    | error e =>
      rw [hstep] at hloop
      cases hloop
    | ok st1 =>
      rw [hstep] at hloop
      simp only [Except.ok.injEq] at hloop
      subst hloop
      obtain ⟨cb, hcb, -, -, hcase⟩ := evaluateRc_inv _ _ _ _ hstep
      have hcbeq : cb = fun _ => ⟨0, 0, 1, 0, 2500⟩ := by
        have : some cb = some (fun _ => (⟨0, 0, 1, 0, 2500⟩ : QueueStats_t)) := hcb.symm
        exact Option.some.inj this
      subst hcbeq
      rcases hcase with ⟨hd, -⟩ | ⟨-, cac, k, m2, hdo, -, hmsg, -⟩ | ⟨hd, -⟩
      · cases hd
      · simp only at hdo
        rw [hvbdc] at hdo
        simp only [Except.ok.injEq, Prod.mk.injEq] at hdo
        rw [hmsg, ← hdo.1, ← hdo.2.1]
        rfl
      · cases hd
  have hclaim := doEvaluation_sends_once _ idleSimulator true run hrun
  have hnz : run.crMsg.HasNonZeroContent = true :=
    hclaim.1.mpr ⟨(0, .DA_AVBDC, 3), by rw [hdata]; exact List.mem_singleton.mpr rfl, by decide⟩
  refine ⟨run, hrun, hdata, hclaim.2.1, ?_⟩
  rw [hclaim.2.1, hnz]
  rfl

/-- C17: after every `DoEvaluation` that returns, whether or not a Capacity Request
was sent, `assignedDaResourcesBytes` is 0 for every request class below the
service count; `ResetAssignedResources` changes neither `pendingVbdcBytes`,
`sumVbdcVolumeIn` nor the pending-RBDC windows and leaves the counter of every
class below the service count at 0, and it returns whenever the counter vector
has an entry for every class. -/
theorem doEvaluation_resets_assigned (m : SatRequestManager) (sim : Simulator)
    (periodical : Bool) :
    (∀ run, DoEvaluation m sim periodical = .ok run →
      ∀ rc, rc < m.m_llsConf.GetDaServiceCount →
        run.manager.m_assignedDaResourcesBytes[rc]? = some 0) ∧
    (∀ m1, ResetAssignedResources m = .ok m1 →
      m1.m_pendingVbdcBytes = m.m_pendingVbdcBytes ∧
      m1.m_sumVbdcVolumeIn = m.m_sumVbdcVolumeIn ∧
      m1.m_pendingRbdcRequestsKbps = m.m_pendingRbdcRequestsKbps ∧
      ∀ rc, rc < m.m_llsConf.GetDaServiceCount →
        m1.m_assignedDaResourcesBytes[rc]? = some 0) ∧
    (m.m_llsConf.GetDaServiceCount ≤ m.m_assignedDaResourcesBytes.length →
      ∃ m1, ResetAssignedResources m = .ok m1) := by
  refine ⟨?_, ?_, resetAssignedResources_total m⟩
  · intro run h rc hrc
    obtain ⟨st, hloop, -, -, -, hcase⟩ := doEvaluation_inv m sim periodical run h
    obtain ⟨hun, -⟩ := evaluationLoop_inv _ _ _ _ hloop
    have hconf : st.manager.m_llsConf = m.m_llsConf := hun.llsConf
    rcases hcase with ⟨-, sendRun, hs, hreset, -⟩ | ⟨-, hreset, -⟩
    · obtain ⟨-, hm, -⟩ := sendCapacityRequest_inv _ _ _ _ hs
      obtain ⟨-, hzero, -⟩ := resetAssignedLoop_inv _ _ _ hreset
      apply hzero rc
      rw [hm]
      simp only
      rw [hconf]
      exact List.mem_range.mpr hrc
    · obtain ⟨-, hzero, -⟩ := resetAssignedLoop_inv _ _ _ hreset
      apply hzero rc
      rw [hconf]
      exact List.mem_range.mpr hrc
  · intro m1 h
    obtain ⟨heq, hzero, -⟩ := resetAssignedLoop_inv _ _ _ h
    refine ⟨?_, ?_, ?_, fun rc hrc => hzero rc (List.mem_range.mpr hrc)⟩
    · rw [heq]
    · rw [heq]
    · rw [heq]

/-- C17, witness: three request classes (RBDC only, volume only, neither) with 5, 6
and 7 bytes reported as assigned, a queue of 2500 bytes with traffic and a control
callback: the evaluation returns and all three counters are 0 afterwards. -/
theorem doEvaluation_resets_assigned_witness :
    ∃ run, DoEvaluation (reportedState (threeRcConf false) ⟨100, 0, 1, 0, 2500⟩ (some ⟨⟩)
        [5, 6, 7]) idleSimulator true = .ok run ∧
      ∀ rc, rc < 3 → run.manager.m_assignedDaResourcesBytes[rc]? = some 0 := by
  have hready : EvaluationReady
      (reportedState (threeRcConf false) ⟨100, 0, 1, 0, 2500⟩ (some ⟨⟩) [5, 6, 7]) :=
    ready_of_unchanged
      (evaluationState_ready (threeRcConf false) ⟨100, 0, 1, 0, 2500⟩ (some ⟨⟩)
        (fun _ _ _ => by simp [threeRcConf]))
      ⟨rfl, rfl, rfl, rfl, rfl, rfl, rfl, rfl, rfl, rfl, rfl, rfl, rfl⟩
      (evaluationState_ready (threeRcConf false) ⟨100, 0, 1, 0, 2500⟩ (some ⟨⟩)
        (fun _ _ _ => by simp [threeRcConf])).windowsBounded
  obtain ⟨run, hrun⟩ := doEvaluation_total
    (reportedState (threeRcConf false) ⟨100, 0, 1, 0, 2500⟩ (some ⟨⟩) [5, 6, 7])
    idleSimulator true hready rfl
    (by
      rintro rc hrc ⟨hr, hv⟩
      have hrc3 : rc < 3 := hrc
      interval_cases rc <;> simp [reportedState, evaluationState, initialized, Initialize,
        constructed, Time.GetInteger, threeRcConf] at hr hv)
  exact ⟨run, hrun, (doEvaluation_resets_assigned _ idleSimulator true).1 run hrun⟩

/-- C21: for a request class `rc` with an entry in the counter vectors and a
snapshot with `volumeInBytes = 0`, `DoVbdc` returns with 0 KBytes; the state it
leaves is the one of the reconciliation step `UpdatePendingVbdcCounters` alone:
`sumVbdcVolumeIn` is unchanged, `pendingVbdcBytes` of `rc` is the pending count
reduced by the assigned bytes (never below 0, never above what it was), and the
pending counts of the other classes are unchanged. -/
theorem doVbdc_no_volume (m : SatRequestManager) (rc : Nat) (stats : QueueStats_t) (p a : Nat)
    (hvol : stats.m_volumeInBytes = 0)
    (hp : m.m_pendingVbdcBytes[rc]? = some p)
    (ha : m.m_assignedDaResourcesBytes[rc]? = some a) :
    ∃ cac m1, DoVbdc m rc stats = .ok (cac, 0, m1) ∧
      UpdatePendingVbdcCounters m rc = .ok m1 ∧
      m1.m_sumVbdcVolumeIn = m.m_sumVbdcVolumeIn ∧
      m1.m_pendingVbdcBytes = m.m_pendingVbdcBytes.set rc (if p > a then p - a else 0) ∧
      (if p > a then p - a else 0) ≤ p ∧
      ∀ other : Nat, other ≠ rc → m1.m_pendingVbdcBytes[other]? = m.m_pendingVbdcBytes[other]? := by
  have hu := updatePendingVbdcCounters_ok m rc p a hp ha
  refine ⟨.DA_AVBDC, _, ?_, hu, rfl, rfl, ?_, ?_⟩
  · unfold DoVbdc
    rw [hu]
    simp [hvol]
  · by_cases hgt : p > a
    · rw [if_pos hgt]
      exact Nat.sub_le p a
    · rw [if_neg hgt]
      exact Nat.zero_le p
  · intro other hne
    simp only
    rw [List.getElem?_set_ne (Ne.symm hne)]

/-- C21, witness: 500 bytes pending, 200 bytes assigned, 7 bytes summed, a queue
of 9999 bytes and no inbound volume: `DoVbdc` returns 0 KBytes, leaves the sum at
7 and the pending count at 300. -/
theorem doVbdc_no_volume_witness :
    ∃ cac m1, DoVbdc (vbdcState (oneRcVbdcConf false 0) 500 200 7) 0 ⟨0, 0, 0, 0, 9999⟩
        = .ok (cac, 0, m1) ∧
      m1.m_sumVbdcVolumeIn = [7] ∧ m1.m_pendingVbdcBytes = [300] := by
  obtain ⟨cac, m1, hrun, -, hsum, hpending, -⟩ :=
    doVbdc_no_volume (vbdcState (oneRcVbdcConf false 0) 500 200 7) 0 ⟨0, 0, 0, 0, 9999⟩ 500 200
      rfl rfl rfl
  exact ⟨cac, m1, hrun, hsum, hpending⟩

/-- C22: `SendCapacityRequest` ends in a fatal error if and only if no control
callback is registered (and it fails in no other way); with a callback registered
it returns, and the callback receives exactly one message: the Capacity Request on
which `SetCnoEstimate (m_lastCno)` was called, with the gateway address as
destination; after `CnoUpdated (cno)` the estimate it carries is `cno`. -/
theorem sendCapacityRequest_fatal_iff (m : SatRequestManager) (sim : Simulator)
    (crMsg : SatCrMessage) :
    (SendCapacityRequest m sim crMsg = .error .fatalError ↔ m.m_ctrlCallback = none) ∧
    (∀ e, SendCapacityRequest m sim crMsg = .error e → e = .fatalError) ∧
    (m.m_ctrlCallback.isSome = true →
      ∃ run, SendCapacityRequest m sim crMsg = .ok run ∧
        run.sent = [(.capacityRequest (crMsg.SetCnoEstimate m.m_lastCno), m.m_gwAddress)] ∧
        (crMsg.SetCnoEstimate m.m_lastCno).m_requestData = crMsg.m_requestData ∧
        (crMsg.SetCnoEstimate m.m_lastCno).m_cnoEstimate = m.m_lastCno) ∧
    (∀ cno, (CnoUpdated m cno).m_ctrlCallback.isSome = true →
      ∃ run, SendCapacityRequest (CnoUpdated m cno) sim crMsg = .ok run ∧
        run.sent = [(.capacityRequest (crMsg.SetCnoEstimate (some cno)), m.m_gwAddress)]) := by
  have hsome : ∀ m0 : SatRequestManager, m0.m_ctrlCallback.isSome = true →
      ∃ run, SendCapacityRequest m0 sim crMsg = .ok run ∧
        run.sent = [(.capacityRequest (crMsg.SetCnoEstimate m0.m_lastCno), m0.m_gwAddress)] := by
    intro m0 h0
    obtain ⟨run, hrun⟩ := sendCapacityRequest_total m0 sim crMsg h0
    obtain ⟨-, -, -, hsent, -⟩ := sendCapacityRequest_inv m0 sim crMsg run hrun
    exact ⟨run, hrun, hsent⟩
  refine ⟨?_, ?_, ?_, ?_⟩
  · constructor
    · intro hfatal
      cases hc : m.m_ctrlCallback with
      | none => rfl
      | some cb =>
        obtain ⟨run, hrun, -⟩ := hsome m (by rw [hc]; rfl)
        rw [hrun] at hfatal
        cases hfatal
    · intro hnone
      unfold SendCapacityRequest
      rw [hnone]
  · intro e he
    unfold SendCapacityRequest at he
    cases hc : m.m_ctrlCallback with
    | none =>
      rw [hc] at he
      simp only [Except.error.injEq] at he
      exact he.symm
    | some cb =>
      rw [hc] at he
      cases he
  · intro hctrl
    obtain ⟨run, hrun, hsent⟩ := hsome m hctrl
    exact ⟨run, hrun, hsent, rfl, rfl⟩
  · intro cno hctrl
    exact hsome (CnoUpdated m cno) hctrl

/-- C22, witness: with a control callback, gateway address 7 and estimate 12, the
callback receives the one Capacity Request, addressed to 7 and carrying 12. -/
theorem sendCapacityRequest_fatal_iff_witness :
    ∃ run, SendCapacityRequest (evaluationState (threeRcConf false) ⟨0, 0, 0, 0, 0⟩ (some ⟨⟩))
        idleSimulator ⟨[(1, .DA_AVBDC, 3)], none⟩ = .ok run ∧
      run.sent = [(.capacityRequest ⟨[(1, .DA_AVBDC, 3)], some 12⟩, 7)] := by
  obtain ⟨run, hrun, hsent, -⟩ := (sendCapacityRequest_fatal_iff
    (evaluationState (threeRcConf false) ⟨0, 0, 0, 0, 0⟩ (some ⟨⟩)) idleSimulator
    ⟨[(1, .DA_AVBDC, 3)], none⟩).2.2.1 rfl
  exact ⟨run, hrun, hsent⟩

/-- C27: the `reset` flag of `DoEvaluation` is `true` for both values of
`periodical`; `DoEvaluation (false)` and `DoEvaluation (true)` from the same state
have the same outcome (the same calls, Capacity Request, messages sent and final
state, or the same failure), and in every run that returns each queue-statistics
provider below the service count was called once, in order, with `reset = true`. -/
theorem doEvaluation_reset_always_true (m : SatRequestManager) (sim : Simulator) :
    (∀ periodical, resetFlag periodical = true) ∧
    DoEvaluation m sim false = DoEvaluation m sim true ∧
    (∀ periodical run, DoEvaluation m sim periodical = .ok run →
      run.queueCalls = (List.range m.m_llsConf.GetDaServiceCount).map (fun rc => (rc, true))) := by
  refine ⟨fun _ => rfl, rfl, ?_⟩
  intro periodical run h
  obtain ⟨st, hloop, -, hq, -⟩ := doEvaluation_inv m sim periodical run h
  obtain ⟨-, -, -, hcalls, -⟩ := evaluationLoop_inv _ _ _ _ hloop
  rw [hq, hcalls]
  rfl

/-- C27, witness: three request classes with a queue callback each: the aperiodic
evaluation returns, and every callback was called with `reset = true`. -/
theorem doEvaluation_reset_always_true_witness :
    ∃ run, DoEvaluation (evaluationState (threeRcConf false) ⟨100, 0, 1, 0, 2500⟩ (some ⟨⟩))
        idleSimulator false = .ok run ∧
      run.queueCalls = [(0, true), (1, true), (2, true)] := by
  obtain ⟨run, hrun⟩ := doEvaluation_total
    (evaluationState (threeRcConf false) ⟨100, 0, 1, 0, 2500⟩ (some ⟨⟩)) idleSimulator false
    (evaluationState_ready _ _ _ (fun _ _ _ => by simp [threeRcConf])) rfl
    (by
      rintro rc hrc ⟨hr, hv⟩
      have hrc3 : rc < 3 := hrc
      interval_cases rc <;> simp [evaluationState, initialized, Initialize, constructed,
        Time.GetInteger, threeRcConf] at hr hv)
  exact ⟨run, hrun, (doEvaluation_reset_always_true _ idleSimulator).2.2 false run hrun⟩

/-- C26, counterexample: a round-trip estimate of 50 ms with an evaluation
interval of 100 ms gives `m_maxPendingCrEntries = 0`; the window of class 0 is
empty (so its size equals the bound), `DoRbdc` returns 0, and the window is empty
afterwards: the pushed value is the entry that is evicted, the window is not "the
window without its front entry, followed by the value". -/
theorem doRbdc_window_counterexample :
    (initialized 50000000 100000000 (oneRcConf 50 100 [0, 32, 64, 96])).m_maxPendingCrEntries = 0 ∧
    (initialized 50000000 100000000
      (oneRcConf 50 100 [0, 32, 64, 96])).m_pendingRbdcRequestsKbps = [[]] ∧
    (DoRbdc (initialized 50000000 100000000 (oneRcConf 50 100 [0, 32, 64, 96])) 0
        ⟨0, 0, 0, 0, 0⟩).toOption.map (fun result => (result.1, result.2.m_pendingRbdcRequestsKbps))
      = some (0, [[]]) ∧
    ([] : List Nat).tail ++ [0] ≠ [] := by
  refine ⟨by decide, by decide, ?_, by decide⟩
  have hraw : rawRbdcKbps (initialized 50000000 100000000 (oneRcConf 50 100 [0, 32, 64, 96]))
      ⟨0, 0, 0, 0, 0⟩ 0 = 0 := by
    norm_num [rawRbdcKbps, initialized, Initialize, constructed, Time.GetSeconds,
      Time.GetInteger, BITS_PER_BYTE]
  have hreq : rbdcAfterCra (oneRcConf 50 100 [0, 32, 64, 96]) 0 0 = .ok 0 := by
    norm_num [rbdcAfterCra, oneRcConf]
  have hquant : (oneRcConf 50 100 [0, 32, 64, 96]).GetQuantizedRbdcValue 0 0 = 0 := by
    norm_num [oneRcConf, nearestStep, abs_lt, abs_of_nonneg, abs_of_nonpos]
  have hsum : GetPendingRbdcSumKbps
      (initialized 50000000 100000000 (oneRcConf 50 100 [0, 32, 64, 96])) 0 = .ok 0 := rfl
  have hconf : (initialized 50000000 100000000 (oneRcConf 50 100 [0, 32, 64, 96])).m_llsConf
      = oneRcConf 50 100 [0, 32, 64, 96] := rfl
  unfold DoRbdc
  rw [hsum]
  simp only
  rw [hraw, hconf, hreq]
  simp only
  rw [hquant]
  rfl

/-- C26, amended: for a request class `rc` whose pending-RBDC window `w` is within
the bound and a `DoRbdc` call that returns `v` (also `v = 0`), the window of `rc`
is afterwards `w` followed by `v` when `size (w) < m_maxPendingCrEntries`, and `w`
followed by `v` with the front entry of the result removed when
`size (w) = m_maxPendingCrEntries`: that is `w` without its oldest entry followed
by `v` when the bound is at least 1, and the empty window when the bound is 0. The
windows of all other classes are unchanged. -/
theorem doRbdc_window (m m1 : SatRequestManager) (rc v : Nat) (stats : QueueStats_t)
    (w : List Nat) (hw : m.m_pendingRbdcRequestsKbps[rc]? = some w)
    (hlen : w.length ≤ m.m_maxPendingCrEntries)
    (h : DoRbdc m rc stats = .ok (v, m1)) :
    m1.m_pendingRbdcRequestsKbps[rc]?
      = some (if w.length < m.m_maxPendingCrEntries then w ++ [v] else (w ++ [v]).tail) ∧
    (0 < m.m_maxPendingCrEntries → w.length = m.m_maxPendingCrEntries →
      (w ++ [v]).tail = w.tail ++ [v]) ∧
    (m.m_maxPendingCrEntries = 0 → m1.m_pendingRbdcRequestsKbps[rc]? = some []) ∧
    (∀ other : Nat, other ≠ rc →
      m1.m_pendingRbdcRequestsKbps[other]? = m.m_pendingRbdcRequestsKbps[other]?) := by
  have hupd := doRbdc_inv m m1 rc v stats h
  rw [updatePendingRbdcCounters_ok m rc v w hw hlen] at hupd
  simp only [Except.ok.injEq] at hupd
  have hrc : rc < m.m_pendingRbdcRequestsKbps.length := lt_length_of_getElem? _ _ _ hw
  have hwin : m1.m_pendingRbdcRequestsKbps[rc]?
      = some (if w.length < m.m_maxPendingCrEntries then w ++ [v] else (w ++ [v]).tail) := by
    rw [← hupd]
    simp only
    rw [List.getElem?_set_self hrc]
    by_cases hlt : w.length < m.m_maxPendingCrEntries
    · rw [if_pos hlt, if_neg (by simp only [List.length_append, List.length_singleton]; omega)]
    · rw [if_neg hlt, if_pos (by simp only [List.length_append, List.length_singleton]; omega)]
  refine ⟨hwin, ?_, ?_, ?_⟩
  · intro hpos heq
    cases w with
    | nil =>
      simp only [List.length_nil] at heq
      omega
    | cons first rest => rfl
  · intro hzero
    have hnil : w = [] := List.length_eq_zero.mp (by omega)
    rw [hwin, hnil, if_neg (by simp only [List.length_nil]; omega)]
    rfl
  · intro other hne
    rw [← hupd]
    simp only
    rw [List.getElem?_set_ne (Ne.symm hne)]

/-- C26, witness: with the default round-trip estimate (bound 5) and an empty
window, `DoRbdc` on a snapshot of 100 kbps returns a value `v`, and the window is
`[v]` afterwards. -/
theorem doRbdc_window_witness :
    ∃ v m1, DoRbdc (initialized 560000000 100000000 (oneRcConf 50 100 [0, 32, 64, 96])) 0
        ⟨100, 0, 0, 0, 0⟩ = .ok (v, m1) ∧
      m1.m_pendingRbdcRequestsKbps[0]? = some [v] := by
  obtain ⟨v, m1, hrun⟩ := doRbdc_total
    (initialized 560000000 100000000 (oneRcConf 50 100 [0, 32, 64, 96])) 0 ⟨100, 0, 0, 0, 0⟩
    (by decide) (by decide) (fun _ => by decide)
  have hclaim := (doRbdc_window
    (initialized 560000000 100000000 (oneRcConf 50 100 [0, 32, 64, 96])) m1 0 v
    ⟨100, 0, 0, 0, 0⟩ [] rfl (by decide) hrun).1
  exact ⟨v, m1, hrun, hclaim⟩

end SatRequestManager

namespace SatSuperframeAllocator

variable {σ D M U C : Type}

theorem allocateBasedOnCc_fields (ops : SatFrameAllocator σ D) (s : SatSuperframeAllocator σ)
    (ccLevel : CcLevel_t) (allocReq : SatFrameAllocReq D) (frames : SupportedFramesMap_t)
    (r : CcRun σ D) (h : AllocateBasedOnCc ops s ccLevel allocReq frames = some r) :
    r.state.m_frameAllocators = s.m_frameAllocators ∧ r.state.m_targetLoad = s.m_targetLoad ∧
    r.state.m_fcaEnabled = s.m_fcaEnabled := by
  unfold AllocateBasedOnCc at h
  cases frames with
  | nil => cases h
  | cons first rest =>
    simp only [Option.some.injEq] at h
    subst h
    exact ⟨rfl, rfl, rfl⟩

theorem allocateToFrame_run (ops : SatFrameAllocator σ D)
    (s : SatSuperframeAllocator σ) (allocReq : SatFrameAllocReq D) :
    ∃ r, AllocateToFrame ops s allocReq = some r ∧
      r.ccCalls.length ≤ 4 ∧
      (∀ c ∈ r.ccCalls, c.frames = findSupportedFrames ops s allocReq.m_cno ∧ c.frames ≠ []) ∧
      r.state.m_frameAllocators = s.m_frameAllocators ∧
      r.state.m_targetLoad = s.m_targetLoad ∧ r.state.m_fcaEnabled = s.m_fcaEnabled := by
  unfold AllocateToFrame
  simp only
  by_cases hemp : (findSupportedFrames ops s allocReq.m_cno).isEmpty = false
  · have hne : findSupportedFrames ops s allocReq.m_cno ≠ [] := by
      intro hnil
      rw [hnil] at hemp
      cases hemp
    rw [if_pos hemp]
    obtain ⟨r1, h1⟩ := allocateBasedOnCc_some ops s .CC_LEVEL_CRA_RBDC_VBDC allocReq _ hne
    obtain ⟨f1, g1, e1⟩ := allocateBasedOnCc_fields ops s _ allocReq _ r1 h1
    rw [h1]
    simp only
    by_cases a1 : r1.allocated = false
    · rw [if_pos a1]
      obtain ⟨r2, h2⟩ := allocateBasedOnCc_some ops r1.state .CC_LEVEL_CRA_RBDC allocReq _ hne
      obtain ⟨f2, g2, e2⟩ := allocateBasedOnCc_fields ops r1.state _ allocReq _ r2 h2
      rw [h2]
      simp only
      by_cases a2 : r2.allocated = false
      · rw [if_pos a2]
        obtain ⟨r3, h3⟩ :=
          allocateBasedOnCc_some ops r2.state .CC_LEVEL_CRA_MIN_RBDC allocReq _ hne
        obtain ⟨f3, g3, e3⟩ := allocateBasedOnCc_fields ops r2.state _ allocReq _ r3 h3
        rw [h3]
        simp only
        by_cases a3 : r3.allocated = false
        · rw [if_pos a3]
          obtain ⟨r4, h4⟩ := allocateBasedOnCc_some ops r3.state .CC_LEVEL_CRA allocReq _ hne
          obtain ⟨f4, g4, e4⟩ := allocateBasedOnCc_fields ops r3.state _ allocReq _ r4 h4
          rw [h4]
          refine ⟨_, rfl, by simp, ?_, by rw [f4, f3, f2, f1], by rw [g4, g3, g2, g1],
            by rw [e4, e3, e2, e1]⟩
          intro c hc
          simp only [List.mem_cons, List.mem_singleton, List.not_mem_nil, or_false] at hc
          rcases hc with hc | hc | hc | hc <;> rw [hc] <;> exact ⟨rfl, hne⟩
        · rw [if_neg a3]
          refine ⟨_, rfl, by simp, ?_, by rw [f3, f2, f1], by rw [g3, g2, g1],
            by rw [e3, e2, e1]⟩
          intro c hc
          simp only [List.mem_cons, List.mem_singleton, List.not_mem_nil, or_false] at hc
          rcases hc with hc | hc | hc <;> rw [hc] <;> exact ⟨rfl, hne⟩
      · rw [if_neg a2]
        refine ⟨_, rfl, by simp, ?_, by rw [f2, f1], by rw [g2, g1], by rw [e2, e1]⟩
        intro c hc
        simp only [List.mem_cons, List.mem_singleton, List.not_mem_nil, or_false] at hc
        rcases hc with hc | hc <;> rw [hc] <;> exact ⟨rfl, hne⟩
    · rw [if_neg a1]
      refine ⟨_, rfl, by simp, ?_, f1, g1, e1⟩
      intro c hc
      simp only [List.mem_singleton] at hc
      rw [hc]
      exact ⟨rfl, hne⟩
  · rw [if_neg hemp]
    exact ⟨_, rfl, by simp, by simp, rfl, rfl, rfl⟩

/-- C29: for every allocator state and every allocation request, `AllocateToFrame`
returns: no call of `AllocateBasedOnCc` it makes raises "Tried to allocate without
frames". Every call it makes (at most four) passes the collection of supported
frames computed by the first loop, the same one at each level, and that
collection is not empty. -/
theorem allocateToFrame_never_without_frames (ops : SatFrameAllocator σ D)
    (s : SatSuperframeAllocator σ) (allocReq : SatFrameAllocReq D) :
    (∃ r, AllocateToFrame ops s allocReq = some r) ∧
    (∀ r, AllocateToFrame ops s allocReq = some r →
      r.ccCalls.length ≤ 4 ∧
      ∀ c ∈ r.ccCalls, c.frames = findSupportedFrames ops s allocReq.m_cno ∧ c.frames ≠ []) := by
  obtain ⟨r0, hrun, hlen, hcalls, -⟩ := allocateToFrame_run ops s allocReq
  refine ⟨⟨r0, hrun⟩, ?_⟩
  intro r hr
  rw [hrun] at hr
  simp only [Option.some.injEq] at hr
  subst hr
  exact ⟨hlen, hcalls⟩

/-- C29, witness: two supporting frames and a request of 15 symbols: the allocation
returns, and each of its calls of `AllocateBasedOnCc` received the frames 1 and 2
with their waveforms. -/
theorem allocateToFrame_never_without_frames_witness :
    ∃ r, AllocateToFrame exampleFrameAllocator (twoFrames (some 3) (some 7)) ⟨0, 15⟩ = some r ∧
      r.ccCalls.length ≤ 4 ∧ ∀ c ∈ r.ccCalls, c.frames = [(1, 3), (2, 7)] := by
  obtain ⟨⟨r, hr⟩, hall⟩ := allocateToFrame_never_without_frames exampleFrameAllocator
    (twoFrames (some 3) (some 7)) ⟨0, 15⟩
  have hsupp : findSupportedFrames exampleFrameAllocator (twoFrames (some 3) (some 7)) 0
      = [(1, 3), (2, 7)] := by
    simp [findSupportedFrames, twoFrames, exampleFrameAllocator, SupportedFramesMap_t.insert]
  refine ⟨r, hr, (hall r hr).1, ?_⟩
  intro c hc
  rw [((hall r hr).2 c hc).1]
  exact hsupp

/-- C30, counterexample: smallest carrier payload 1000, remaining budget 500, most
robust slot payload 200: reserving `2 ^ 32 - 150` bytes with control slots raises
no fatal error (the 32-bit sum is 50), although the bytes exceed the remaining
budget, and the subtraction wraps: the budget becomes 650. -/
theorem reserve_no_wrap_counterexample :
    (ReserveMinimumRate (budgetOnly 1000 500 200) 4294967146 true).isFatal = false ∧
    ¬ (4294967146 ≤ (budgetOnly 1000 500 200).m_minimumRateBasedBytesLeft) ∧
    ¬ (4294967146 + (budgetOnly 1000 500 200).m_mostRobustSlotPayloadInBytes
        ≤ (budgetOnly 1000 500 200).m_minCarrierPayloadInBytes) ∧
    (ReserveMinimumRate (budgetOnly 1000 500 200) 4294967146
      true).state.m_minimumRateBasedBytesLeft = 650 := by
  decide

/-- C30, amended: with all quantities 32-bit unsigned, whenever `ReserveMinimumRate`
raises no fatal error and the sum `bytes + (mostRobustSlotPayloadInBytes if
controlSlotsEnabled, else 0)` is below `2 ^ 32` (it always is without control
slots), `bytes <= ` the remaining budget and the sum `<= minCarrierPayloadInBytes`
hold as natural numbers, and the subtraction does not wrap: the new budget is the
old one minus `bytes`. When the sum reaches `2 ^ 32` and no fatal error is raised,
the sum exceeds `minCarrierPayloadInBytes`. -/
theorem reserve_no_wrap (s : SatSuperframeAllocator σ) (bytes : Nat) (controlSlotsEnabled : Bool)
    (hwf : WellFormed s) (hbytes : bytes < 4294967296)
    (hret : (ReserveMinimumRate s bytes controlSlotsEnabled).isFatal = false) :
    ((bytes + (if controlSlotsEnabled then s.m_mostRobustSlotPayloadInBytes else 0)
        < 4294967296) →
      bytes ≤ s.m_minimumRateBasedBytesLeft ∧
      bytes + (if controlSlotsEnabled then s.m_mostRobustSlotPayloadInBytes else 0)
        ≤ s.m_minCarrierPayloadInBytes ∧
      (ReserveMinimumRate s bytes controlSlotsEnabled).state.m_minimumRateBasedBytesLeft
        = s.m_minimumRateBasedBytesLeft - bytes) ∧
    (controlSlotsEnabled = false →
      bytes + (if controlSlotsEnabled then s.m_mostRobustSlotPayloadInBytes else 0)
        < 4294967296) ∧
    (4294967296 ≤ bytes + (if controlSlotsEnabled then s.m_mostRobustSlotPayloadInBytes else 0) →
      ¬ (bytes + (if controlSlotsEnabled then s.m_mostRobustSlotPayloadInBytes else 0)
        ≤ s.m_minCarrierPayloadInBytes)) := by
  obtain ⟨hcarrier, hleft, hrobust⟩ := hwf
  refine ⟨?_, ?_, ?_⟩
  · intro hsum
    have hcheck : rateBasedByteToCheck s bytes controlSlotsEnabled
        = bytes + (if controlSlotsEnabled then s.m_mostRobustSlotPayloadInBytes else 0) := by
      unfold rateBasedByteToCheck add32
      cases controlSlotsEnabled
      · simp
      · simp only [if_true] at hsum ⊢
        exact Nat.mod_eq_of_lt hsum
    unfold ReserveMinimumRate at hret ⊢
    simp only at hret ⊢
    rw [hcheck] at hret ⊢
    by_cases h1 : bytes + (if controlSlotsEnabled then s.m_mostRobustSlotPayloadInBytes else 0)
        > s.m_minCarrierPayloadInBytes
    · rw [if_pos h1] at hret
      cases hret
    · rw [if_neg h1] at hret ⊢
      by_cases h2 : bytes
          + (if controlSlotsEnabled then s.m_mostRobustSlotPayloadInBytes else 0)
          > s.m_minimumRateBasedBytesLeft
      · rw [if_pos h2] at hret
        cases hret
      · rw [if_neg h2]
        have hle : bytes ≤ s.m_minimumRateBasedBytesLeft := by omega
        refine ⟨hle, by omega, ?_⟩
        simp only [Outcome.state, sub32]
        omega
  · intro hc
    rw [hc]
    simp only [Bool.false_eq_true, if_false, Nat.add_zero]
    exact hbytes
  · intro hge
    omega

/-- C30, witness: smallest carrier payload 200, remaining budget 100, most robust
slot payload 20: reserving 30 bytes with control slots raises no fatal error, and
30 <= 100, 50 <= 200 and the new budget is 70. -/
theorem reserve_no_wrap_witness :
    (30 : Nat) ≤ (twoFrames none none).m_minimumRateBasedBytesLeft ∧
    (ReserveMinimumRate (twoFrames none none) 30 true).state.m_minimumRateBasedBytesLeft
      = 100 - 30 := by
  have h := (reserve_no_wrap (twoFrames none none) 30 true
    ⟨by decide, by decide, by decide⟩ (by decide) rfl).1 (by decide)
  exact ⟨h.1, h.2.2⟩

end SatSuperframeAllocator

theorem earliest_mem (l : List ScheduledEvent) (event : ScheduledEvent)
    (h : earliest l = some event) : event ∈ l := by
  induction l generalizing event with
  | nil => cases h
  | cons first rest ih =>
    unfold earliest at h
    cases hrest : earliest rest with
    | none =>
      rw [hrest] at h
      simp only [Option.some.injEq] at h
      rw [← h]
      exact List.mem_cons_self _ _
    | some other =>
      rw [hrest] at h
      simp only at h
      by_cases hlt : other.ts < first.ts
      · rw [if_pos hlt] at h
        simp only [Option.some.injEq] at h
        rw [← h]
        exact List.mem_cons_of_mem _ (ih other hrest)
      · rw [if_neg hlt] at h
        simp only [Option.some.injEq] at h
        rw [← h]
        exact List.mem_cons_self _ _

theorem invokeNext_inv (sim sim2 : Simulator) (event : ScheduledEvent)
    (h : sim.InvokeNext = some (event, sim2)) :
    event ∈ sim.m_events ∧ event.cancelled = false ∧ sim2.m_uid = sim.m_uid ∧
    ∀ other ∈ sim2.m_events, other ∈ sim.m_events := by
  unfold Simulator.InvokeNext at h
  cases hnext : earliest (sim.m_events.filter (fun event => !event.cancelled)) with
  | none =>
    rw [hnext] at h
    cases h
  | some first =>
    rw [hnext] at h
    simp only [Option.some.injEq, Prod.mk.injEq] at h
    obtain ⟨hev, hsim⟩ := h
    have hmem := List.mem_filter.mp (earliest_mem _ _ hnext)
    rw [← hev, ← hsim]
    refine ⟨hmem.1, by simpa using hmem.2, rfl, ?_⟩
    intro other hother
    exact (List.mem_filter.mp hother).1

theorem cancel_inv (sim : Simulator) (id : EventId) :
    (sim.Cancel id).m_uid = sim.m_uid ∧ (sim.Cancel id).m_currentTs = sim.m_currentTs ∧
    (∀ event ∈ (sim.Cancel id).m_events, ∃ old ∈ sim.m_events, event.uid = old.uid ∧
      event.handler = old.handler ∧ (old.cancelled = true → event.cancelled = true) ∧
      (id.uid = some old.uid → event.cancelled = true) ∧
      (event.cancelled = false → event = old)) := by
  unfold Simulator.Cancel
  cases hid : id.uid with
  | none =>
    refine ⟨rfl, rfl, ?_⟩
    intro event hmem
    exact ⟨event, hmem, rfl, rfl, fun hc => hc, fun hc => (by cases hc), fun _ => rfl⟩
  | some uid =>
    refine ⟨rfl, rfl, ?_⟩
    intro event hmem
    simp only [List.mem_map] at hmem
    obtain ⟨old, hold, heq⟩ := hmem
    refine ⟨old, hold, ?_⟩
    by_cases hu : old.uid = uid
    · rw [if_pos hu] at heq
      rw [← heq]
      exact ⟨rfl, rfl, fun _ => rfl, fun _ => rfl, fun hc => (by cases hc)⟩
    · rw [if_neg hu] at heq
      rw [← heq]
      refine ⟨rfl, rfl, fun hc => hc, fun hc => ?_, fun _ => rfl⟩
      simp only [Option.some.injEq] at hc
      exact absurd hc.symm hu

theorem retired_later (sim sim1 : Simulator) (uid : Nat) (hlater : Simulator.Later sim sim1)
    (hissued : uid < sim.m_uid)
    (hcancelled : ∀ event ∈ sim.m_events, event.uid = uid → event.cancelled = true) :
    uid < sim1.m_uid ∧ ∀ event ∈ sim1.m_events, event.uid = uid → event.cancelled = true := by
  induction hlater with
  | refl => exact ⟨hissued, hcancelled⟩
  | schedule sim1 delay handler _ ih =>
    obtain ⟨hlt, hall⟩ := ih
    refine ⟨Nat.lt_succ_of_lt hlt, ?_⟩
    intro event hmem huid
    simp only [Simulator.Schedule, List.mem_append, List.mem_singleton] at hmem
    rcases hmem with hold | hnew
    · exact hall event hold huid
    · rw [hnew] at huid
      simp only at huid
      omega
  | cancel sim1 id _ ih =>
    obtain ⟨hlt, hall⟩ := ih
    obtain ⟨hu, -, hev⟩ := cancel_inv sim1 id
    refine ⟨by rw [hu]; exact hlt, ?_⟩
    intro event hmem huid
    obtain ⟨old, hold, hsame, -, hkeep, -, -⟩ := hev event hmem
    exact hkeep (hall old hold (by rw [← hsame]; exact huid))
  | invoke sim1 sim2 event _ hnext ih =>
    obtain ⟨hlt, hall⟩ := ih
    obtain ⟨-, -, hu, hsub⟩ := invokeNext_inv sim1 sim2 event hnext
    exact ⟨by rw [hu]; exact hlt, fun other hmem huid => hall other (hsub other hmem) huid⟩

namespace SatRequestManager

/-- C28: for a request manager with a control callback whose report timer is in
order (`ReportTimer`), `SendCapacityRequest` at time `t` returns; the event that
`m_cnoReportEvent` identified is cancelled, and no later `InvokeNext` of the
simulator runs it; a new `SendCnoReport` event is scheduled and stored in
`m_cnoReportEvent`, and it is the only C/N0 report event pending afterwards, due
at `t + m_cnoReportInterval`; the report timer is in order again. -/
theorem sendCapacityRequest_reschedules (m : SatRequestManager) (sim : Simulator)
    (crMsg : SatCrMessage) (hctrl : m.m_ctrlCallback.isSome = true)
    (htimer : ReportTimer m sim) :
    ∃ run, SendCapacityRequest m sim crMsg = .ok run ∧
      run.manager.m_cnoReportEvent = ⟨some sim.m_uid⟩ ∧
      run.simulator.pendingReports
        = [⟨sim.m_uid, sim.m_currentTs + m.m_cnoReportInterval.ticks, false, .SendCnoReport⟩] ∧
      (∀ uid, m.m_cnoReportEvent.uid = some uid →
        (∀ event ∈ run.simulator.m_events, event.uid = uid → event.cancelled = true) ∧
        ∀ sim1, Simulator.Later run.simulator sim1 →
          ∀ event sim2, sim1.InvokeNext = some (event, sim2) → event.uid ≠ uid) ∧
      ReportTimer run.manager run.simulator := by
  obtain ⟨run, hrun⟩ := sendCapacityRequest_total m sim crMsg hctrl
  obtain ⟨-, hm, hsim, -, -⟩ := sendCapacityRequest_inv m sim crMsg run hrun
  obtain ⟨hcu, hct, hcev⟩ := cancel_inv sim m.m_cnoReportEvent
  have hnone : (sim.Cancel m.m_cnoReportEvent).pendingReports = [] := by
    unfold Simulator.pendingReports
    rw [List.filter_eq_nil_iff]
    intro event hmem hpending
    simp only [Bool.and_eq_true, Bool.not_eq_eq_eq_not, Bool.not_true, decide_eq_true_eq]
      at hpending
    obtain ⟨old, hold, -, hhandler, -, hid, hsame⟩ := hcev event hmem
    have hold_pending : old ∈ sim.pendingReports := by
      unfold Simulator.pendingReports
      rw [List.mem_filter]
      refine ⟨hold, ?_⟩
      rw [← hsame hpending.1]
      simp [hpending.1, hpending.2]
    have hcancel := hid (htimer.tracked old hold_pending)
    rw [hpending.1] at hcancel
    cases hcancel
  have hevents : run.simulator.m_events = (sim.Cancel m.m_cnoReportEvent).m_events
      ++ [⟨sim.m_uid, sim.m_currentTs + m.m_cnoReportInterval.ticks, false, .SendCnoReport⟩] := by
    rw [hsim]
    simp only [Simulator.Schedule, hcu, hct]
  have huid : run.simulator.m_uid = sim.m_uid + 1 := by
    rw [hsim]
    simp only [Simulator.Schedule, hcu]
  have hpending : run.simulator.pendingReports
      = [⟨sim.m_uid, sim.m_currentTs + m.m_cnoReportInterval.ticks, false, .SendCnoReport⟩] := by
    unfold Simulator.pendingReports at hnone ⊢
    rw [hevents, List.filter_append, hnone]
    rfl
  have hevent : run.manager.m_cnoReportEvent = ⟨some sim.m_uid⟩ := by
    rw [hm]
    simp only [Simulator.Schedule, hcu]
  have hcancelled : ∀ uid, m.m_cnoReportEvent.uid = some uid →
      ∀ event ∈ run.simulator.m_events, event.uid = uid → event.cancelled = true := by
    intro uid hid event hmem heq
    rw [hevents] at hmem
    rcases List.mem_append.mp hmem with hold | hnew
    · obtain ⟨old, -, hsame, -, -, hidc, -⟩ := hcev event hold
      exact hidc (by rw [hid, ← hsame, heq])
    · rw [List.mem_singleton.mp hnew] at heq
      simp only at heq
      have := htimer.own uid hid
      omega
  refine ⟨run, hrun, hevent, hpending, ?_, ?_⟩
  · intro uid hid
    refine ⟨hcancelled uid hid, ?_⟩
    intro sim1 hlater event sim2 hnext heq
    obtain ⟨-, hall⟩ := retired_later run.simulator sim1 uid hlater
      (by rw [huid]; exact Nat.lt_succ_of_lt (htimer.own uid hid)) (hcancelled uid hid)
    obtain ⟨hmem, hnot, -⟩ := invokeNext_inv sim1 sim2 event hnext
    rw [hall event hmem heq] at hnot
    cases hnot
  · refine ⟨?_, ?_, ?_⟩
    · intro event hmem
      rw [hevents] at hmem
      rw [huid]
      rcases List.mem_append.mp hmem with hold | hnew
      · obtain ⟨old, holdmem, hsame, -⟩ := hcev event hold
        rw [hsame]
        exact Nat.lt_succ_of_lt (htimer.issued old holdmem)
      · rw [List.mem_singleton.mp hnew]
        exact Nat.lt_succ_self _
    · intro uid hid
      rw [hevent] at hid
      simp only [Option.some.injEq] at hid
      rw [huid, ← hid]
      exact Nat.lt_succ_self _
    · intro event hmem
      rw [hpending] at hmem
      rw [List.mem_singleton.mp hmem, hevent]

/-- C28, witness: at 40 ms, with the report event 0 pending for 100 ms and a
report interval of 100 ms, `SendCapacityRequest` leaves exactly one report event
pending, the event 1 due at 140 ms, and the event 0 is cancelled. -/
theorem sendCapacityRequest_reschedules_witness :
    ∃ run, SendCapacityRequest (timerState (threeRcConf false) ⟨0, 0, 0, 0, 0⟩ (some ⟨⟩))
        reportScheduled ⟨[(1, .DA_AVBDC, 3)], none⟩ = .ok run ∧
      run.simulator.pendingReports = [⟨1, 140000000, false, .SendCnoReport⟩] ∧
      ∀ event ∈ run.simulator.m_events, event.uid = 0 → event.cancelled = true := by
  have htimer : ReportTimer (timerState (threeRcConf false) ⟨0, 0, 0, 0, 0⟩ (some ⟨⟩))
      reportScheduled := by
    refine ⟨?_, ?_, ?_⟩
    · intro event hmem
      simp only [reportScheduled, List.mem_singleton] at hmem
      rw [hmem]
      decide
    · intro uid hid
      simp only [timerState, Option.some.injEq] at hid
      rw [← hid]
      decide
    · intro event hmem
      simp only [Simulator.pendingReports, reportScheduled, List.mem_filter,
        List.mem_singleton] at hmem
      rw [hmem.1]
      rfl
  obtain ⟨run, hrun, -, hpending, hold, -⟩ := sendCapacityRequest_reschedules
    (timerState (threeRcConf false) ⟨0, 0, 0, 0, 0⟩ (some ⟨⟩)) reportScheduled
    ⟨[(1, .DA_AVBDC, 3)], none⟩ rfl htimer
  exact ⟨run, hrun, hpending, (hold 0 rfl).1⟩

end SatRequestManager

namespace SatGenericStreamEncapsulatorArq

variable {P : Type}

theorem reassembleLoop_maximal (fuel : Nat) (arq : SatGenericStreamEncapsulatorArq P)
    (hfuel : arq.m_reorderingBuffer.length ≤ fuel) :
    (reassembleLoop fuel arq).m_reorderingBuffer.find?
      (fun entry => decide (entry.1 = (reassembleLoop fuel arq).m_nextExpectedSeqNo)) = none := by
  induction fuel generalizing arq with
  | zero =>
    have hnil : arq.m_reorderingBuffer = [] := List.length_eq_zero.mp (Nat.le_zero.mp hfuel)
    simp [reassembleLoop, hnil]
  | succ fuel ih =>
    unfold reassembleLoop
    cases hfind : arq.m_reorderingBuffer.find?
        (fun entry => decide (entry.1 = arq.m_nextExpectedSeqNo)) with
    | none => exact hfind
    | some entry =>
      simp only
      apply ih
      simp only
      have hmem := List.mem_of_find?_eq_some hfind
      have hkey := List.find?_some hfind
      have hlt : (arq.m_reorderingBuffer.filter
          (fun other => decide (other.1 ≠ arq.m_nextExpectedSeqNo))).length
          < arq.m_reorderingBuffer.length := by
        rw [List.length_filter_lt_length_iff_exists]
        exact ⟨entry, hmem, by simpa using hkey⟩
      omega

theorem receivePdu_in_order (arq : SatGenericStreamEncapsulatorArq P) (n : Nat) (p : P)
    (hnext : arq.m_nextExpectedSeqNo = n % 4294967296) (hbuffer : arq.m_reorderingBuffer = []) :
    ReceivePdu arq (n % 256) p
      = { arq with
          m_nextExpectedSeqNo := (n + 1) % 4294967296
          m_reorderingBuffer := []
          received := arq.received ++ [p]
          acks := arq.acks ++ [n % 256] } := by
  have hconvert : ConvertSeqNo arq (n % 256) = n % 4294967296 := by
    unfold ConvertSeqNo
    simp only [hnext]
    have hraw : n % 4294967296 % 256 = n % 256 := by omega
    rw [hraw, if_pos (Nat.le_refl _), Nat.sub_self, if_neg (by decide)]
    omega
  have hstep : add32 (n % 4294967296) 1 = (n + 1) % 4294967296 := by
    unfold add32
    omega
  unfold ReceivePdu
  simp only [hconvert, hbuffer, List.any_nil, Bool.false_eq_true, if_false, List.nil_append]
  unfold ReassembleAndReceive
  simp only [List.length_singleton, reassembleLoop, hnext, List.find?_cons, decide_True,
    List.filter_cons, decide_not, Bool.not_true, Bool.false_eq_true, if_false, List.filter_nil,
    hstep]

theorem receiveAll_in_order (arq : SatGenericStreamEncapsulatorArq P) (n : Nat)
    (fragments : List P) (hnext : arq.m_nextExpectedSeqNo = n % 4294967296)
    (hbuffer : arq.m_reorderingBuffer = []) :
    receiveAll arq (transmit n fragments)
      = { arq with
          m_nextExpectedSeqNo := (n + fragments.length) % 4294967296
          m_reorderingBuffer := []
          received := arq.received ++ fragments
          acks := arq.acks ++ (transmit n fragments).map (fun pdu => pdu.1) } := by
  induction fragments generalizing arq n with
  | nil =>
    simp only [transmit, receiveAll, List.length_nil, Nat.add_zero, List.append_nil, List.map_nil]
    rw [← hnext, ← hbuffer]
  | cons p rest ih =>
    simp only [transmit, receiveAll]
    rw [receivePdu_in_order arq n p hnext hbuffer, ih _ (n + 1) rfl rfl]
    simp only [List.length_cons, List.append_assoc, List.singleton_append, List.map_cons]
    rw [show n + 1 + rest.length = n + (rest.length + 1) by omega]

/-- C25: for every `N` and every sequence of `N` fragments sent with consecutive
cyclic 8-bit sequence numbers and arriving in the order sent (no loss, so no
retransmission), the receiver that runs `ReceivePdu` on each (`ConvertSeqNo`,
storing in the reordering buffer, `ReassembleAndReceive`) hands all `N` fragments
to the upper layer exactly once each and in the original order; it acknowledges
each wire number, ends with an empty reordering buffer and expects the number `N`
(modulo `2 ^ 32`) next. The reassembly pass is maximal on every buffer: it leaves
no entry at the next-expected pointer. -/
theorem arq_in_order_delivery (arqWindowSize : Nat) (fragments : List P) :
    (receiveAll (fresh arqWindowSize) (transmit 0 fragments)).received = fragments ∧
    (receiveAll (fresh arqWindowSize) (transmit 0 fragments)).m_reorderingBuffer = [] ∧
    (receiveAll (fresh arqWindowSize) (transmit 0 fragments)).m_nextExpectedSeqNo
      = fragments.length % 4294967296 ∧
    (receiveAll (fresh arqWindowSize) (transmit 0 fragments)).acks
      = (transmit 0 fragments).map (fun pdu => pdu.1) ∧
    (∀ arq : SatGenericStreamEncapsulatorArq P,
      (ReassembleAndReceive arq).m_reorderingBuffer.find?
        (fun entry => decide (entry.1 = (ReassembleAndReceive arq).m_nextExpectedSeqNo))
        = none) := by
  rw [receiveAll_in_order (fresh arqWindowSize) 0 fragments rfl rfl]
  refine ⟨by simp [fresh], rfl, by simp, by simp [fresh], ?_⟩
  intro arq
  exact reassembleLoop_maximal _ arq (Nat.le_refl _)

end SatGenericStreamEncapsulatorArq

end ns3
